import Mathlib

/-!
# Send-side bandwidth estimation: monitor intervals and the estimator

A shallow embedding of `src/src/SendSideBandwidthEstimation.cpp`.

Conventions of the embedding.

* `uint64_t` values are natural numbers; every addition or subtraction of
  timestamps and bitrates that the source performs in `uint64_t` is reduced
  modulo `2 ^ 64` (`wrap`, `usub`, `ofInt64`).  Packet counters and byte
  accumulators are left unreduced: they grow by one packet (one 32-bit size)
  per call and cannot reach `2 ^ 64`.
* `double` values are rationals.  A division whose divisor is zero does
  not give a number (IEEE gives an infinity or a NaN): `fdiv` returns `none`
  there.  `std::pow` and `std::log` return doubles, hence rationals; they are
  fields of `FloatEnv`.  A conversion `double -> uint64_t` truncates when the
  truncated value is representable and is otherwise undefined by the language;
  the undefined result is the field `castUB` of `FloatEnv`.
* The available rate, the number the estimator publishes, is computed with the
  binary64 rounding of every operation (`roundDouble`: round to nearest, ties
  to even): the quotient of the loss rate, the difference `1 - lossRate` and
  the product with the estimate.  The delay gradient and the utility (which
  goes through `std::pow`, a parameter of the model) are computed over the
  exact rationals, and the sent and received bitrates are the truncated exact
  quotients.
* `std::map` is an association list kept in ascending key order.
* `std::rand()` returns the next value of a sequence fixed by the environment
  (`Env.rand`); the estimator counts the calls it has made.
* The listener is a flag (is one installed) and the log of the values passed
  to `onTargetBitrateRequested`.
* The class declarations (header) are not part of the sources; constructors,
  initial field values and inline accessors are modelled from the
  specification and marked as such.
-/

/-! ## Constants -/

/-- Source constant `kStartupDuration` (1.5 s, in microseconds). -/
def kStartupDuration : Nat := 1500000
/-- Source constant `kMonitorDuration` (250 ms). -/
def kMonitorDuration : Nat := 250000
/-- Source constant `kMonitorTimeout` (750 ms). -/
def kMonitorTimeout : Nat := 750000
/-- Source constant `kMinRate` (128 kbps). -/
def kMinRate : Nat := 128000
/-- Source constant `kMaxRate` (100 mbps). -/
def kMaxRate : Nat := 100000000
/-- Source constant `kMinRateChangeBps`. -/
def kMinRateChangeBps : Nat := 4000
/-- Source constant `kConversionFactor`. -/
def kConversionFactor : Nat := 2
/-- Source constant `kDelayGradientCoefficient` (0.005). -/
def kDelayGradientCoefficient : ℚ := 5 / 1000
/-- Source constant `kLossCoefficient`. -/
def kLossCoefficient : ℚ := 10
/-- Source constant `kThroughputPower` (0.9). -/
def kThroughputPower : ℚ := 9 / 10

/-! ## Machine arithmetic -/

/-- The number of `uint64_t` values, `2 ^ 64`. -/
def twoPow64 : Nat := 18446744073709551616
/-- The value `std::numeric_limits<uint64_t>::max()`. -/
def uint64Max : Nat := 18446744073709551615
/-- Reduction of a natural number to `uint64_t`. -/
def wrap (n : Nat) : Nat := n % twoPow64
/-- Subtraction in `uint64_t`. -/
def usub (a b : Nat) : Nat := (a + twoPow64 - b % twoPow64) % twoPow64
/-- Conversion of a mathematical integer to `uint64_t` (two's complement). -/
def ofInt64 (x : Int) : Nat := (x % (twoPow64 : Int)).toNat
/-- Conversion `uint64_t -> int64_t` (two's complement). -/
def toInt64 (n : Nat) : Int :=
  if n % twoPow64 < 9223372036854775808 then ((n % twoPow64 : Nat) : Int)
  else ((n % twoPow64 : Nat) : Int) - (twoPow64 : Int)

/-- The library functions and the undefined conversions the estimator depends on. -/
structure FloatEnv where
  /-- The function `std::pow`. -/
  pow : ℚ → ℚ → ℚ
  /-- The function `std::log`. -/
  log : ℚ → ℚ
  /-- The result of `static_cast<uint64_t>` where the language leaves it undefined. -/
  castUB : Option ℚ → Nat

/-- Division of doubles: no number results from a zero divisor. -/
def fdiv (a b : ℚ) : Option ℚ := if b = 0 then none else some (a / b)

/-- Product of a double that may be no number with a finite double. -/
def fmul (a : Option ℚ) (b : ℚ) : Option ℚ := a.map (fun x => x * b)

/-- Truth value of a double in a condition: only zero is false. -/
def ftruthy (a : Option ℚ) : Bool :=
  match a with
  | some q => decide (q ≠ 0)
  | none => true

/-- Conversion `double -> uint64_t`: truncation toward zero when representable. -/
def toUInt64 (E : FloatEnv) (x : Option ℚ) : Nat :=
  match x with
  | some q => if -1 < q ∧ q < (twoPow64 : ℚ) then Int.toNat ⌊q⌋ else wrap (E.castUB x)
  | none => wrap (E.castUB x)

/-- Rounding of a rational to the nearest integer, a tie going to the even one. -/
def roundHalfEven (q : ℚ) : Int :=
  if q - (⌊q⌋ : ℚ) < 1 / 2 then ⌊q⌋
  else if 1 / 2 < q - (⌊q⌋ : ℚ) then ⌊q⌋ + 1
  else if ⌊q⌋ % 2 = 0 then ⌊q⌋ else ⌊q⌋ + 1

/-- The exponent `e` of the binade `2 ^ e <= |q| < 2 ^ (e + 1)` of a double; it is not
below -1022, the exponent that the subnormal numbers share with the smallest normal ones. -/
def binade (q : ℚ) : Int := max (Int.log 2 |q|) (-1022)

/-- The binary64 value of a real result: the nearest multiple of `2 ^ (e - 52)`, `e` the
exponent of the binade, a tie going to the even significand.  Results of magnitude
`2 ^ 1024` and above, which IEEE turns into an infinity, do not arise from the operands this
is applied to (counts, loss rates and bitrates below `2 ^ 64`). -/
def roundDouble (q : ℚ) : ℚ :=
  (roundHalfEven (q / (2 : ℚ) ^ (binade q - 52)) : ℚ) * (2 : ℚ) ^ (binade q - 52)

/-! ## MonitorInterval -/

/-- The class `MonitorInterval`: its data members. -/
structure MonitorInterval where
  target : Nat
  start : Nat
  duration : Nat
  firstSent : Nat
  lastSent : Nat
  firstRecv : Nat
  lastRecv : Nat
  accumulatedSentSize : Nat
  accumulatedReceivedSize : Nat
  totalSentPackets : Nat
  totalFeedbackedPackets : Nat
  lostPackets : Nat
  feedbackCollectionDone : Bool
  deltas : List (Nat × Int)
deriving DecidableEq, Repr

/-- Modelled from the spec: the constructor `MonitorInterval(target, start, duration)`
of the absent header; the first and last timestamps start at the unset sentinel,
every counter at zero. -/
def MonitorInterval.create (target start duration : Nat) : MonitorInterval :=
  { target := target, start := start, duration := duration,
    firstSent := uint64Max, lastSent := uint64Max,
    firstRecv := uint64Max, lastRecv := uint64Max,
    accumulatedSentSize := 0, accumulatedReceivedSize := 0,
    totalSentPackets := 0, totalFeedbackedPackets := 0, lostPackets := 0,
    feedbackCollectionDone := false, deltas := [] }

/-- Modelled from the spec: the accessor `GetStartTime` of the absent header. -/
def MonitorInterval.GetStartTime (m : MonitorInterval) : Nat := m.start

/-- Modelled from the spec: the accessor `GetEndTime` of the absent header,
`end = start + duration` in `uint64_t`. -/
def MonitorInterval.GetEndTime (m : MonitorInterval) : Nat := wrap (m.start + m.duration)

/-- Modelled from the spec: the accessor `GetTargetBitrate` of the absent header. -/
def MonitorInterval.GetTargetBitrate (m : MonitorInterval) : Nat := m.target

/-- Modelled from the spec: the accessor `IsFeedbackCollectionDone` of the absent header. -/
def MonitorInterval.IsFeedbackCollectionDone (m : MonitorInterval) : Bool :=
  m.feedbackCollectionDone

/-- The method `MonitorInterval::SentPacket`: the returned flag and the interval afterwards. -/
def MonitorInterval.SentPacket (m : MonitorInterval) (sent size : Nat) : Bool × MonitorInterval :=
  if sent < m.start ∨ sent > m.GetEndTime then (false, m)
  else
    (true,
      { m with
        firstSent := if m.firstSent = uint64Max then sent else m.firstSent
        lastSent := sent
        accumulatedSentSize := m.accumulatedSentSize + size
        totalSentPackets := m.totalSentPackets + 1 })

/-- The method `MonitorInterval::Feedback`: the returned flag and the interval afterwards.
The receive time `uint64Max` stands for a lost packet. -/
def MonitorInterval.Feedback (m : MonitorInterval) (sent recv size : Nat) (delta : Int) :
    Bool × MonitorInterval :=
  if sent < m.start then (false, m)
  else if sent > m.GetEndTime then (false, { m with feedbackCollectionDone := true })
  else if recv ≠ uint64Max then
    (true,
      { m with
        totalFeedbackedPackets := m.totalFeedbackedPackets + 1
        firstRecv := if m.firstRecv = uint64Max then recv else m.firstRecv
        lastRecv := recv
        accumulatedReceivedSize := m.accumulatedReceivedSize + size
        deltas := m.deltas ++ [(sent, delta)] })
  else
    (true,
      { m with
        totalFeedbackedPackets := m.totalFeedbackedPackets + 1
        lostPackets := m.lostPackets + 1 })

/-- The method `MonitorInterval::GetSentBitrate`; the double quotient converted to
`uint64_t` is the truncated exact quotient. -/
def MonitorInterval.GetSentBitrate (m : MonitorInterval) : Nat :=
  if m.lastSent ≠ m.firstSent then
    m.accumulatedSentSize * 8000000 / usub m.lastSent m.firstSent
  else 0

/-- The method `MonitorInterval::GetReceivedBitrate`. -/
def MonitorInterval.GetReceivedBitrate (m : MonitorInterval) : Nat :=
  if m.lastRecv ≠ m.firstRecv then
    m.accumulatedReceivedSize * 8000000 / usub m.lastRecv m.firstRecv
  else 0

/-- The method `MonitorInterval::GetLossRate`. -/
def MonitorInterval.GetLossRate (m : MonitorInterval) : ℚ :=
  if m.totalFeedbackedPackets ≠ 0 then
    (m.lostPackets : ℚ) / (m.totalFeedbackedPackets : ℚ)
  else 0

/-- First loop of `ComputeDelayGradient`: the sums of the sample times and of the delays. -/
def delaySums (deltas : List (Nat × Int)) : ℚ × ℚ :=
  deltas.foldl (fun acc d => (acc.1 + (d.1 : ℚ), acc.2 + (d.2 : ℚ))) (0, 0)

/-- Second loop of `ComputeDelayGradient`: the sum of the squared centred times and the
sum of the centred times multiplied by the delays. -/
def delayScaled (timeSum : ℚ) (deltas : List (Nat × Int)) : ℚ × ℚ :=
  deltas.foldl
    (fun acc d =>
      let scaledTimeDelta : ℚ := (d.1 : ℚ) - timeSum / (deltas.length : ℚ)
      (acc.1 + scaledTimeDelta * scaledTimeDelta, acc.2 + scaledTimeDelta * (d.2 : ℚ)))
    (0, 0)

/-- The method `MonitorInterval::ComputeDelayGradient`. -/
def MonitorInterval.ComputeDelayGradient (m : MonitorInterval) : ℚ :=
  let timeSum := (delaySums m.deltas).1
  let squaredScaledTimeDeltaSum := (delayScaled timeSum m.deltas).1
  let scaledTimeDeltaDelay := (delayScaled timeSum m.deltas).2
  if squaredScaledTimeDeltaSum ≠ 0 then scaledTimeDeltaDelay / squaredScaledTimeDeltaSum else 0

/-- The method `MonitorInterval::ComputeVivaceUtilityFunction`. -/
def MonitorInterval.ComputeVivaceUtilityFunction (E : FloatEnv) (m : MonitorInterval) : ℚ :=
  let bitrate : ℚ := (m.GetSentBitrate : ℚ)
  let lossrate : ℚ := m.GetLossRate
  let delayGradient : ℚ := m.ComputeDelayGradient
  E.pow bitrate kThroughputPower - (kDelayGradientCoefficient * delayGradient * bitrate)
    - (kLossCoefficient * lossrate * bitrate)

/-! ## SendSideBandwidthEstimation -/

/-- The controller states `ChangeState`. -/
inductive ChangeState where
  | Increase
  | Decrease
  | OverShoot
deriving DecidableEq, Repr

/-- The record `PacketStats`, restricted to the members the estimator computes with
(the flags `mark`, `rtx` and `probing` only reach the diagnostics dump). -/
structure PacketStats where
  transportWideSeqNum : Nat
  time : Nat
  size : Nat
deriving DecidableEq, Repr

/-- The environment of the estimator: the floating-point library and conversions, and the
sequence of values returned by successive calls of `std::rand()`. -/
structure Env extends FloatEnv where
  /-- The value returned by the call number `n` of `std::rand()`. -/
  rand : Nat → Nat

/-- The class `SendSideBandwidthEstimation`: its data members, the log of the values
passed to the listener, and the number of calls of `std::rand()` made so far. -/
structure SendSideBandwidthEstimation where
  transportWideSentPacketsStats : List (Nat × PacketStats)
  bandwidthEstimation : Nat
  availableRate : Nat
  firstSent : Nat
  firstRecv : Nat
  prevSent : Nat
  prevRecv : Nat
  lastRecv : Nat
  rtt : Nat
  state : ChangeState
  consecutiveChanges : Nat
  monitorIntervals : List MonitorInterval
  listener : Bool
  requested : List Nat
  randCalls : Nat
deriving DecidableEq, Repr

/-- Modelled from the spec: the freshly constructed estimator (the member initialisers are
in the absent header): no interval, nothing in flight, every number zero, state `Increase`,
no listener. -/
def SendSideBandwidthEstimation.fresh : SendSideBandwidthEstimation :=
  { transportWideSentPacketsStats := [], bandwidthEstimation := 0, availableRate := 0,
    firstSent := 0, firstRecv := 0, prevSent := 0, prevRecv := 0, lastRecv := 0, rtt := 0,
    state := ChangeState.Increase, consecutiveChanges := 0, monitorIntervals := [],
    listener := false, requested := [], randCalls := 0 }

/-- The assignment `map[key] = value` on a `std::map` kept in ascending key order. -/
def mapInsert (k : Nat) (v : PacketStats) : List (Nat × PacketStats) → List (Nat × PacketStats)
  | [] => [(k, v)]
  | e :: rest =>
    if k < e.1 then (k, v) :: e :: rest
    else if k = e.1 then (k, v) :: rest
    else e :: mapInsert k v rest

/-- The lookup `map.find(key)`. -/
def mapFind (k : Nat) : List (Nat × PacketStats) → Option PacketStats
  | [] => none
  | e :: rest => if e.1 = k then some e.2 else mapFind k rest

/-- The removal `map.erase(it)` of the entry found under `key`. -/
def mapErase (k : Nat) : List (Nat × PacketStats) → List (Nat × PacketStats)
  | [] => []
  | e :: rest => if e.1 = k then rest else e :: mapErase k rest

/-- The loop `while (it != end && cond) it = map.erase(it)` started at `map.begin()`,
for a condition that does not depend on the iterator. -/
def eraseWhile (cond : Bool) : List (Nat × PacketStats) → List (Nat × PacketStats)
  | [] => []
  | e :: rest => if cond then eraseWhile cond rest else e :: rest

/-- The loop `for (auto& interval : monitorIntervals) interval.SentPacket(sent, size)`. -/
def sentAll (ms : List MonitorInterval) (sent size : Nat) : List MonitorInterval :=
  ms.map (fun m => (m.SentPacket sent size).2)

/-- The loop over the intervals in `ReceivedFeedback`: every interval is offered the feedback;
the flag is the conjunction of `IsFeedbackCollectionDone()` over the intervals afterwards. -/
def feedbackAll (ms : List MonitorInterval) (sent recv size : Nat) (delta : Int) :
    List MonitorInterval × Bool :=
  let ms1 := ms.map (fun m => (m.Feedback sent recv size delta).2)
  (ms1, ms1.all (fun m => m.IsFeedbackCollectionDone))

/-- The call `if (listener) listener->onTargetBitrateRequested(rate)`. -/
def SendSideBandwidthEstimation.notify (s : SendSideBandwidthEstimation) (rate : Nat) :
    SendSideBandwidthEstimation :=
  if s.listener then { s with requested := s.requested ++ [rate] } else s

/-- The method `SendSideBandwidthEstimation::UpdateRTT`. -/
def SendSideBandwidthEstimation.UpdateRTT (s : SendSideBandwidthEstimation) (rtt : Nat) :
    SendSideBandwidthEstimation :=
  { s with rtt := rtt }

/-- Modelled from the spec: the method `SetListener` of the absent header; it installs
(`true`) or removes (`false`) the callback object. -/
def SendSideBandwidthEstimation.SetListener (s : SendSideBandwidthEstimation) (enabled : Bool) :
    SendSideBandwidthEstimation :=
  { s with listener := enabled }

/-- The utility gradient of `EstimateBandwidthRate`,
`(utility0 - utility1) / (bitrate0 - bitrate1)`. -/
def utilityGradient (utility0 utility1 bitrate0 bitrate1 : ℚ) : Option ℚ :=
  fdiv (utility0 - utility1) (bitrate0 - bitrate1)

/-- The local `targetBitrate` of `EstimateBandwidthRate`. -/
def targetSent (bitrate0 bitrate1 : Nat) : Nat :=
  if bitrate0 ≠ 0 ∧ bitrate1 ≠ 0 then (bitrate0 + bitrate1) / 2 else bitrate0 + bitrate1

/-- The double `bandwidthEstimation * (1 - lossRate)` of `EstimateBandwidthRate` (source
lines 436-438) for the loss rates `loss0` and `loss1` of the two intervals as real
quotients: each quotient (the double that `GetLossRate` returns; the counts themselves
convert exactly below `2 ^ 53`), the estimate converted to `double`, the difference and the
product are rounded to binary64. -/
def availableDouble (bandwidthEstimation : Nat) (loss0 loss1 : ℚ) : ℚ :=
  roundDouble (roundDouble (bandwidthEstimation : ℚ)
    * roundDouble (1 - max (roundDouble loss0) (roundDouble loss1)))

/-- The method `SendSideBandwidthEstimation::EstimateBandwidthRate`. -/
def SendSideBandwidthEstimation.EstimateBandwidthRate (E : Env)
    (s : SendSideBandwidthEstimation) : SendSideBandwidthEstimation :=
  match s.monitorIntervals with
  | [] => s
  | [m] =>
    let r := m.GetReceivedBitrate
    ({ s with availableRate := r, bandwidthEstimation := r }).notify r
  | m0 :: m1 :: _ =>
    let utility0 := m0.ComputeVivaceUtilityFunction E.toFloatEnv
    let utility1 := m1.ComputeVivaceUtilityFunction E.toFloatEnv
    let bitrate0 := m0.GetSentBitrate
    let bitrate1 := m1.GetSentBitrate
    let targetBitrate := targetSent bitrate0 bitrate1
    let gradient := utilityGradient utility0 utility1 (bitrate0 : ℚ) (bitrate1 : ℚ)
    let prevState := s.state
    let state :=
      if targetBitrate > max m0.GetTargetBitrate m1.GetReceivedBitrate then ChangeState.OverShoot
      else if ftruthy gradient then ChangeState.Increase else ChangeState.Decrease
    let consecutiveChanges := if prevState = state then s.consecutiveChanges + 1 else 0
    let estimation :=
      if state ≠ ChangeState.OverShoot then
        let confidenceAmplifier := E.log ((consecutiveChanges : ℚ) + 1)
        let rateChange :=
          toUInt64 E.toFloatEnv (fmul (fmul gradient confidenceAmplifier) (kConversionFactor : ℚ))
        wrap (targetBitrate + rateChange)
      else min m0.GetReceivedBitrate m1.GetReceivedBitrate
    let clamped := min (max estimation kMinRate) kMaxRate
    let available :=
      toUInt64 E.toFloatEnv (some (availableDouble clamped m0.GetLossRate m1.GetLossRate))
    ({ s with
        state := state
        consecutiveChanges := consecutiveChanges
        bandwidthEstimation := clamped
        availableRate := available }).notify available

/-- The coin of `CreateIntervals`, `2 * (std::rand() % 2) - 1`. -/
def coinSign (r : Nat) : Int := 2 * ((r % 2 : Nat) : Int) - 1

/-- The step of `CreateIntervals`; the double product `bandwidthEstimation * 0.1` converted
to `uint64_t` is the truncated tenth. -/
def probeStep (bandwidthEstimation : Nat) : Nat :=
  max (bandwidthEstimation / 10) kMinRateChangeBps

/-- The two probing bitrates `monitorIntervalsBitrates` of `CreateIntervals`. -/
def monitorIntervalsBitrates (bandwidthEstimation : Nat) (sign : Int) : Nat × Nat :=
  let step := probeStep bandwidthEstimation
  (min (ofInt64 ((bandwidthEstimation : Int) + sign * (step : Int))) kMaxRate,
   max (ofInt64 ((bandwidthEstimation : Int) - sign * (step : Int))) kMinRate)

/-- The replay loop of `CreateIntervals`: every entry of the map, in key order, is offered
to every interval. -/
def replayInFlight (firstSent : Nat) (entries : List (Nat × PacketStats))
    (ms : List MonitorInterval) : List MonitorInterval :=
  entries.foldl (fun acc entry => sentAll acc (usub entry.2.time firstSent) entry.2.size) ms

/-- The method `SendSideBandwidthEstimation::CreateIntervals`. -/
def SendSideBandwidthEstimation.CreateIntervals (E : Env) (s : SendSideBandwidthEstimation)
    (time : Nat) : SendSideBandwidthEstimation :=
  let sign := coinSign (E.rand s.randCalls)
  let rates := monitorIntervalsBitrates s.bandwidthEstimation sign
  let created :=
    [MonitorInterval.create rates.1 time kMonitorDuration,
     MonitorInterval.create rates.2 (wrap (time + kMonitorDuration)) kMonitorDuration]
  { s with
    monitorIntervals := replayInFlight s.firstSent s.transportWideSentPacketsStats created
    randCalls := s.randCalls + 1 }

/-- Modelled from the spec: the two-argument constructor used for the startup interval
(absent header), `(target = 0, start, duration)`. -/
def MonitorInterval.createStartup (start duration : Nat) : MonitorInterval :=
  MonitorInterval.create 0 start duration

/-- First part of `SendSideBandwidthEstimation::SentPacket` (source lines 173-189): the
initialisation at the first packet, then the packet is offered to every interval. -/
def SendSideBandwidthEstimation.sentOffer (s : SendSideBandwidthEstimation)
    (stats : PacketStats) : SendSideBandwidthEstimation :=
  let s1 :=
    if s.firstSent = 0 then
      { s with
        firstSent := stats.time
        monitorIntervals :=
          s.monitorIntervals ++ [MonitorInterval.createStartup 0 kStartupDuration] }
    else s
  let sentTime := usub stats.time s1.firstSent
  { s1 with monitorIntervals := sentAll s1.monitorIntervals sentTime stats.size }

/-- Second part of `SendSideBandwidthEstimation::SentPacket` (source lines 191-198): the
expiry check against the last interval `back`, with the estimation and the new intervals. -/
def SendSideBandwidthEstimation.sentExpire (E : Env) (s : SendSideBandwidthEstimation)
    (back : MonitorInterval) (sentTime : Nat) : SendSideBandwidthEstimation :=
  if sentTime > wrap (back.GetEndTime + s.rtt + kMonitorTimeout) then
    (s.EstimateBandwidthRate E).CreateIntervals E sentTime
  else s

/-- Third part of `SendSideBandwidthEstimation::SentPacket` (source lines 200-207): the
packet enters the history map, then the erase loop runs against the first interval `front`. -/
def SendSideBandwidthEstimation.sentRecord (s : SendSideBandwidthEstimation)
    (stats : PacketStats) (front : MonitorInterval) : SendSideBandwidthEstimation :=
  { s with
    transportWideSentPacketsStats :=
      eraseWhile (decide (usub stats.time s.firstSent < front.GetStartTime))
        (mapInsert stats.transportWideSeqNum stats s.transportWideSentPacketsStats) }

/-- The method `SendSideBandwidthEstimation::SentPacket`. The result is `none` where the
source calls `back()` or `front()` on an empty vector. -/
def SendSideBandwidthEstimation.SentPacket (E : Env) (s : SendSideBandwidthEstimation)
    (stats : PacketStats) : Option SendSideBandwidthEstimation :=
  let s2 := s.sentOffer stats
  let sentTime := usub stats.time s2.firstSent
  match s2.monitorIntervals.getLast? with
  | none => none
  | some back =>
    let s3 := s2.sentExpire E back sentTime
    match s3.monitorIntervals.head? with
    | none => none
    | some front => some (s3.sentRecord stats front)

/-- The body of the loop of `ReceivedFeedback` for one entry `(transportSeqNum, receivedTime)`
of the feedback. -/
def SendSideBandwidthEstimation.feedbackPacket (E : Env) (s : SendSideBandwidthEstimation)
    (transportSeqNum receivedTime : Nat) : SendSideBandwidthEstimation :=
  match mapFind transportSeqNum s.transportWideSentPacketsStats with
  | none => s
  | some stat =>
    let sentTime := stat.time
    let s1 :=
      if s.firstRecv = 0 then
        { s with prevSent := sentTime, prevRecv := receivedTime, firstRecv := receivedTime }
      else s
    let sent := usub sentTime s1.firstSent
    let recv := if receivedTime ≠ 0 then usub receivedTime s1.firstRecv else 0
    let deltaSent := usub sent s1.prevSent
    let deltaRecv := if receivedTime ≠ 0 then usub recv s1.prevRecv else 0
    let delta := if receivedTime ≠ 0 then usub deltaRecv deltaSent else 0
    let fb :=
      feedbackAll s1.monitorIntervals sent (if receivedTime ≠ 0 then recv else uint64Max)
        stat.size (toInt64 delta)
    let s2 := { s1 with monitorIntervals := fb.1 }
    let s3 := if fb.2 then (s2.EstimateBandwidthRate E).CreateIntervals E sent else s2
    let s4 :=
      if receivedTime ≠ 0 then
        { s3 with lastRecv := receivedTime, prevSent := sent, prevRecv := recv }
      else s3
    { s4 with
      transportWideSentPacketsStats := mapErase transportSeqNum s4.transportWideSentPacketsStats }

/-- The method `SendSideBandwidthEstimation::ReceivedFeedback`; `packets` lists the entries
of the feedback map in iteration order. The diagnostics dump is not modelled. -/
def SendSideBandwidthEstimation.ReceivedFeedback (E : Env) (s : SendSideBandwidthEstimation)
    (feedbackNum : Nat) (packets : List (Nat × Nat)) (when : Nat) :
    SendSideBandwidthEstimation :=
  if packets.isEmpty then s
  else packets.foldl (fun st feedback => st.feedbackPacket E feedback.1 feedback.2) s

/-! ## Call sequences -/

/-- One call of the public interface. -/
inductive Event where
  | sent (stats : PacketStats)
  | feedback (feedbackNum : Nat) (packets : List (Nat × Nat)) (when : Nat)
  | rtt (rtt : Nat)
  | listener (enabled : Bool)
deriving DecidableEq, Repr

/-- The effect of one call. -/
def SendSideBandwidthEstimation.step (E : Env) (s : SendSideBandwidthEstimation) :
    Event → Option SendSideBandwidthEstimation
  | Event.sent stats => s.SentPacket E stats
  | Event.feedback feedbackNum packets when => some (s.ReceivedFeedback E feedbackNum packets when)
  | Event.rtt rtt => some (s.UpdateRTT rtt)
  | Event.listener enabled => some (s.SetListener enabled)

/-- The effect of a sequence of calls, in order. -/
def SendSideBandwidthEstimation.run (E : Env) (s : SendSideBandwidthEstimation) :
    List Event → Option SendSideBandwidthEstimation
  | [] => some s
  | e :: es =>
    match s.step E e with
    | none => none
    | some s1 => s1.run E es

/-- The send times of the `OnSentPacket` calls of a sequence, in order. -/
def sentTimes : List Event → List Nat
  | [] => []
  | Event.sent stats :: es => stats.time :: sentTimes es
  | _ :: es => sentTimes es

/-- A list of numbers is nondecreasing. -/
def nondecreasing : List Nat → Bool
  | [] => true
  | [_] => true
  | a :: b :: rest => decide (a ≤ b) && nondecreasing (b :: rest)

/-- An environment for evaluating the model on concrete inputs: stand-ins for the library
functions, the x86-64 result for undefined conversions, and the constant coin `r`. -/
def Env.sample (r : Nat) : Env :=
  { pow := fun x _ => x, log := fun x => x - 1, castUB := fun _ => 9223372036854775808,
    rand := fun _ => r }

/-! ## Sequences of calls on one interval -/

/-- One call on a `MonitorInterval`. -/
inductive IntervalCall where
  | sentPacket (sent size : Nat)
  | feedback (sent recv size : Nat) (delta : Int)
deriving DecidableEq, Repr

/-- The interval after one call. -/
def MonitorInterval.call (m : MonitorInterval) : IntervalCall → MonitorInterval
  | IntervalCall.sentPacket sent size => (m.SentPacket sent size).2
  | IntervalCall.feedback sent recv size delta => (m.Feedback sent recv size delta).2

/-- The interval after a sequence of calls, in order. -/
def MonitorInterval.calls (m : MonitorInterval) (cs : List IntervalCall) : MonitorInterval :=
  cs.foldl MonitorInterval.call m

/-! ## Properties of one interval kept by every call -/

/-- A property of intervals that holds at construction and is kept by `SentPacket` and
`Feedback`. -/
structure IntervalInvariant (P : MonitorInterval → Prop) : Prop where
  create : ∀ target start duration, P (MonitorInterval.create target start duration)
  sentPacket : ∀ m sent size, P m → P (m.SentPacket sent size).2
  feedback : ∀ m sent recv size delta, P m → P (m.Feedback sent recv size delta).2

/-- The received and the lost packets of an interval add up to the feedbacked ones. -/
def FeedbackCounted (m : MonitorInterval) : Prop :=
  m.lostPackets + m.deltas.length = m.totalFeedbackedPackets

/-- The lost packets of an interval are among its feedbacked packets. -/
def LossCounted (m : MonitorInterval) : Prop :=
  m.lostPackets ≤ m.totalFeedbackedPackets

/-- The available rate does not exceed the estimate, and every interval counts its lost
packets among the feedbacked ones. -/
def AvailableBounded (s : SendSideBandwidthEstimation) : Prop :=
  s.availableRate ≤ s.bandwidthEstimation ∧ ∀ m ∈ s.monitorIntervals, LossCounted m

/-! ## Concrete inputs used to instantiate the theorems -/

/-- An interval of 250 ms with five feedbacked packets of 1200 bytes, the last one lost
(20 % loss). -/
def lossyInterval (target start : Nat) : MonitorInterval :=
  (MonitorInterval.create target start kMonitorDuration).calls
    [IntervalCall.feedback (start + 10000) 30000 1200 0,
     IntervalCall.feedback (start + 20000) 40000 1200 0,
     IntervalCall.feedback (start + 30000) 50000 1200 0,
     IntervalCall.feedback (start + 40000) 60000 1200 0,
     IntervalCall.feedback (start + 50000) uint64Max 1200 0]

/-- An estimator with a listener and a probing pair that saw 20 % loss in both intervals. -/
def lossyPair : SendSideBandwidthEstimation :=
  { SendSideBandwidthEstimation.fresh with
    firstSent := 1000000
    bandwidthEstimation := 1000000
    availableRate := 1000000
    listener := true
    monitorIntervals := [lossyInterval 1100000 0, lossyInterval 900000 250000] }

/-! ## Predicates used in the statements -/

/-- The construction parameters of an interval: target bitrate, start and duration. -/
def MonitorInterval.shape (m : MonitorInterval) : Nat × Nat × Nat :=
  (m.target, m.start, m.duration)

/-- The estimator has seen its first packet at the nonzero time `firstSent`, and holds
either the startup interval alone or a pair of probing intervals of 250 ms. -/
def Started (firstSent : Nat) (s : SendSideBandwidthEstimation) : Prop :=
  firstSent ≠ 0 ∧ s.firstSent = firstSent
  ∧ (s.monitorIntervals.map MonitorInterval.shape = [(0, 0, kStartupDuration)]
      ∨ (s.monitorIntervals.length = 2
          ∧ ∀ m ∈ s.monitorIntervals, m.duration = kMonitorDuration))

/-- The last send time recorded by an interval that has recorded a packet lies in its
window. -/
def SentInWindow (m : MonitorInterval) : Prop :=
  m.totalSentPackets ≠ 0 → m.start ≤ m.lastSent ∧ m.lastSent ≤ m.GetEndTime

/-- Once the first packet has fixed `firstSent`, the list of intervals is not empty. -/
def HasIntervals (s : SendSideBandwidthEstimation) : Prop :=
  s.firstSent ≠ 0 → s.monitorIntervals ≠ []

/-- The estimator has not been given a packet yet. -/
def Idle (s : SendSideBandwidthEstimation) : Prop :=
  s.firstSent = 0 ∧ s.monitorIntervals = [] ∧ s.transportWideSentPacketsStats = []

/-- A startup in which feedback never arrives: a first packet at 1 s on the sender clock, and
the next packet 2.250001 s later, past the end of the startup interval plus the timeout. -/
def stalledStartup : List Event :=
  [Event.sent { transportWideSeqNum := 1, time := 1000000, size := 1200 },
   Event.sent { transportWideSeqNum := 2, time := 3250001, size := 1200 }]

/-- Two packets, the first one stamped with the send time zero. -/
def zeroTimeStart : List Event :=
  [Event.sent { transportWideSeqNum := 1, time := 0, size := 1200 },
   Event.sent { transportWideSeqNum := 2, time := 10000, size := 1200 }]

/-- Three packets stamped with the send time zero. -/
def zeroTimeTriple : List Event :=
  [Event.sent { transportWideSeqNum := 1, time := 0, size := 1200 },
   Event.sent { transportWideSeqNum := 2, time := 0, size := 1200 },
   Event.sent { transportWideSeqNum := 3, time := 0, size := 1200 }]

/-- The packet that follows the stalled startup once the probing pair has expired as well:
its relative send time 3500003 is past the end of the pair, 2750001, plus the timeout. -/
def stalledPairPacket : PacketStats :=
  { transportWideSeqNum := 3, time := 4500003, size := 1200 }

/-- The state in which `SentPacket` calls `EstimateBandwidthRate` for `stalledPairPacket`
after the stalled startup: a probing pair that has recorded no packet at all. -/
def stalledPair : SendSideBandwidthEstimation :=
  ((SendSideBandwidthEstimation.fresh.run (Env.sample 0) stalledStartup).getD
    SendSideBandwidthEstimation.fresh).sentOffer stalledPairPacket

/-- The stalled startup followed by the feedback of the packet that replaced the intervals. -/
def stalledStartupFeedback : List Event :=
  stalledStartup ++ [Event.feedback 0 [(2, 3270001)] 3300000]

/-- Three packets sent in order while the 16-bit transport sequence number wraps from 65535
to 0, then the feedback of the second one, which ends the startup. -/
def wrappedSeqNumRun : List Event :=
  [Event.sent { transportWideSeqNum := 65534, time := 1000000, size := 1200 },
   Event.sent { transportWideSeqNum := 65535, time := 2600000, size := 1200 },
   Event.sent { transportWideSeqNum := 0, time := 2600010, size := 1200 },
   Event.feedback 0 [(65535, 2620000)] 2630000]

/-- An estimator whose estimate is the minimum rate. -/
def atMinRate : SendSideBandwidthEstimation :=
  { SendSideBandwidthEstimation.fresh with
    bandwidthEstimation := kMinRate, availableRate := kMinRate, firstSent := 1000000 }

/-- An estimator whose estimate is the maximum rate. -/
def atMaxRate : SendSideBandwidthEstimation :=
  { SendSideBandwidthEstimation.fresh with
    bandwidthEstimation := kMaxRate, availableRate := kMaxRate, firstSent := 1000000 }

/-- A probing interval with target 1 Mbps and the window from 1000 to 251000. -/
def probeInterval : MonitorInterval :=
  MonitorInterval.create 1000000 1000 kMonitorDuration

/-- The startup interval after two acknowledged packets of 1200 bytes, received 20 ms apart. -/
def startupInterval : MonitorInterval :=
  (MonitorInterval.createStartup 0 kStartupDuration).calls
    [IntervalCall.sentPacket 0 1200, IntervalCall.sentPacket 10000 1200,
     IntervalCall.feedback 0 0 1200 0, IntervalCall.feedback 10000 20000 1200 10000]

/-- An estimator with a listener at the end of the startup phase. -/
def startupEnd : SendSideBandwidthEstimation :=
  { SendSideBandwidthEstimation.fresh with
    firstSent := 1000000, firstRecv := 1020000, listener := true,
    monitorIntervals := [startupInterval] }

/-- A probing pair for the targets 5 Mbps and 3 Mbps on which 8 Mbps were sent and 4 Mbps
received in each interval. -/
def overshootPair : SendSideBandwidthEstimation :=
  { SendSideBandwidthEstimation.fresh with
    firstSent := 1000000, firstRecv := 1020000, listener := true
    bandwidthEstimation := 4000000, availableRate := 4000000
    monitorIntervals :=
      [(MonitorInterval.create 5000000 0 kMonitorDuration).calls
          [IntervalCall.sentPacket 0 500, IntervalCall.sentPacket 1000 500,
           IntervalCall.feedback 0 0 500 0, IntervalCall.feedback 1000 2000 500 1000],
       (MonitorInterval.create 3000000 250000 kMonitorDuration).calls
          [IntervalCall.sentPacket 250000 500, IntervalCall.sentPacket 251000 500,
           IntervalCall.feedback 250000 252000 500 0,
           IntervalCall.feedback 251000 254000 500 1000]] }

/-- The window of an interval: its start and its end. -/
def MonitorInterval.window (m : MonitorInterval) : Nat × Nat :=
  (m.GetStartTime, m.GetEndTime)

/-- The estimator after the first packet of the stalled startup. -/
def startedOnce : SendSideBandwidthEstimation :=
  (SendSideBandwidthEstimation.fresh.run (Env.sample 0) (stalledStartup.take 1)).getD
    SendSideBandwidthEstimation.fresh

/-- A first packet and its feedback: sent at 1 s on the sender clock, received 20 ms later
on a receiver clock that agrees with the sender clock. -/
def firstFeedbackRun : List Event :=
  [Event.sent { transportWideSeqNum := 1, time := 1000000, size := 1200 },
   Event.feedback 0 [(1, 1020000)] 1030000]

/-! ## The least-squares slope as the specification words it -/

/-- The mean of a list of numbers. -/
def meanOf (xs : List ℚ) : ℚ := xs.sum / (xs.length : ℚ)

/-- The mean send time of the samples. -/
def meanTime (samples : List (Nat × Int)) : ℚ :=
  meanOf (samples.map (fun x => (x.1 : ℚ)))

/-- The mean delay of the samples. -/
def meanDelay (samples : List (Nat × Int)) : ℚ :=
  meanOf (samples.map (fun x => (x.2 : ℚ)))

/-- The sum of `(t_i - mean t) * (d_i - mean d)` over the samples. -/
def centredNumerator (samples : List (Nat × Int)) : ℚ :=
  (samples.map
    (fun x => ((x.1 : ℚ) - meanTime samples) * ((x.2 : ℚ) - meanDelay samples))).sum

/-- The sum of `(t_i - mean t) ^ 2` over the samples. -/
def centredDenominator (samples : List (Nat × Int)) : ℚ :=
  (samples.map (fun x => ((x.1 : ℚ) - meanTime samples) ^ 2)).sum

/-- The ordinary least-squares slope of the delay against the send time. -/
def leastSquaresSlope (samples : List (Nat × Int)) : ℚ :=
  centredNumerator samples / centredDenominator samples

/-- An interval whose acknowledged packets show delays rising by 100 us per 10 ms of send
time. -/
def risingInterval : MonitorInterval :=
  (MonitorInterval.create 1100000 0 kMonitorDuration).calls
    [IntervalCall.feedback 0 0 1200 0,
     IntervalCall.feedback 10000 10100 1200 100,
     IntervalCall.feedback 20000 20300 1200 200]

/-! ## Receive times along a call sequence -/

/-- The receive times of the packets a feedback reports as received (not zero), in
iteration order. -/
def recvTimesOf (packets : List (Nat × Nat)) : List Nat :=
  (packets.map Prod.snd).filter (fun r => decide (r ≠ 0))

/-- The receive times reported by the `OnReceivedFeedback` calls of a sequence, in order. -/
def recvTimes : List Event → List Nat
  | [] => []
  | Event.feedback _ packets _ :: es => recvTimesOf packets ++ recvTimes es
  | _ :: es => recvTimes es

/-- A list of numbers is nondecreasing and starts at or above `bound`. -/
def ascendingFrom : Nat → List Nat → Prop
  | _, [] => True
  | bound, x :: xs => bound ≤ x ∧ ascendingFrom x xs

/-- The receive side of an interval is consistent with the zero point `firstRecv` of the
estimator and with the latest receive time `bound`: without a sample `firstRecv` of the
interval is unset; with one, the first receive time is at most the last, and the last,
taken back to the receiver clock, is at most `bound`. -/
def RecvWithin (firstRecv bound : Nat) (m : MonitorInterval) : Prop :=
  (m.deltas = [] → m.firstRecv = uint64Max)
  ∧ (m.deltas ≠ [] →
      firstRecv ≠ 0 ∧ m.firstRecv ≤ m.lastRecv ∧ m.lastRecv + firstRecv ≤ bound)

/-- Every interval of the estimator is consistent with its zero point and with the latest
receive time `bound`. -/
def RecvOrdered (bound : Nat) (s : SendSideBandwidthEstimation) : Prop :=
  bound < twoPow64 ∧ s.firstRecv ≤ bound
  ∧ ∀ m ∈ s.monitorIntervals, RecvWithin s.firstRecv bound m

/-- A startup with one acknowledged packet, a stall that replaces the intervals, and then
two packets of the first probing interval that arrive in the opposite order. -/
def reorderedArrival : List Event :=
  [Event.sent { transportWideSeqNum := 1, time := 1000000, size := 1200 },
   Event.feedback 0 [(1, 1020000)] 1030000,
   Event.sent { transportWideSeqNum := 2, time := 3250001, size := 1200 },
   Event.sent { transportWideSeqNum := 3, time := 3260001, size := 1200 },
   Event.sent { transportWideSeqNum := 4, time := 3270001, size := 1200 },
   Event.feedback 1 [(3, 3290001), (4, 3285001)] 3300000]

/-! ## The target bitrate in force -/

/-- The number of `uint32_t` values, `2 ^ 32`. -/
def twoPow32 : Nat := 4294967296

/-- The loop of `GetTargetBitrate`: the target of the first interval, in list order, whose
feedback collection is not done. -/
def firstOpenTarget : List MonitorInterval → Option Nat
  | [] => none
  | m :: ms =>
    if !m.IsFeedbackCollectionDone then some m.GetTargetBitrate else firstOpenTarget ms

/-- The method `SendSideBandwidthEstimation::GetTargetBitrate`; it is `const` and returns
`uint32_t`, so the `uint64_t` value it returns is reduced modulo `2 ^ 32`. -/
def SendSideBandwidthEstimation.GetTargetBitrate (s : SendSideBandwidthEstimation) : Nat :=
  match firstOpenTarget s.monitorIntervals with
  | some target => target % twoPow32
  | none => s.bandwidthEstimation % twoPow32

/-- The method `SendSideBandwidthEstimation::GetEstimatedBitrate` (`const`, returns
`uint32_t`). -/
def SendSideBandwidthEstimation.GetEstimatedBitrate (s : SendSideBandwidthEstimation) : Nat :=
  s.bandwidthEstimation % twoPow32

/-- An interval on which two packets of 1200 bytes were sent 10 ms apart and nothing was
acknowledged. -/
def sentOnlyInterval : MonitorInterval :=
  (MonitorInterval.create 1000000 0 kMonitorDuration).calls
    [IntervalCall.sentPacket 0 1200, IntervalCall.sentPacket 10000 1200]

/-- The stalled startup, then a packet sent inside the second probing interval and its
feedback, which closes the first probing interval only. -/
def secondIntervalOpen : List Event :=
  stalledStartup
    ++ [Event.sent { transportWideSeqNum := 3, time := 3510001, size := 1200 },
        Event.feedback 0 [(3, 3530001)] 3540000]

/-- The keys of the history map are strictly ascending (so each key occurs once). -/
def KeysAscending (entries : List (Nat × PacketStats)) : Prop :=
  entries.Pairwise (fun a b => a.1 < b.1)

/-- The estimator after the stalled startup. -/
def stalledOnce : SendSideBandwidthEstimation :=
  (SendSideBandwidthEstimation.fresh.run (Env.sample 0) stalledStartup).getD
    SendSideBandwidthEstimation.fresh

/-- A probing interval of 250 ms on which five packets of `size` bytes were sent 10 ms
apart, each followed by its feedback with the receive time given in `recv` (`uint64Max`
for a lost packet) and the delay delta 0. -/
def fivePackets (target start size : Nat) (recv : List Nat) : MonitorInterval :=
  let sent := [start, start + 10000, start + 20000, start + 30000, start + 40000]
  (MonitorInterval.create target start kMonitorDuration).calls
    (sent.map (fun t => IntervalCall.sentPacket t size)
      ++ List.zipWith (fun t r => IntervalCall.feedback t r size 0) sent recv)

/-- A probing pair for the targets 1.1 Mbps and 0.9 Mbps on which 1.5 Mbps and 1.3 Mbps
were sent, 1 Mbps was received in each interval, and one packet in five was lost. -/
def fifthLossPair : SendSideBandwidthEstimation :=
  { SendSideBandwidthEstimation.fresh with
    firstSent := 1000000, firstRecv := 1020000, listener := true
    bandwidthEstimation := 1000000, availableRate := 1000000
    monitorIntervals :=
      [fivePackets 1100000 0 1500 [20000, 36000, 52000, 68000, uint64Max],
       fivePackets 900000 250000 1300 [270000, 283867, 297734, 311600, uint64Max]] }

/-- The same probing pair with four packets in five lost: the single packet received in
each interval gives the received bitrate 0, so the estimate is clamped to `kMinRate`. -/
def heavyLossPair : SendSideBandwidthEstimation :=
  { SendSideBandwidthEstimation.fresh with
    firstSent := 1000000, firstRecv := 1020000, listener := true
    bandwidthEstimation := 1000000, availableRate := 1000000
    monitorIntervals :=
      [fivePackets 1100000 0 1500 [20000, uint64Max, uint64Max, uint64Max, uint64Max],
       fivePackets 900000 250000 1300
         [270000, uint64Max, uint64Max, uint64Max, uint64Max]] }

/-- The utility gradient as the specification words it: `(U0 - U1) / (rate0 - rate1)`, and
zero when both rates are equal. -/
def specGradient (utility0 utility1 rate0 rate1 : ℚ) : ℚ :=
  if rate0 = rate1 then 0 else (utility0 - utility1) / (rate0 - rate1)

/-- A probing interval of 250 ms on which two packets of `size` bytes were sent 10 ms apart
and acknowledged with the delay delta 0: the sent and the received bitrate are both
`1600 * size`. -/
def steadyInterval (target start size : Nat) : MonitorInterval :=
  (MonitorInterval.create target start kMonitorDuration).calls
    [IntervalCall.sentPacket start size, IntervalCall.sentPacket (start + 10000) size,
     IntervalCall.feedback start (start + 20000) size 0,
     IntervalCall.feedback (start + 10000) (start + 30000) size 0]

/-- The balanced probing pair: estimate 1 Mbps, targets 1.1 Mbps and 0.9 Mbps, and 1 Mbps
sent and received in both intervals, without loss and with flat delays. -/
def balancedPair : SendSideBandwidthEstimation :=
  { SendSideBandwidthEstimation.fresh with
    firstSent := 1000000, firstRecv := 1020000, listener := true
    bandwidthEstimation := 1000000, availableRate := 1000000
    monitorIntervals := [steadyInterval 1100000 0 625, steadyInterval 900000 250000 625] }

/-- A probing pair that followed its targets: 1.12 Mbps sent and received in the first
interval, 0.88 Mbps in the second, without loss and with flat delays; the previous state is
`Decrease`. -/
def followingPair : SendSideBandwidthEstimation :=
  { SendSideBandwidthEstimation.fresh with
    firstSent := 1000000, firstRecv := 1020000, listener := true
    bandwidthEstimation := 1000000, availableRate := 1000000
    state := ChangeState.Decrease
    monitorIntervals := [steadyInterval 1100000 0 700, steadyInterval 900000 250000 550] }

/-- A probing interval of 250 ms on which two packets of `size` bytes were sent 10 ms apart
and ten feedbacks were counted, nine received with the delay delta 0 and one lost. -/
def tenthLossInterval (target start size : Nat) : MonitorInterval :=
  (MonitorInterval.create target start kMonitorDuration).calls
    ([IntervalCall.sentPacket start size, IntervalCall.sentPacket (start + 10000) size]
      ++ [0, 1, 2, 3, 4, 5, 6, 7, 8].map
          (fun i => IntervalCall.feedback (start + 1000 * i) (start + 20000 + 1000 * i) size 0)
      ++ [IntervalCall.feedback (start + 9000) uint64Max size 0])

/-- A probing pair with 1.12 Mbps and 0.88 Mbps sent and one feedbacked packet in ten lost
in both intervals. -/
def tenthLossPair : SendSideBandwidthEstimation :=
  { SendSideBandwidthEstimation.fresh with
    firstSent := 1000000, firstRecv := 1020000, listener := true
    bandwidthEstimation := 1000000, availableRate := 1000000
    monitorIntervals :=
      [tenthLossInterval 1100000 0 700, tenthLossInterval 900000 250000 550] }


/-! # Theorems -/

theorem feedbackCounted_invariant : IntervalInvariant FeedbackCounted := by
  refine ⟨?_, ?_, ?_⟩
  · intro target start duration
    simp [FeedbackCounted, MonitorInterval.create]
  · intro m sent size h
    unfold MonitorInterval.SentPacket
    split
    · exact h
    · exact h
  · intro m sent recv size delta h
    unfold FeedbackCounted at h
    unfold MonitorInterval.Feedback
    split
    · exact h
    · split
      · exact h
      · split
        · simp only [FeedbackCounted, List.length_append, List.length_singleton]
          omega
        · simp only [FeedbackCounted]
          omega

theorem calls_invariant {P : MonitorInterval → Prop} (hP : IntervalInvariant P)
    (cs : List IntervalCall) : ∀ m : MonitorInterval, P m → P (m.calls cs) := by
  induction cs with
  | nil => intro m h; exact h
  | cons c cs ih =>
    intro m h
    have hstep : P (m.call c) := by
      cases c with
      | sentPacket sent size => exact hP.sentPacket m sent size h
      | feedback sent recv size delta => exact hP.feedback m sent recv size delta h
    exact ih (m.call c) hstep

/-- C6. For every sequence of `SentPacket` and `Feedback` calls on a freshly constructed
`MonitorInterval`, the lost packets plus the received packets (the samples in `deltas`)
equal the feedbacked packets. -/
theorem C6_lost_plus_received_eq_feedbacked (target start duration : Nat)
    (cs : List IntervalCall) :
    ((MonitorInterval.create target start duration).calls cs).lostPackets
        + ((MonitorInterval.create target start duration).calls cs).deltas.length
      = ((MonitorInterval.create target start duration).calls cs).totalFeedbackedPackets :=
  calls_invariant feedbackCounted_invariant cs _
    (feedbackCounted_invariant.create target start duration)

/-! ## Frame lemmas of the estimator -/

theorem notify_frame (s : SendSideBandwidthEstimation) (rate : Nat) :
    (s.notify rate).monitorIntervals = s.monitorIntervals
    ∧ (s.notify rate).firstSent = s.firstSent
    ∧ (s.notify rate).transportWideSentPacketsStats = s.transportWideSentPacketsStats
    ∧ (s.notify rate).bandwidthEstimation = s.bandwidthEstimation
    ∧ (s.notify rate).availableRate = s.availableRate
    ∧ (s.notify rate).rtt = s.rtt
    ∧ (s.notify rate).listener = s.listener
    ∧ (s.notify rate).randCalls = s.randCalls := by
  unfold SendSideBandwidthEstimation.notify
  split <;> simp

theorem estimate_frame (E : Env) (s : SendSideBandwidthEstimation) :
    (s.EstimateBandwidthRate E).monitorIntervals = s.monitorIntervals
    ∧ (s.EstimateBandwidthRate E).firstSent = s.firstSent
    ∧ (s.EstimateBandwidthRate E).transportWideSentPacketsStats
        = s.transportWideSentPacketsStats
    ∧ (s.EstimateBandwidthRate E).rtt = s.rtt
    ∧ (s.EstimateBandwidthRate E).listener = s.listener
    ∧ (s.EstimateBandwidthRate E).randCalls = s.randCalls := by
  unfold SendSideBandwidthEstimation.EstimateBandwidthRate
  split
  · simp
  · simp [notify_frame]
  · simp [notify_frame]

theorem createIntervals_frame (E : Env) (s : SendSideBandwidthEstimation) (time : Nat) :
    (s.CreateIntervals E time).firstSent = s.firstSent
    ∧ (s.CreateIntervals E time).transportWideSentPacketsStats
        = s.transportWideSentPacketsStats
    ∧ (s.CreateIntervals E time).bandwidthEstimation = s.bandwidthEstimation
    ∧ (s.CreateIntervals E time).availableRate = s.availableRate
    ∧ (s.CreateIntervals E time).rtt = s.rtt
    ∧ (s.CreateIntervals E time).listener = s.listener
    ∧ (s.CreateIntervals E time).requested = s.requested := by
  simp [SendSideBandwidthEstimation.CreateIntervals]

theorem sentAll_length (ms : List MonitorInterval) (sent size : Nat) :
    (sentAll ms sent size).length = ms.length := by
  simp [sentAll]

theorem feedbackAll_length (ms : List MonitorInterval) (sent recv size : Nat) (delta : Int) :
    (feedbackAll ms sent recv size delta).1.length = ms.length := by
  simp [feedbackAll]

theorem replayInFlight_length (firstSent : Nat) (entries : List (Nat × PacketStats)) :
    ∀ ms : List MonitorInterval, (replayInFlight firstSent entries ms).length = ms.length := by
  induction entries with
  | nil => intro ms; rfl
  | cons e es ih =>
    intro ms
    simp only [replayInFlight, List.foldl_cons] at ih ⊢
    rw [ih, sentAll_length]

theorem createIntervals_length (E : Env) (s : SendSideBandwidthEstimation) (time : Nat) :
    (s.CreateIntervals E time).monitorIntervals.length = 2 := by
  simp [SendSideBandwidthEstimation.CreateIntervals, replayInFlight_length]

/-! ## Interval properties along the calls of the estimator -/

theorem sentAll_forall {P : MonitorInterval → Prop} (hP : IntervalInvariant P)
    (ms : List MonitorInterval) (sent size : Nat) (h : ∀ m ∈ ms, P m) :
    ∀ m ∈ sentAll ms sent size, P m := by
  intro m hm
  simp only [sentAll, List.mem_map] at hm
  obtain ⟨m0, hm0, rfl⟩ := hm
  exact hP.sentPacket m0 sent size (h m0 hm0)

theorem feedbackAll_forall {P : MonitorInterval → Prop} (hP : IntervalInvariant P)
    (ms : List MonitorInterval) (sent recv size : Nat) (delta : Int) (h : ∀ m ∈ ms, P m) :
    ∀ m ∈ (feedbackAll ms sent recv size delta).1, P m := by
  intro m hm
  simp only [feedbackAll, List.mem_map] at hm
  obtain ⟨m0, hm0, rfl⟩ := hm
  exact hP.feedback m0 sent recv size delta (h m0 hm0)

theorem replayInFlight_forall {P : MonitorInterval → Prop} (hP : IntervalInvariant P)
    (firstSent : Nat) (entries : List (Nat × PacketStats)) :
    ∀ ms : List MonitorInterval, (∀ m ∈ ms, P m) →
      ∀ m ∈ replayInFlight firstSent entries ms, P m := by
  induction entries with
  | nil => intro ms h; exact h
  | cons e es ih =>
    intro ms h
    simp only [replayInFlight, List.foldl_cons] at ih ⊢
    exact ih _ (sentAll_forall hP ms _ _ h)

theorem createIntervals_forall {P : MonitorInterval → Prop} (hP : IntervalInvariant P)
    (E : Env) (s : SendSideBandwidthEstimation) (time : Nat) :
    ∀ m ∈ (s.CreateIntervals E time).monitorIntervals, P m := by
  simp only [SendSideBandwidthEstimation.CreateIntervals]
  apply replayInFlight_forall hP
  intro m hm
  simp only [List.mem_cons, List.mem_singleton, List.not_mem_nil, or_false] at hm
  rcases hm with rfl | rfl
  · exact hP.create _ _ _
  · exact hP.create _ _ _

theorem sentOffer_forall {P : MonitorInterval → Prop} (hP : IntervalInvariant P)
    (s : SendSideBandwidthEstimation) (stats : PacketStats)
    (h : ∀ m ∈ s.monitorIntervals, P m) :
    ∀ m ∈ (s.sentOffer stats).monitorIntervals, P m := by
  unfold SendSideBandwidthEstimation.sentOffer
  split
  · apply sentAll_forall hP
    intro m hm
    simp only [List.mem_append, List.mem_singleton] at hm
    rcases hm with hm | rfl
    · exact h m hm
    · exact hP.create _ _ _
  · exact sentAll_forall hP _ _ _ h

theorem sentExpire_forall {P : MonitorInterval → Prop} (hP : IntervalInvariant P) (E : Env)
    (s : SendSideBandwidthEstimation) (back : MonitorInterval) (sentTime : Nat)
    (h : ∀ m ∈ s.monitorIntervals, P m) :
    ∀ m ∈ (s.sentExpire E back sentTime).monitorIntervals, P m := by
  unfold SendSideBandwidthEstimation.sentExpire
  split
  · exact createIntervals_forall hP E _ _
  · exact h

theorem sentPacket_forall {P : MonitorInterval → Prop} (hP : IntervalInvariant P) (E : Env)
    (s t : SendSideBandwidthEstimation) (stats : PacketStats)
    (h : ∀ m ∈ s.monitorIntervals, P m) (hs : s.SentPacket E stats = some t) :
    ∀ m ∈ t.monitorIntervals, P m := by
  unfold SendSideBandwidthEstimation.SentPacket at hs
  simp only at hs
  split at hs
  · exact absurd hs (by simp)
  · split at hs
    · exact absurd hs (by simp)
    · simp only [Option.some.injEq] at hs
      subst hs
      exact sentExpire_forall hP E _ _ _ (sentOffer_forall hP s stats h)

theorem feedbackPacket_forall {P : MonitorInterval → Prop} (hP : IntervalInvariant P) (E : Env)
    (s : SendSideBandwidthEstimation) (transportSeqNum receivedTime : Nat)
    (h : ∀ m ∈ s.monitorIntervals, P m) :
    ∀ m ∈ (s.feedbackPacket E transportSeqNum receivedTime).monitorIntervals, P m := by
  unfold SendSideBandwidthEstimation.feedbackPacket
  split
  · exact h
  · simp only
    have hfb : ∀ (sent recv size : Nat) (delta : Int),
        ∀ m ∈ (feedbackAll s.monitorIntervals sent recv size delta).1, P m :=
      fun sent recv size delta => feedbackAll_forall hP _ sent recv size delta h
    split_ifs <;>
      first
        | exact createIntervals_forall hP E _ _
        | exact hfb _ _ _ _

/-! ## Induction over call sequences -/

theorem feedback_foldl_invariant (E : Env) (I : SendSideBandwidthEstimation → Prop)
    (hF : ∀ s seq recv, I s → I (s.feedbackPacket E seq recv))
    (packets : List (Nat × Nat)) :
    ∀ s, I s → I (packets.foldl (fun st feedback => st.feedbackPacket E feedback.1 feedback.2) s) := by
  induction packets with
  | nil => intro s h; exact h
  | cons p ps ih => intro s h; exact ih _ (hF s p.1 p.2 h)

theorem receivedFeedback_invariant (E : Env) (I : SendSideBandwidthEstimation → Prop)
    (hF : ∀ s seq recv, I s → I (s.feedbackPacket E seq recv))
    (s : SendSideBandwidthEstimation) (feedbackNum : Nat) (packets : List (Nat × Nat))
    (when : Nat) (h : I s) : I (s.ReceivedFeedback E feedbackNum packets when) := by
  unfold SendSideBandwidthEstimation.ReceivedFeedback
  split
  · exact h
  · exact feedback_foldl_invariant E I hF packets s h

/-- A property of the estimator kept by each public call is kept by every call sequence. -/
theorem run_invariant (E : Env) (I : SendSideBandwidthEstimation → Prop)
    (hS : ∀ s stats t, I s → s.SentPacket E stats = some t → I t)
    (hF : ∀ s seq recv, I s → I (s.feedbackPacket E seq recv))
    (hR : ∀ s rtt, I s → I (s.UpdateRTT rtt))
    (hL : ∀ s enabled, I s → I (s.SetListener enabled))
    (evs : List Event) :
    ∀ s t, I s → s.run E evs = some t → I t := by
  induction evs with
  | nil =>
    intro s t h hrun
    simp only [SendSideBandwidthEstimation.run, Option.some.injEq] at hrun
    exact hrun ▸ h
  | cons e es ih =>
    intro s t h hrun
    simp only [SendSideBandwidthEstimation.run] at hrun
    cases e with
    | sent stats =>
      simp only [SendSideBandwidthEstimation.step] at hrun
      cases hsp : s.SentPacket E stats with
      | none => rw [hsp] at hrun; exact absurd hrun (by simp)
      | some s1 =>
        rw [hsp] at hrun
        exact ih s1 t (hS s stats s1 h hsp) hrun
    | feedback feedbackNum packets when =>
      simp only [SendSideBandwidthEstimation.step] at hrun
      exact ih _ t (receivedFeedback_invariant E I hF s feedbackNum packets when h) hrun
    | rtt rtt =>
      simp only [SendSideBandwidthEstimation.step] at hrun
      exact ih _ t (hR s rtt h) hrun
    | listener enabled =>
      simp only [SendSideBandwidthEstimation.step] at hrun
      exact ih _ t (hL s enabled h) hrun

/-! ## Rounding to binary64 -/

theorem roundHalfEven_intCast (n : Int) : roundHalfEven (n : ℚ) = n := by
  unfold roundHalfEven
  simp

theorem roundHalfEven_floor_le (q : ℚ) :
    ⌊q⌋ ≤ roundHalfEven q ∧ roundHalfEven q ≤ ⌊q⌋ + 1 := by
  unfold roundHalfEven
  split_ifs <;> omega

theorem roundHalfEven_abs_sub_le (q : ℚ) : |(roundHalfEven q : ℚ) - q| ≤ 1 / 2 := by
  have h1 := Int.floor_le q
  have h2 := Int.lt_floor_add_one q
  unfold roundHalfEven
  split_ifs with ha hb hc
  · rw [abs_le]; constructor <;> linarith
  · push_cast; rw [abs_le]; constructor <;> linarith
  · rw [abs_le]; constructor <;> linarith
  · push_cast; rw [abs_le]; constructor <;> linarith

theorem roundHalfEven_mono {q r : ℚ} (h : q ≤ r) : roundHalfEven q ≤ roundHalfEven r := by
  have hf : ⌊q⌋ ≤ ⌊r⌋ := Int.floor_mono h
  rcases hf.lt_or_eq with hlt | heq
  · have h1 := (roundHalfEven_floor_le q).2
    have h2 := (roundHalfEven_floor_le r).1
    omega
  · unfold roundHalfEven
    rw [← heq]
    split_ifs <;> first | omega | (exfalso; linarith)

theorem roundHalfEven_eq (q : ℚ) (n : Int) (h1 : (n : ℚ) - 1 / 2 < q) (h2 : q < (n : ℚ) + 1 / 2) :
    roundHalfEven q = n := by
  rcases le_or_lt (n : ℚ) q with hle | hlt
  · have hfl : ⌊q⌋ = n := by
      rw [Int.floor_eq_iff]
      constructor <;> linarith
    unfold roundHalfEven
    rw [hfl, if_pos (by linarith)]
  · have hfl : ⌊q⌋ = n - 1 := by
      rw [Int.floor_eq_iff]
      push_cast
      constructor <;> linarith
    unfold roundHalfEven
    rw [hfl]
    push_cast
    rw [if_neg (by linarith), if_pos (by linarith)]
    omega

theorem roundHalfEven_tie (q : ℚ) (n : Int) (hn : n % 2 = 0)
    (h : q = (n : ℚ) + 1 / 2 ∨ q = (n : ℚ) - 1 / 2) : roundHalfEven q = n := by
  rcases h with h | h
  · have hfl : ⌊q⌋ = n := by
      rw [Int.floor_eq_iff]
      constructor <;> linarith
    unfold roundHalfEven
    rw [hfl, if_neg (by linarith), if_neg (by linarith), if_pos hn]
  · have hfl : ⌊q⌋ = n - 1 := by
      rw [Int.floor_eq_iff]
      push_cast
      constructor <;> linarith
    unfold roundHalfEven
    rw [hfl]
    push_cast
    rw [if_neg (by linarith), if_neg (by linarith), if_neg (by omega)]
    omega

theorem two_zpow_pos (e : Int) : (0 : ℚ) < (2 : ℚ) ^ e := zpow_pos (by norm_num) e

theorem two_zpow_mono {a b : Int} (h : a ≤ b) : (2 : ℚ) ^ a ≤ (2 : ℚ) ^ b :=
  zpow_le_zpow_right₀ (by norm_num) h

theorem intLog_le_of_lt (q : ℚ) (e : Int) (hq : 0 < q) (h : q < (2 : ℚ) ^ (e + 1)) :
    Int.log 2 q ≤ e := by
  have h2 : q < ((2 : ℕ) : ℚ) ^ (e + 1) := by simpa using h
  have := (Int.lt_zpow_iff_log_lt (by norm_num : 1 < 2) hq).mp h2
  omega

theorem le_intLog_of_le (q : ℚ) (e : Int) (hq : 0 < q) (h : (2 : ℚ) ^ e ≤ q) :
    e ≤ Int.log 2 q := by
  have h2 : ((2 : ℕ) : ℚ) ^ e ≤ q := by simpa using h
  exact (Int.zpow_le_iff_le_log (by norm_num : 1 < 2) hq).mp h2

theorem binade_le (q : ℚ) (e : Int) (he : -1022 ≤ e) (hq : q ≠ 0)
    (h : |q| < (2 : ℚ) ^ (e + 1)) : binade q ≤ e := by
  unfold binade
  exact max_le (intLog_le_of_lt _ e (abs_pos.mpr hq) h) he

theorem binade_eq (q : ℚ) (e : Int) (he : -1022 ≤ e) (hlo : (2 : ℚ) ^ e ≤ |q|)
    (hhi : |q| < (2 : ℚ) ^ (e + 1)) : binade q = e := by
  have hpos : 0 < |q| := lt_of_lt_of_le (two_zpow_pos e) hlo
  have h1 := intLog_le_of_lt _ e hpos hhi
  have h2 := le_intLog_of_le _ e hpos hlo
  unfold binade
  rw [max_eq_left (by omega)]
  omega

theorem lt_zpow_binade_succ (q : ℚ) : |q| < (2 : ℚ) ^ (binade q + 1) := by
  have h := Int.lt_zpow_succ_log_self (by norm_num : 1 < 2) |q|
  have h2 : |q| < (2 : ℚ) ^ (Int.log 2 |q| + 1) := by simpa using h
  refine lt_of_lt_of_le h2 (two_zpow_mono ?_)
  unfold binade
  have := le_max_left (Int.log 2 |q|) (-1022)
  omega

theorem binade_mono {x y : ℚ} (hx : 0 < x) (h : x ≤ y) : binade x ≤ binade y := by
  unfold binade
  have hy : 0 < y := lt_of_lt_of_le hx h
  rw [abs_of_pos hx, abs_of_pos hy]
  exact max_le_max (Int.log_mono_right hx h) (le_refl _)

theorem roundDouble_zero : roundDouble 0 = 0 := by
  unfold roundDouble
  rw [zero_div]
  have : roundHalfEven 0 = 0 := by
    have := roundHalfEven_intCast 0
    simpa using this
  rw [this]
  simp

theorem roundDouble_nonneg {x : ℚ} (hx : 0 ≤ x) : 0 ≤ roundDouble x := by
  unfold roundDouble
  have hu := two_zpow_pos (binade x - 52)
  have h0 : (0 : Int) ≤ roundHalfEven (x / (2 : ℚ) ^ (binade x - 52)) := by
    have h := roundHalfEven_mono (div_nonneg hx (le_of_lt hu))
    have h00 : roundHalfEven 0 = 0 := by
      have := roundHalfEven_intCast 0
      simpa using this
    rw [h00] at h
    exact h
  have h0q : (0 : ℚ) ≤ (roundHalfEven (x / (2 : ℚ) ^ (binade x - 52)) : ℚ) := by
    exact_mod_cast h0
  exact mul_nonneg h0q (le_of_lt hu)

/-- A positive number rounds to at most the upper end of its binade. -/
theorem roundDouble_le_binade (x : ℚ) (hx : 0 < x) :
    roundDouble x ≤ (2 : ℚ) ^ (binade x + 1) := by
  have hu := two_zpow_pos (binade x - 52)
  have hlt := lt_zpow_binade_succ x
  rw [abs_of_pos hx] at hlt
  have hsplit : (2 : ℚ) ^ (binade x + 1) = ((2 ^ 53 : Int) : ℚ) * (2 : ℚ) ^ (binade x - 52) := by
    have : binade x + 1 = 53 + (binade x - 52) := by omega
    rw [this, zpow_add₀ (by norm_num : (2 : ℚ) ≠ 0)]
    norm_num
  have hdiv : x / (2 : ℚ) ^ (binade x - 52) ≤ ((2 ^ 53 : Int) : ℚ) := by
    rw [div_le_iff₀ hu, ← hsplit]
    exact le_of_lt hlt
  have hr := roundHalfEven_mono hdiv
  rw [roundHalfEven_intCast] at hr
  unfold roundDouble
  rw [hsplit]
  have hrq : (roundHalfEven (x / (2 : ℚ) ^ (binade x - 52)) : ℚ) ≤ ((2 ^ 53 : Int) : ℚ) := by
    exact_mod_cast hr
  exact mul_le_mul_of_nonneg_right hrq (le_of_lt hu)

/-- A number at or above the smallest normal double rounds to at least the lower end of
its binade. -/
theorem binade_le_roundDouble (y : ℚ) (hy : 0 < y) (hn : -1022 < binade y) :
    (2 : ℚ) ^ (binade y) ≤ roundDouble y := by
  have hu := two_zpow_pos (binade y - 52)
  have hlog : binade y = Int.log 2 |y| := by
    unfold binade at hn ⊢
    rcases le_total (Int.log 2 |y|) (-1022) with h | h
    · rw [max_eq_right h] at hn
      omega
    · rw [max_eq_left h]
  have hlo : (2 : ℚ) ^ (binade y) ≤ y := by
    have h := Int.zpow_log_le_self (by norm_num : 1 < 2) (abs_pos.mpr (ne_of_gt hy))
    rw [hlog]
    have h2 : (2 : ℚ) ^ Int.log 2 |y| ≤ |y| := by
      rw [Nat.cast_ofNat] at h
      exact h
    exact le_trans h2 (le_of_eq (abs_of_pos hy))
  have hsplit : (2 : ℚ) ^ (binade y) = ((2 ^ 52 : Int) : ℚ) * (2 : ℚ) ^ (binade y - 52) := by
    have : binade y = 52 + (binade y - 52) := by omega
    nth_rewrite 1 [this]
    rw [zpow_add₀ (by norm_num : (2 : ℚ) ≠ 0)]
    norm_num
  have hdiv : ((2 ^ 52 : Int) : ℚ) ≤ y / (2 : ℚ) ^ (binade y - 52) := by
    rw [le_div_iff₀ hu, ← hsplit]
    exact hlo
  have hr := roundHalfEven_mono hdiv
  rw [roundHalfEven_intCast] at hr
  unfold roundDouble
  rw [hsplit]
  have hrq : ((2 ^ 52 : Int) : ℚ) ≤ (roundHalfEven (y / (2 : ℚ) ^ (binade y - 52)) : ℚ) := by
    exact_mod_cast hr
  exact mul_le_mul_of_nonneg_right hrq (le_of_lt hu)

/-- Rounding is monotone on the non-negative numbers. -/
theorem roundDouble_mono {x y : ℚ} (hx : 0 ≤ x) (h : x ≤ y) : roundDouble x ≤ roundDouble y := by
  rcases eq_or_lt_of_le hx with h0 | hpos
  · rw [← h0, roundDouble_zero]
    exact roundDouble_nonneg (le_trans hx h)
  · have hy : 0 < y := lt_of_lt_of_le hpos h
    have hb := binade_mono hpos h
    rcases hb.lt_or_eq with hlt | heq
    · have h1 := roundDouble_le_binade x hpos
      have hbx : -1022 ≤ binade x := le_max_right _ _
      have h2 := binade_le_roundDouble y hy (by omega)
      have h3 : (2 : ℚ) ^ (binade x + 1) ≤ (2 : ℚ) ^ (binade y) := two_zpow_mono (by omega)
      linarith
    · unfold roundDouble
      rw [heq]
      have hu := two_zpow_pos (binade y - 52)
      have hdiv : x / (2 : ℚ) ^ (binade y - 52) ≤ y / (2 : ℚ) ^ (binade y - 52) :=
        div_le_div_of_nonneg_right h (le_of_lt hu)
      have hr := roundHalfEven_mono hdiv
      have hrq : (roundHalfEven (x / (2 : ℚ) ^ (binade y - 52)) : ℚ)
          ≤ (roundHalfEven (y / (2 : ℚ) ^ (binade y - 52)) : ℚ) := by
        exact_mod_cast hr
      exact mul_le_mul_of_nonneg_right hrq (le_of_lt hu)

/-- A number `m * 2 ^ k` with `m < 2 ^ 53` and `k` at least -1074 is a double. -/
theorem roundDouble_exact (m : Nat) (k : Int) (hm : m < 2 ^ 53) (hk : -1074 ≤ k) :
    roundDouble ((m : ℚ) * (2 : ℚ) ^ k) = (m : ℚ) * (2 : ℚ) ^ k := by
  rcases Nat.eq_zero_or_pos m with h0 | hpos
  · rw [h0]
    simp [roundDouble_zero]
  · have hk2 := two_zpow_pos k
    have hmq : (0 : ℚ) < (m : ℚ) := by exact_mod_cast hpos
    have hq : (0 : ℚ) < (m : ℚ) * (2 : ℚ) ^ k := mul_pos hmq hk2
    have hlt : |(m : ℚ) * (2 : ℚ) ^ k| < (2 : ℚ) ^ (k + 52 + 1) := by
      rw [abs_of_pos hq]
      have : k + 52 + 1 = 53 + k := by omega
      rw [this, zpow_add₀ (by norm_num : (2 : ℚ) ≠ 0)]
      have hm53 : (m : ℚ) < (2 : ℚ) ^ (53 : Int) := by
        have h53 : (2 : ℚ) ^ (53 : Int) = ((2 ^ 53 : Nat) : ℚ) := by norm_num
        rw [h53]
        exact_mod_cast hm
      exact mul_lt_mul_of_pos_right hm53 hk2
    have hb := binade_le _ (k + 52) (by omega) (ne_of_gt hq) hlt
    obtain ⟨d, hd⟩ : ∃ d : Nat, k = (binade ((m : ℚ) * (2 : ℚ) ^ k) - 52) + (d : Int) :=
      ⟨(k - (binade ((m : ℚ) * (2 : ℚ) ^ k) - 52)).toNat, by omega⟩
    unfold roundDouble
    generalize binade ((m : ℚ) * (2 : ℚ) ^ k) - 52 = u at hd ⊢
    have hu := two_zpow_pos u
    have hdiv : (m : ℚ) * (2 : ℚ) ^ k / (2 : ℚ) ^ u = (((m * 2 ^ d : Nat) : Int) : ℚ) := by
      rw [hd, zpow_add₀ (by norm_num : (2 : ℚ) ≠ 0)]
      push_cast
      field_simp
      ring
    rw [hdiv, roundHalfEven_intCast, hd, zpow_add₀ (by norm_num : (2 : ℚ) ≠ 0)]
    push_cast
    rw [zpow_natCast]
    ring

theorem roundDouble_natCast (n : Nat) (hn : n < 2 ^ 53) : roundDouble (n : ℚ) = (n : ℚ) := by
  have h := roundDouble_exact n 0 hn (by omega)
  simpa using h

/-- Evaluation of the rounding of a number whose binade is known. -/
theorem roundDouble_eq (q : ℚ) (e n : Int) (he : -1022 ≤ e) (hlo : (2 : ℚ) ^ e ≤ |q|)
    (hhi : |q| < (2 : ℚ) ^ (e + 1)) (hn : roundHalfEven (q / (2 : ℚ) ^ (e - 52)) = n) :
    roundDouble q = (n : ℚ) * (2 : ℚ) ^ (e - 52) := by
  unfold roundDouble
  rw [binade_eq q e he hlo hhi, hn]

/-- The rounding error is at most half a unit in the last place of the binade. -/
theorem roundDouble_abs_sub_le (q : ℚ) (e : Int) (he : -1022 ≤ e)
    (h : |q| < (2 : ℚ) ^ (e + 1)) : |roundDouble q - q| ≤ (2 : ℚ) ^ (e - 53) := by
  rcases eq_or_ne q 0 with h0 | hne
  · rw [h0, roundDouble_zero]
    simp
    exact le_of_lt (two_zpow_pos _)
  · have hb := binade_le q e he hne h
    have hu := two_zpow_pos (binade q - 52)
    have herr := roundHalfEven_abs_sub_le (q / (2 : ℚ) ^ (binade q - 52))
    have heq : roundDouble q - q
        = ((roundHalfEven (q / (2 : ℚ) ^ (binade q - 52)) : ℚ)
            - q / (2 : ℚ) ^ (binade q - 52)) * (2 : ℚ) ^ (binade q - 52) := by
      unfold roundDouble
      field_simp
    rw [heq, abs_mul, abs_of_pos hu]
    have hhalf : (2 : ℚ) ^ (e - 53) = 1 / 2 * (2 : ℚ) ^ (e - 52) := by
      have : e - 52 = 1 + (e - 53) := by omega
      rw [this, zpow_add₀ (by norm_num : (2 : ℚ) ≠ 0)]
      norm_num
      ring
    rw [hhalf]
    have hmono : (2 : ℚ) ^ (binade q - 52) ≤ (2 : ℚ) ^ (e - 52) := two_zpow_mono (by omega)
    calc |(roundHalfEven (q / (2 : ℚ) ^ (binade q - 52)) : ℚ)
            - q / (2 : ℚ) ^ (binade q - 52)| * (2 : ℚ) ^ (binade q - 52)
        ≤ 1 / 2 * (2 : ℚ) ^ (binade q - 52) := mul_le_mul_of_nonneg_right herr (le_of_lt hu)
      _ ≤ 1 / 2 * (2 : ℚ) ^ (e - 52) := mul_le_mul_of_nonneg_left hmono (by norm_num)

/-! ## The double product of the available rate -/

theorem roundDouble_one : roundDouble 1 = 1 := by
  have h := roundDouble_natCast 1 (by norm_num)
  simpa using h

theorem roundDouble_unit {l : ℚ} (h0 : 0 ≤ l) (h1 : l ≤ 1) :
    0 ≤ roundDouble l ∧ roundDouble l ≤ 1 := by
  refine ⟨roundDouble_nonneg h0, ?_⟩
  have h := roundDouble_mono h0 h1
  rwa [roundDouble_one] at h

theorem roundDouble_unit_error {l : ℚ} (h0 : 0 ≤ l) (h1 : l ≤ 1) :
    |roundDouble l - l| ≤ 1 / 9007199254740992 := by
  have h := roundDouble_abs_sub_le l 0 (by norm_num) (by
    rw [abs_of_nonneg h0]
    norm_num
    linarith)
  have h53 : (2 : ℚ) ^ ((0 : Int) - 53) = 1 / 9007199254740992 := by norm_num
  rwa [h53] at h

theorem roundDouble_rate (c : Nat) (hc : c ≤ kMaxRate) : roundDouble (c : ℚ) = (c : ℚ) := by
  apply roundDouble_natCast
  unfold kMaxRate at hc
  have : (100000000 : Nat) < 2 ^ 53 := by norm_num
  omega

theorem availableDouble_bounds (c : Nat) (l0 l1 : ℚ) (hc : c ≤ kMaxRate)
    (h00 : 0 ≤ l0) (h01 : l0 ≤ 1) (h10 : 0 ≤ l1) (h11 : l1 ≤ 1) :
    0 ≤ availableDouble c l0 l1 ∧ availableDouble c l0 l1 ≤ (c : ℚ) := by
  have ha := roundDouble_unit h00 h01
  have hb := roundDouble_unit h10 h11
  have hm0 : 0 ≤ max (roundDouble l0) (roundDouble l1) := le_max_of_le_left ha.1
  have hm1 : max (roundDouble l0) (roundDouble l1) ≤ 1 := max_le ha.2 hb.2
  have hw := roundDouble_unit (l := 1 - max (roundDouble l0) (roundDouble l1))
    (by linarith) (by linarith)
  have hcq : (0 : ℚ) ≤ (c : ℚ) := Nat.cast_nonneg c
  unfold availableDouble
  rw [roundDouble_rate c hc]
  have hz0 : 0 ≤ (c : ℚ) * roundDouble (1 - max (roundDouble l0) (roundDouble l1)) :=
    mul_nonneg hcq hw.1
  have hz1 : (c : ℚ) * roundDouble (1 - max (roundDouble l0) (roundDouble l1)) ≤ (c : ℚ) := by
    nlinarith [hw.1, hw.2]
  refine ⟨roundDouble_nonneg hz0, ?_⟩
  have h := roundDouble_mono hz0 hz1
  rwa [roundDouble_rate c hc] at h

theorem availableDouble_error (c : Nat) (l0 l1 : ℚ) (hc : c ≤ kMaxRate)
    (h00 : 0 ≤ l0) (h01 : l0 ≤ 1) (h10 : 0 ≤ l1) (h11 : l1 ≤ 1) :
    |availableDouble c l0 l1 - (c : ℚ) * (1 - max l0 l1)| ≤ 1 / 16777216 := by
  have ha := roundDouble_unit h00 h01
  have hb := roundDouble_unit h10 h11
  have hea := roundDouble_unit_error h00 h01
  have heb := roundDouble_unit_error h10 h11
  have hm0 : 0 ≤ max (roundDouble l0) (roundDouble l1) := le_max_of_le_left ha.1
  have hm1 : max (roundDouble l0) (roundDouble l1) ≤ 1 := max_le ha.2 hb.2
  have hmax : |max (roundDouble l0) (roundDouble l1) - max l0 l1| ≤ 1 / 9007199254740992 :=
    le_trans (abs_max_sub_max_le_max _ _ _ _) (max_le hea heb)
  have hw := roundDouble_unit (l := 1 - max (roundDouble l0) (roundDouble l1))
    (by linarith) (by linarith)
  have hew := roundDouble_unit_error (l := 1 - max (roundDouble l0) (roundDouble l1))
    (by linarith) (by linarith)
  have hcq : (0 : ℚ) ≤ (c : ℚ) := Nat.cast_nonneg c
  have hck : (c : ℚ) ≤ 100000000 := by
    have : (c : ℚ) ≤ ((kMaxRate : Nat) : ℚ) := by exact_mod_cast hc
    simpa [kMaxRate] using this
  unfold availableDouble
  rw [roundDouble_rate c hc]
  generalize max (roundDouble l0) (roundDouble l1) = L at hm0 hm1 hmax hw hew
  generalize max l0 l1 = M at hmax
  generalize hwdef : roundDouble (1 - L) = w at hw hew
  have hz0 : 0 ≤ (c : ℚ) * w := mul_nonneg hcq hw.1
  have hz1 : (c : ℚ) * w ≤ 100000000 := by nlinarith [hw.1, hw.2]
  have hez := roundDouble_abs_sub_le ((c : ℚ) * w) 26 (by norm_num) (by
    rw [abs_of_nonneg hz0]
    norm_num
    linarith)
  have h27 : (2 : ℚ) ^ ((26 : Int) - 53) = 1 / 134217728 := by norm_num
  rw [h27] at hez
  rw [abs_le] at hez hew hmax ⊢
  constructor
  · nlinarith [hez.1, hez.2, hew.1, hew.2, hmax.1, hmax.2]
  · nlinarith [hez.1, hez.2, hew.1, hew.2, hmax.1, hmax.2]

theorem floor_near (x y : ℚ) (h : |y - x| < 1) : ⌊x⌋ - 1 ≤ ⌊y⌋ ∧ ⌊y⌋ ≤ ⌊x⌋ + 1 := by
  rw [abs_lt] at h
  constructor
  · have h1 : ((⌊x⌋ - 1 : Int) : ℚ) ≤ y := by
      push_cast
      have := Int.floor_le x
      have := Int.lt_floor_add_one x
      linarith
    exact Int.le_floor.mpr h1
  · have h1 : y < ((⌊x⌋ + 1 + 1 : Int) : ℚ) := by
      push_cast
      have := Int.lt_floor_add_one x
      linarith
    have := Int.floor_lt.mpr h1
    omega

theorem roundDouble_fifth : roundDouble (1 / 5) = 3602879701896397 / 18014398509481984 := by
  have h := roundDouble_eq (1 / 5) (-3) 7205759403792794 (by norm_num)
    (by rw [abs_of_pos (by norm_num)]; norm_num)
    (by rw [abs_of_pos (by norm_num)]; norm_num)
    (roundHalfEven_eq _ _ (by norm_num) (by norm_num))
  rw [h]
  norm_num

theorem roundDouble_four_fifths_tie :
    roundDouble (1 - 3602879701896397 / 18014398509481984)
      = 3602879701896397 / 4503599627370496 := by
  have h := roundDouble_eq (1 - 3602879701896397 / 18014398509481984) (-1) 7205759403792794
    (by norm_num)
    (by rw [abs_of_pos (by norm_num)]; norm_num)
    (by rw [abs_of_pos (by norm_num)]; norm_num)
    (roundHalfEven_tie _ _ (by norm_num) (Or.inr (by norm_num)))
  rw [h]
  norm_num

theorem roundDouble_four_fifths : roundDouble (4 / 5) = 3602879701896397 / 4503599627370496 := by
  have h := roundDouble_eq (4 / 5) (-1) 7205759403792794 (by norm_num)
    (by rw [abs_of_pos (by norm_num)]; norm_num)
    (by rw [abs_of_pos (by norm_num)]; norm_num)
    (roundHalfEven_eq _ _ (by norm_num) (by norm_num))
  rw [h]
  norm_num

/-- With 20 % loss in both intervals the double product truncates to the exact value. -/
theorem availableDouble_fifth (c : Nat) (hc : c ≤ kMaxRate) :
    ⌊availableDouble c (1 / 5) (1 / 5)⌋ = ⌊(c : ℚ) * (4 / 5)⌋ := by
  have hck : (c : ℚ) ≤ 100000000 := by
    have : (c : ℚ) ≤ ((kMaxRate : Nat) : ℚ) := by exact_mod_cast hc
    simpa [kMaxRate] using this
  have hcq : (0 : ℚ) ≤ (c : ℚ) := Nat.cast_nonneg c
  unfold availableDouble
  rw [roundDouble_rate c hc, max_self, roundDouble_fifth, roundDouble_four_fifths_tie]
  -- the exact truncation
  obtain ⟨k, hk⟩ : ∃ k : Nat, k = 4 * c / 5 := ⟨_, rfl⟩
  have hk1 : 5 * k ≤ 4 * c := by omega
  have hk2 : 4 * c ≤ 5 * k + 4 := by omega
  have hk1q : 5 * (k : ℚ) ≤ 4 * (c : ℚ) := by exact_mod_cast hk1
  have hk2q : 4 * (c : ℚ) ≤ 5 * (k : ℚ) + 4 := by exact_mod_cast hk2
  have hkq0 : (0 : ℚ) ≤ (k : ℚ) := Nat.cast_nonneg k
  have hfl : ⌊(c : ℚ) * (4 / 5)⌋ = (k : Int) := by
    rw [Int.floor_eq_iff]
    push_cast
    constructor <;> linarith
  rw [hfl]
  have hlo : (k : ℚ) ≤ (c : ℚ) * (3602879701896397 / 4503599627370496) := by linarith
  have hhi : (c : ℚ) * (3602879701896397 / 4503599627370496)
      ≤ ((16 * k + 15 : Nat) : ℚ) * (2 : ℚ) ^ (-4 : Int) := by
    push_cast
    norm_num
    linarith
  have hk53 : k < 2 ^ 53 := by
    unfold kMaxRate at hc
    have : (100000000 : Nat) < 2 ^ 53 := by norm_num
    omega
  have hk53b : 16 * k + 15 < 2 ^ 53 := by
    unfold kMaxRate at hc
    have : (16 * 100000000 + 15 : Nat) < 2 ^ 53 := by norm_num
    omega
  have h1 := roundDouble_mono hkq0 hlo
  rw [roundDouble_natCast k hk53] at h1
  have h2 := roundDouble_mono (le_trans hkq0 hlo) hhi
  rw [roundDouble_exact _ _ hk53b (by norm_num)] at h2
  rw [Int.floor_eq_iff]
  push_cast at h2 ⊢
  constructor
  · exact h1
  · have : (16 * (k : ℚ) + 15) * (2 : ℚ) ^ (-4 : Int) < (k : ℚ) + 1 := by
      norm_num
      linarith
    linarith

/-- With 80 % loss and the estimate 128000 the double product is just below 25600. -/
theorem availableDouble_four_fifths :
    availableDouble 128000 (4 / 5) (4 / 5) = 3518437208883199 / 137438953472 := by
  unfold availableDouble
  rw [roundDouble_rate 128000 (by decide), max_self, roundDouble_four_fifths]
  have hw : roundDouble (1 - 3602879701896397 / 4503599627370496)
      = 900719925474099 / 4503599627370496 := by
    have h := roundDouble_exact 900719925474099 (-52) (by norm_num) (by norm_num)
    have hv : ((900719925474099 : Nat) : ℚ) * (2 : ℚ) ^ (-52 : Int)
        = 1 - 3602879701896397 / 4503599627370496 := by norm_num
    rw [hv] at h
    rw [h]
    norm_num
  rw [hw]
  have h := roundDouble_eq (((128000 : Nat) : ℚ) * (900719925474099 / 4503599627370496)) 14
    7036874417766398 (by norm_num)
    (by rw [abs_of_pos (by norm_num)]; norm_num)
    (by rw [abs_of_pos (by norm_num)]; norm_num)
    (roundHalfEven_eq _ _ (by norm_num) (by norm_num))
  rw [h]
  norm_num

/-! ## Loss rates and the available rate of one estimation step -/

theorem lossCounted_invariant : IntervalInvariant LossCounted := by
  refine ⟨?_, ?_, ?_⟩
  · intro target start duration
    simp [LossCounted, MonitorInterval.create]
  · intro m sent size h
    unfold MonitorInterval.SentPacket
    split <;> exact h
  · intro m sent recv size delta h
    unfold LossCounted at h
    unfold MonitorInterval.Feedback
    split
    · exact h
    · split
      · exact h
      · split
        · simp only [LossCounted]; omega
        · simp only [LossCounted]; omega

theorem lossRate_bounds (m : MonitorInterval) (h : LossCounted m) :
    0 ≤ m.GetLossRate ∧ m.GetLossRate ≤ 1 := by
  unfold MonitorInterval.GetLossRate
  split
  · rename_i hne
    have hpos : (0 : ℚ) < (m.totalFeedbackedPackets : ℚ) := by
      exact_mod_cast Nat.pos_of_ne_zero hne
    constructor
    · positivity
    · rw [div_le_one hpos]
      exact_mod_cast h
  · exact ⟨le_refl _, zero_le_one⟩

theorem clamp_bounds (x : Nat) :
    kMinRate ≤ min (max x kMinRate) kMaxRate ∧ min (max x kMinRate) kMaxRate ≤ kMaxRate := by
  simp only [kMinRate, kMaxRate]
  omega

theorem toUInt64_available (E : FloatEnv) (c : Nat) (l0 l1 : ℚ) (hc : c ≤ kMaxRate)
    (h00 : 0 ≤ l0) (h01 : l0 ≤ 1) (h10 : 0 ≤ l1) (h11 : l1 ≤ 1) :
    toUInt64 E (some (availableDouble c l0 l1)) = Int.toNat ⌊availableDouble c l0 l1⌋
    ∧ Int.toNat ⌊availableDouble c l0 l1⌋ ≤ c := by
  have hb := availableDouble_bounds c l0 l1 hc h00 h01 h10 h11
  have hck : (c : ℚ) ≤ 100000000 := by
    have : (c : ℚ) ≤ ((kMaxRate : Nat) : ℚ) := by exact_mod_cast hc
    simpa [kMaxRate] using this
  constructor
  · unfold toUInt64
    have hlt : availableDouble c l0 l1 < ((twoPow64 : Nat) : ℚ) := by
      have : ((twoPow64 : Nat) : ℚ) = 18446744073709551616 := by simp [twoPow64]
      rw [this]; linarith [hb.2]
    simp only
    rw [if_pos ⟨by linarith [hb.1], hlt⟩]
  · have hfl : ⌊availableDouble c l0 l1⌋ ≤ (c : Int) := by
      have h1 : ((⌊availableDouble c l0 l1⌋ : Int) : ℚ) ≤ (c : ℚ) :=
        le_trans (Int.floor_le _) hb.2
      exact_mod_cast h1
    omega

theorem estimate_pair_available (E : Env) (s : SendSideBandwidthEstimation)
    (m0 m1 : MonitorInterval) (rest : List MonitorInterval)
    (h : s.monitorIntervals = m0 :: m1 :: rest) (h0 : LossCounted m0) (h1 : LossCounted m1) :
    (s.EstimateBandwidthRate E).availableRate
        = Int.toNat ⌊availableDouble (s.EstimateBandwidthRate E).bandwidthEstimation
            m0.GetLossRate m1.GetLossRate⌋
    ∧ (s.EstimateBandwidthRate E).availableRate ≤ (s.EstimateBandwidthRate E).bandwidthEstimation
    ∧ (s.EstimateBandwidthRate E).requested
        = (if s.listener then s.requested ++ [(s.EstimateBandwidthRate E).availableRate]
          else s.requested)
    ∧ (s.EstimateBandwidthRate E).bandwidthEstimation ≤ kMaxRate := by
  have hl0 := lossRate_bounds m0 h0
  have hl1 := lossRate_bounds m1 h1
  unfold SendSideBandwidthEstimation.EstimateBandwidthRate
  rw [h]
  simp only
  generalize hest : (min (max _ kMinRate) kMaxRate) = c
  have hc : c ≤ kMaxRate := by rw [← hest]; exact (clamp_bounds _).2
  have hconv := toUInt64_available E.toFloatEnv c _ _ hc hl0.1 hl0.2 hl1.1 hl1.2
  rw [hconv.1]
  unfold SendSideBandwidthEstimation.notify
  cases hlis : s.listener <;> simp [hlis, hconv.2, hc]

theorem estimate_single_available (E : Env) (s : SendSideBandwidthEstimation)
    (m : MonitorInterval) (h : s.monitorIntervals = [m]) :
    (s.EstimateBandwidthRate E).availableRate = m.GetReceivedBitrate
    ∧ (s.EstimateBandwidthRate E).bandwidthEstimation = m.GetReceivedBitrate
    ∧ (s.EstimateBandwidthRate E).requested
        = if s.listener then s.requested ++ [m.GetReceivedBitrate] else s.requested := by
  unfold SendSideBandwidthEstimation.EstimateBandwidthRate
  rw [h]
  simp only
  unfold SendSideBandwidthEstimation.notify
  cases hlis : s.listener <;> simp [hlis]

theorem estimate_availableBounded (E : Env) (s : SendSideBandwidthEstimation)
    (h : AvailableBounded s) : AvailableBounded (s.EstimateBandwidthRate E) := by
  refine ⟨?_, ?_⟩
  · cases hm : s.monitorIntervals with
    | nil =>
      have : s.EstimateBandwidthRate E = s := by
        unfold SendSideBandwidthEstimation.EstimateBandwidthRate
        rw [hm]
      rw [this]; exact h.1
    | cons m0 tl =>
      cases tl with
      | nil =>
        have hs := estimate_single_available E s m0 hm
        rw [hs.1, hs.2.1]
      | cons m1 rest =>
        have h0 : LossCounted m0 := h.2 m0 (by rw [hm]; simp)
        have h1 : LossCounted m1 := h.2 m1 (by rw [hm]; simp)
        exact (estimate_pair_available E s m0 m1 rest hm h0 h1).2.1
  · rw [(estimate_frame E s).1]
    exact h.2

theorem sentOffer_rates (s : SendSideBandwidthEstimation) (stats : PacketStats) :
    (s.sentOffer stats).availableRate = s.availableRate
    ∧ (s.sentOffer stats).bandwidthEstimation = s.bandwidthEstimation := by
  unfold SendSideBandwidthEstimation.sentOffer
  split <;> simp

theorem sentPacket_availableBounded (E : Env) (s t : SendSideBandwidthEstimation)
    (stats : PacketStats) (h : AvailableBounded s) (hs : s.SentPacket E stats = some t) :
    AvailableBounded t := by
  refine ⟨?_, sentPacket_forall lossCounted_invariant E s t stats h.2 hs⟩
  have hoff : AvailableBounded (s.sentOffer stats) :=
    ⟨by rw [(sentOffer_rates s stats).1, (sentOffer_rates s stats).2]; exact h.1,
      sentOffer_forall lossCounted_invariant s stats h.2⟩
  unfold SendSideBandwidthEstimation.SentPacket at hs
  simp only at hs
  split at hs
  · exact absurd hs (by simp)
  · split at hs
    · exact absurd hs (by simp)
    · simp only [Option.some.injEq] at hs
      subst hs
      simp only [SendSideBandwidthEstimation.sentRecord]
      unfold SendSideBandwidthEstimation.sentExpire
      split
      · rw [(createIntervals_frame E _ _).2.2.1, (createIntervals_frame E _ _).2.2.2.1]
        exact (estimate_availableBounded E _ hoff).1
      · exact hoff.1

theorem feedbackPacket_availableBounded (E : Env) (s : SendSideBandwidthEstimation)
    (transportSeqNum receivedTime : Nat) (h : AvailableBounded s) :
    AvailableBounded (s.feedbackPacket E transportSeqNum receivedTime) := by
  refine ⟨?_, feedbackPacket_forall lossCounted_invariant E s _ _ h.2⟩
  unfold SendSideBandwidthEstimation.feedbackPacket
  split
  · exact h.1
  · simp only
    split_ifs <;>
      first
        | exact h.1
        | (simp only [createIntervals_frame]
           refine (estimate_availableBounded E _ ⟨?_, ?_⟩).1
           · exact h.1
           · exact feedbackAll_forall lossCounted_invariant _ _ _ _ _ h.2)

/-! ## Construction parameters of the intervals along the calls -/

theorem sentPacket_shape (m : MonitorInterval) (sent size : Nat) :
    (m.SentPacket sent size).2.shape = m.shape := by
  unfold MonitorInterval.SentPacket
  split <;> rfl

theorem feedback_shape (m : MonitorInterval) (sent recv size : Nat) (delta : Int) :
    (m.Feedback sent recv size delta).2.shape = m.shape := by
  unfold MonitorInterval.Feedback
  split_ifs <;> rfl

theorem sentAll_shape (ms : List MonitorInterval) (sent size : Nat) :
    (sentAll ms sent size).map MonitorInterval.shape = ms.map MonitorInterval.shape := by
  simp only [sentAll, List.map_map]
  apply List.map_congr_left
  intro m _
  exact sentPacket_shape m sent size

theorem feedbackAll_shape (ms : List MonitorInterval) (sent recv size : Nat) (delta : Int) :
    (feedbackAll ms sent recv size delta).1.map MonitorInterval.shape
      = ms.map MonitorInterval.shape := by
  simp only [feedbackAll, List.map_map]
  apply List.map_congr_left
  intro m _
  exact feedback_shape m sent recv size delta

theorem replayInFlight_shape (firstSent : Nat) (entries : List (Nat × PacketStats)) :
    ∀ ms : List MonitorInterval,
      (replayInFlight firstSent entries ms).map MonitorInterval.shape
        = ms.map MonitorInterval.shape := by
  induction entries with
  | nil => intro ms; rfl
  | cons e es ih =>
    intro ms
    simp only [replayInFlight, List.foldl_cons] at ih ⊢
    rw [ih, sentAll_shape]

theorem createIntervals_shape (E : Env) (s : SendSideBandwidthEstimation) (time : Nat) :
    (s.CreateIntervals E time).monitorIntervals.map MonitorInterval.shape
      = [((monitorIntervalsBitrates s.bandwidthEstimation (coinSign (E.rand s.randCalls))).1,
            time, kMonitorDuration),
          ((monitorIntervalsBitrates s.bandwidthEstimation (coinSign (E.rand s.randCalls))).2,
            wrap (time + kMonitorDuration), kMonitorDuration)] := by
  simp only [SendSideBandwidthEstimation.CreateIntervals]
  rw [replayInFlight_shape]
  rfl

theorem shape_duration (ms : List MonitorInterval) (shapes : List (Nat × Nat × Nat)) (d : Nat)
    (h : ms.map MonitorInterval.shape = shapes) (hd : ∀ x ∈ shapes, x.2.2 = d) :
    ∀ m ∈ ms, m.duration = d := by
  intro m hm
  have : m.shape ∈ shapes := by
    rw [← h]
    exact List.mem_map_of_mem _ hm
  exact hd _ this

theorem createIntervals_pair (E : Env) (s : SendSideBandwidthEstimation) (time : Nat) :
    (s.CreateIntervals E time).monitorIntervals.length = 2
    ∧ ∀ m ∈ (s.CreateIntervals E time).monitorIntervals, m.duration = kMonitorDuration := by
  refine ⟨createIntervals_length E s time, ?_⟩
  apply shape_duration _ _ _ (createIntervals_shape E s time)
  intro x hx
  simp only [List.mem_cons, List.mem_singleton, List.not_mem_nil, or_false] at hx
  rcases hx with rfl | rfl <;> rfl

/-! ## What one call does to the zero point and to the list of intervals -/

theorem sentPacket_started (E : Env) (s : SendSideBandwidthEstimation) (stats : PacketStats)
    (h0 : s.firstSent ≠ 0) (hne : s.monitorIntervals ≠ []) :
    ∃ t, s.SentPacket E stats = some t ∧ t.firstSent = s.firstSent
      ∧ (t.monitorIntervals.map MonitorInterval.shape
            = s.monitorIntervals.map MonitorInterval.shape
          ∨ ∃ (u : SendSideBandwidthEstimation) (time : Nat),
              t.monitorIntervals = (u.CreateIntervals E time).monitorIntervals) := by
  have hoff : s.sentOffer stats
      = { s with monitorIntervals :=
            sentAll s.monitorIntervals (usub stats.time s.firstSent) stats.size } := by
    unfold SendSideBandwidthEstimation.sentOffer
    rw [if_neg h0]
  have hoffne : (s.sentOffer stats).monitorIntervals ≠ [] := by
    rw [hoff]
    intro hnil
    have := sentAll_length s.monitorIntervals (usub stats.time s.firstSent) stats.size
    simp only at hnil
    rw [hnil] at this
    exact hne (List.length_eq_zero.mp this.symm)
  unfold SendSideBandwidthEstimation.SentPacket
  simp only
  cases hlast : (s.sentOffer stats).monitorIntervals.getLast? with
  | none => exact absurd (List.getLast?_eq_none_iff.mp hlast) hoffne
  | some back =>
    simp only
    unfold SendSideBandwidthEstimation.sentExpire
    by_cases hexp : usub stats.time (s.sentOffer stats).firstSent
        > wrap (back.GetEndTime + (s.sentOffer stats).rtt + kMonitorTimeout)
    · simp only [hexp, if_true]
      have hlen := createIntervals_length E
        ((s.sentOffer stats).EstimateBandwidthRate E) (usub stats.time (s.sentOffer stats).firstSent)
      cases hhead : (((s.sentOffer stats).EstimateBandwidthRate E).CreateIntervals E
          (usub stats.time (s.sentOffer stats).firstSent)).monitorIntervals.head? with
      | none =>
        rw [List.head?_eq_none_iff] at hhead
        rw [hhead] at hlen
        exact absurd hlen (by simp)
      | some front =>
        refine ⟨_, rfl, ?_, Or.inr ⟨_, _, rfl⟩⟩
        simp only [SendSideBandwidthEstimation.sentRecord]
        rw [(createIntervals_frame E _ _).1, (estimate_frame E _).2.1, hoff]
    · simp only [hexp, if_false]
      cases hhead : (s.sentOffer stats).monitorIntervals.head? with
      | none => exact absurd (List.head?_eq_none_iff.mp hhead) hoffne
      | some front =>
        refine ⟨_, rfl, ?_, Or.inl ?_⟩
        · simp only [SendSideBandwidthEstimation.sentRecord]
          rw [hoff]
        · simp only [SendSideBandwidthEstimation.sentRecord]
          rw [hoff]
          exact sentAll_shape _ _ _

theorem feedbackPacket_intervals (E : Env) (s : SendSideBandwidthEstimation)
    (transportSeqNum receivedTime : Nat) :
    (s.feedbackPacket E transportSeqNum receivedTime).firstSent = s.firstSent
    ∧ ((s.feedbackPacket E transportSeqNum receivedTime).monitorIntervals.map
            MonitorInterval.shape = s.monitorIntervals.map MonitorInterval.shape
        ∨ ∃ (u : SendSideBandwidthEstimation) (time : Nat),
            (s.feedbackPacket E transportSeqNum receivedTime).monitorIntervals
              = (u.CreateIntervals E time).monitorIntervals) := by
  unfold SendSideBandwidthEstimation.feedbackPacket
  split
  · exact ⟨rfl, Or.inl rfl⟩
  · simp only
    split_ifs <;>
      first
        | exact ⟨by simp [createIntervals_frame, estimate_frame], Or.inr ⟨_, _, rfl⟩⟩
        | exact ⟨rfl, Or.inl (feedbackAll_shape _ _ _ _ _)⟩

/-! ## Call sequences that always return -/

/-- A property kept by each public call, and under which `SentPacket` returns, holds after
every call sequence, and the sequence returns. -/
theorem run_total_invariant (E : Env) (I : SendSideBandwidthEstimation → Prop)
    (hS : ∀ s stats, I s → ∃ t, s.SentPacket E stats = some t ∧ I t)
    (hF : ∀ s seq recv, I s → I (s.feedbackPacket E seq recv))
    (hR : ∀ s rtt, I s → I (s.UpdateRTT rtt))
    (hL : ∀ s enabled, I s → I (s.SetListener enabled))
    (evs : List Event) :
    ∀ s, I s → ∃ t, s.run E evs = some t ∧ I t := by
  induction evs with
  | nil => intro s h; exact ⟨s, rfl, h⟩
  | cons e es ih =>
    intro s h
    cases e with
    | sent stats =>
      obtain ⟨s1, hs1, hI1⟩ := hS s stats h
      obtain ⟨t, ht, hIt⟩ := ih s1 hI1
      exact ⟨t, by simp only [SendSideBandwidthEstimation.run, SendSideBandwidthEstimation.step, hs1, ht], hIt⟩
    | feedback feedbackNum packets when =>
      obtain ⟨t, ht, hIt⟩ :=
        ih _ (receivedFeedback_invariant E I hF s feedbackNum packets when h)
      exact ⟨t, by simp only [SendSideBandwidthEstimation.run, SendSideBandwidthEstimation.step, ht], hIt⟩
    | rtt rtt =>
      obtain ⟨t, ht, hIt⟩ := ih _ (hR s rtt h)
      exact ⟨t, by simp only [SendSideBandwidthEstimation.run, SendSideBandwidthEstimation.step, ht], hIt⟩
    | listener enabled =>
      obtain ⟨t, ht, hIt⟩ := ih _ (hL s enabled h)
      exact ⟨t, by simp only [SendSideBandwidthEstimation.run, SendSideBandwidthEstimation.step, ht], hIt⟩

theorem usub_self (a : Nat) : usub a a = 0 := by
  unfold usub twoPow64
  omega

theorem started_congr (firstSent : Nat) (s t : SendSideBandwidthEstimation)
    (h : Started firstSent s) (hf : t.firstSent = s.firstSent)
    (hshape : t.monitorIntervals.map MonitorInterval.shape
      = s.monitorIntervals.map MonitorInterval.shape) : Started firstSent t := by
  obtain ⟨h0, hfs, hcases⟩ := h
  refine ⟨h0, hf.trans hfs, ?_⟩
  rcases hcases with hstart | ⟨hlen, hdur⟩
  · exact Or.inl (hshape.trans hstart)
  · refine Or.inr ⟨?_, ?_⟩
    · have := congrArg List.length hshape
      simp only [List.length_map] at this
      omega
    · apply shape_duration t.monitorIntervals _ kMonitorDuration hshape
      intro x hx
      simp only [List.mem_map] at hx
      obtain ⟨m, hm, rfl⟩ := hx
      exact hdur m hm

theorem started_nonempty (firstSent : Nat) (s : SendSideBandwidthEstimation)
    (h : Started firstSent s) : s.monitorIntervals ≠ [] := by
  intro hnil
  rcases h.2.2 with hstart | ⟨hlen, _⟩
  · rw [hnil] at hstart
    exact absurd hstart (by simp)
  · rw [hnil] at hlen
    exact absurd hlen (by simp)

theorem started_of_created (E : Env) (firstSent : Nat) (t u : SendSideBandwidthEstimation)
    (time : Nat) (h0 : firstSent ≠ 0) (hf : t.firstSent = firstSent)
    (hc : t.monitorIntervals = (u.CreateIntervals E time).monitorIntervals) :
    Started firstSent t := by
  refine ⟨h0, hf, Or.inr ?_⟩
  rw [hc]
  exact createIntervals_pair E u time

theorem sentPacket_keeps_started (E : Env) (firstSent : Nat) (s : SendSideBandwidthEstimation)
    (stats : PacketStats) (h : Started firstSent s) :
    ∃ t, s.SentPacket E stats = some t ∧ Started firstSent t := by
  have hfs : s.firstSent ≠ 0 := by rw [h.2.1]; exact h.1
  obtain ⟨t, ht, hf, hcases⟩ :=
    sentPacket_started E s stats hfs (started_nonempty firstSent s h)
  refine ⟨t, ht, ?_⟩
  rcases hcases with hshape | ⟨u, time, hc⟩
  · exact started_congr firstSent s t h hf hshape
  · exact started_of_created E firstSent t u time h.1 (hf.trans h.2.1) hc

theorem feedbackPacket_keeps_started (E : Env) (firstSent : Nat)
    (s : SendSideBandwidthEstimation) (transportSeqNum receivedTime : Nat)
    (h : Started firstSent s) :
    Started firstSent (s.feedbackPacket E transportSeqNum receivedTime) := by
  obtain ⟨hf, hcases⟩ := feedbackPacket_intervals E s transportSeqNum receivedTime
  rcases hcases with hshape | ⟨u, time, hc⟩
  · exact started_congr firstSent s _ h hf hshape
  · exact started_of_created E firstSent _ u time h.1 (hf.trans h.2.1) hc

theorem run_keeps_started (E : Env) (firstSent : Nat) (evs : List Event)
    (s : SendSideBandwidthEstimation) (h : Started firstSent s) :
    ∃ t, s.run E evs = some t ∧ Started firstSent t :=
  run_total_invariant E (Started firstSent)
    (fun s stats hs => sentPacket_keeps_started E firstSent s stats hs)
    (fun s seq recv hs => feedbackPacket_keeps_started E firstSent s seq recv hs)
    (fun _ _ hs => hs) (fun _ _ hs => hs) evs s h

theorem feedbackPacket_idle (E : Env) (s : SendSideBandwidthEstimation)
    (transportSeqNum receivedTime : Nat) (h : Idle s) :
    s.feedbackPacket E transportSeqNum receivedTime = s := by
  unfold SendSideBandwidthEstimation.feedbackPacket
  rw [h.2.2]
  rfl

theorem receivedFeedback_idle (E : Env) (s : SendSideBandwidthEstimation)
    (feedbackNum : Nat) (packets : List (Nat × Nat)) (when : Nat) (h : Idle s) :
    Idle (s.ReceivedFeedback E feedbackNum packets when) :=
  receivedFeedback_invariant E Idle
    (fun u seq recv hu => by rw [feedbackPacket_idle E u seq recv hu]; exact hu)
    s feedbackNum packets when h

theorem sentPacket_idle (E : Env) (s : SendSideBandwidthEstimation) (stats : PacketStats)
    (h : Idle s) :
    ∃ t, s.SentPacket E stats = some t ∧ t.firstSent = stats.time
      ∧ t.monitorIntervals.map MonitorInterval.shape = [(0, 0, kStartupDuration)] := by
  obtain ⟨hf, hm, _⟩ := h
  have hoff : s.sentOffer stats
      = { s with
          firstSent := stats.time
          monitorIntervals :=
            [((MonitorInterval.createStartup 0 kStartupDuration).SentPacket 0 stats.size).2] } := by
    unfold SendSideBandwidthEstimation.sentOffer
    rw [if_pos hf, hm]
    simp [sentAll, usub_self]
  unfold SendSideBandwidthEstimation.SentPacket
  simp only
  rw [hoff]
  simp only [List.getLast?_singleton, usub_self]
  unfold SendSideBandwidthEstimation.sentExpire
  rw [if_neg (Nat.not_lt_zero _)]
  simp only [List.head?_cons]
  refine ⟨_, rfl, rfl, ?_⟩
  simp only [SendSideBandwidthEstimation.sentRecord, List.map_cons, List.map_nil,
    sentPacket_shape]
  rfl

theorem run_append (E : Env) (a b : List Event) :
    ∀ s : SendSideBandwidthEstimation,
      s.run E (a ++ b) = (s.run E a).bind (fun t => t.run E b) := by
  induction a with
  | nil => intro s; rfl
  | cons e es ih =>
    intro s
    simp only [List.cons_append, SendSideBandwidthEstimation.run]
    cases s.step E e with
    | none => rfl
    | some s1 => exact ih s1

theorem run_idle (E : Env) (evs : List Event) :
    ∀ s : SendSideBandwidthEstimation, Idle s → sentTimes evs = [] →
      ∃ t, s.run E evs = some t ∧ Idle t := by
  induction evs with
  | nil => intro s h _; exact ⟨s, rfl, h⟩
  | cons e es ih =>
    intro s h hs
    cases e with
    | sent stats => simp [sentTimes] at hs
    | feedback feedbackNum packets when =>
      obtain ⟨t, ht, hIt⟩ :=
        ih _ (receivedFeedback_idle E s feedbackNum packets when h) (by simpa [sentTimes] using hs)
      exact ⟨t, by simp only [SendSideBandwidthEstimation.run, SendSideBandwidthEstimation.step, ht], hIt⟩
    | rtt rtt =>
      obtain ⟨t, ht, hIt⟩ := ih (s.UpdateRTT rtt) h (by simpa [sentTimes] using hs)
      exact ⟨t, by simp only [SendSideBandwidthEstimation.run, SendSideBandwidthEstimation.step, ht], hIt⟩
    | listener enabled =>
      obtain ⟨t, ht, hIt⟩ := ih (s.SetListener enabled) h (by simpa [sentTimes] using hs)
      exact ⟨t, by simp only [SendSideBandwidthEstimation.run, SendSideBandwidthEstimation.step, ht], hIt⟩

theorem fresh_idle : Idle SendSideBandwidthEstimation.fresh := ⟨rfl, rfl, rfl⟩

theorem run_from_idle (E : Env) (evs : List Event) :
    ∀ s : SendSideBandwidthEstimation, Idle s → (sentTimes evs).head? ≠ some 0 →
      ∃ t, s.run E evs = some t ∧ (Idle t ∨ ∃ firstSent, Started firstSent t) := by
  induction evs with
  | nil => intro s h _; exact ⟨s, rfl, Or.inl h⟩
  | cons e es ih =>
    intro s h hs
    cases e with
    | sent stats =>
      have hne : stats.time ≠ 0 := by
        intro h0
        apply hs
        simp [sentTimes, h0]
      obtain ⟨s1, hs1, hf, hshape⟩ := sentPacket_idle E s stats h
      obtain ⟨t, ht, hIt⟩ := run_keeps_started E stats.time es s1 ⟨hne, hf, Or.inl hshape⟩
      exact ⟨t, by simp only [SendSideBandwidthEstimation.run, SendSideBandwidthEstimation.step, hs1, ht],
        Or.inr ⟨_, hIt⟩⟩
    | feedback feedbackNum packets when =>
      obtain ⟨t, ht, hIt⟩ :=
        ih _ (receivedFeedback_idle E s feedbackNum packets when h) (by simpa [sentTimes] using hs)
      exact ⟨t, by simp only [SendSideBandwidthEstimation.run, SendSideBandwidthEstimation.step, ht], hIt⟩
    | rtt rtt =>
      obtain ⟨t, ht, hIt⟩ := ih (s.UpdateRTT rtt) h (by simpa [sentTimes] using hs)
      exact ⟨t, by simp only [SendSideBandwidthEstimation.run, SendSideBandwidthEstimation.step, ht], hIt⟩
    | listener enabled =>
      obtain ⟨t, ht, hIt⟩ := ih (s.SetListener enabled) h (by simpa [sentTimes] using hs)
      exact ⟨t, by simp only [SendSideBandwidthEstimation.run, SendSideBandwidthEstimation.step, ht], hIt⟩

/-! ## The calls return: `back()` and `front()` are applied to a non-empty list -/

theorem sentOffer_nonempty (s : SendSideBandwidthEstimation) (stats : PacketStats)
    (h : HasIntervals s) : (s.sentOffer stats).monitorIntervals ≠ [] := by
  unfold SendSideBandwidthEstimation.sentOffer
  intro hnil
  have hlen := congrArg List.length hnil
  split at hlen
  · simp [sentAll] at hlen
  · rename_i h0
    simp only [sentAll_length, List.length_nil] at hlen
    exact h h0 (List.length_eq_zero.mp hlen)

theorem sentPacket_returns (E : Env) (s : SendSideBandwidthEstimation) (stats : PacketStats)
    (h : HasIntervals s) :
    ∃ t, s.SentPacket E stats = some t ∧ HasIntervals t := by
  have hoffne := sentOffer_nonempty s stats h
  unfold SendSideBandwidthEstimation.SentPacket
  simp only
  cases hlast : (s.sentOffer stats).monitorIntervals.getLast? with
  | none => exact absurd (List.getLast?_eq_none_iff.mp hlast) hoffne
  | some back =>
    simp only
    have hexpne : ((s.sentOffer stats).sentExpire E back
        (usub stats.time (s.sentOffer stats).firstSent)).monitorIntervals ≠ [] := by
      unfold SendSideBandwidthEstimation.sentExpire
      split
      · intro hnil
        have hlen := createIntervals_length E
          ((s.sentOffer stats).EstimateBandwidthRate E)
          (usub stats.time (s.sentOffer stats).firstSent)
        rw [hnil] at hlen
        exact absurd hlen (by simp)
      · exact hoffne
    cases hhead : ((s.sentOffer stats).sentExpire E back
        (usub stats.time (s.sentOffer stats).firstSent)).monitorIntervals.head? with
    | none => exact absurd (List.head?_eq_none_iff.mp hhead) hexpne
    | some front =>
      refine ⟨_, rfl, ?_⟩
      intro _
      simpa only [SendSideBandwidthEstimation.sentRecord] using hexpne

theorem feedbackPacket_hasIntervals (E : Env) (s : SendSideBandwidthEstimation)
    (transportSeqNum receivedTime : Nat) (h : HasIntervals s) :
    HasIntervals (s.feedbackPacket E transportSeqNum receivedTime) := by
  obtain ⟨hf, hcases⟩ := feedbackPacket_intervals E s transportSeqNum receivedTime
  intro h0
  rw [hf] at h0
  rcases hcases with hshape | ⟨u, time, hc⟩
  · intro hnil
    rw [hnil] at hshape
    have hlen := congrArg List.length hshape
    simp only [List.map_nil, List.length_nil, List.length_map] at hlen
    exact h h0 (List.length_eq_zero.mp hlen.symm)
  · intro hnil
    have hlen := createIntervals_length E u time
    rw [← hc, hnil] at hlen
    exact absurd hlen (by simp)

theorem fresh_hasIntervals : HasIntervals SendSideBandwidthEstimation.fresh := by
  intro h0
  exact absurd rfl h0

/-- Every call sequence on a fresh estimator returns. -/
theorem run_returns (E : Env) (evs : List Event) :
    ∃ t, SendSideBandwidthEstimation.fresh.run E evs = some t ∧ HasIntervals t :=
  run_total_invariant E HasIntervals
    (fun s stats hs => sentPacket_returns E s stats hs)
    (fun s seq recv hs => feedbackPacket_hasIntervals E s seq recv hs)
    (fun _ _ hs => hs) (fun _ _ hs => hs) evs _ fresh_hasIntervals

/-! ## The zero point of the send times and the number of intervals (C8, C9) -/

/-- C8. A first packet stamped with the send time zero is not taken as the first one: the
first call creates the startup interval but leaves `firstSent` at zero, the value the guard
`if (!firstSent)` reads as unset, and the second call then sets `firstSent` to its own time
and appends a second startup interval. -/
theorem C8_zero_time_packet_not_first :
    (SendSideBandwidthEstimation.fresh.run (Env.sample 0) (zeroTimeStart.take 1)).map
        (fun t => (t.firstSent, t.monitorIntervals.map MonitorInterval.shape))
      = some (0, [(0, 0, 1500000)])
    ∧ (SendSideBandwidthEstimation.fresh.run (Env.sample 0) zeroTimeStart).map
        (fun t => (t.firstSent, t.monitorIntervals.map MonitorInterval.shape))
      = some (10000, [(0, 0, 1500000), (0, 0, 1500000)]) := by
  decide

/-- The first `OnSentPacket` call on a fresh estimator, when its send time is not zero,
returns with `firstSent` equal to that time and with exactly one interval, the startup
interval (target 0, start 0, duration 1500000). After any further calls `firstSent` is
still that time, and the intervals are either that single startup interval or a pair of
probing intervals of 250000 us: no second startup interval is ever created. -/
theorem first_packet_fixes_zero_point (E : Env) (pre post : List Event)
    (stats : PacketStats) (hpre : sentTimes pre = []) (hne : stats.time ≠ 0) :
    (∃ s0 s1, SendSideBandwidthEstimation.fresh.run E pre = some s0
        ∧ s0.SentPacket E stats = some s1
        ∧ s1.firstSent = stats.time
        ∧ s1.monitorIntervals.map MonitorInterval.shape = [(0, 0, 1500000)])
    ∧ (∃ t, SendSideBandwidthEstimation.fresh.run E (pre ++ Event.sent stats :: post) = some t
        ∧ t.firstSent = stats.time
        ∧ (t.monitorIntervals.map MonitorInterval.shape = [(0, 0, 1500000)]
            ∨ (t.monitorIntervals.length = 2
                ∧ ∀ m ∈ t.monitorIntervals, m.duration = 250000))) := by
  obtain ⟨s0, hs0, hidle⟩ := run_idle E pre _ fresh_idle hpre
  obtain ⟨s1, hs1, hf, hshape⟩ := sentPacket_idle E s0 stats hidle
  obtain ⟨t, ht, hst⟩ := run_keeps_started E stats.time post s1 ⟨hne, hf, Or.inl hshape⟩
  refine ⟨⟨s0, s1, hs0, hs1, hf, hshape⟩, ⟨t, ?_, hst.2.1, hst.2.2⟩⟩
  rw [run_append, hs0]
  simp only [Option.bind, SendSideBandwidthEstimation.run, SendSideBandwidthEstimation.step,
    hs1, ht]

theorem first_packet_fixes_zero_point_witness :
    ∃ t, SendSideBandwidthEstimation.fresh.run (Env.sample 0)
          ([Event.listener true]
            ++ Event.sent { transportWideSeqNum := 1, time := 1000000, size := 1200 }
              :: [Event.sent { transportWideSeqNum := 2, time := 3250001, size := 1200 }])
        = some t
      ∧ t.firstSent = 1000000
      ∧ (t.monitorIntervals.map MonitorInterval.shape = [(0, 0, 1500000)]
          ∨ (t.monitorIntervals.length = 2
              ∧ ∀ m ∈ t.monitorIntervals, m.duration = 250000)) :=
  (first_packet_fixes_zero_point (Env.sample 0) [Event.listener true]
    [Event.sent { transportWideSeqNum := 2, time := 3250001, size := 1200 }]
    { transportWideSeqNum := 1, time := 1000000, size := 1200 } rfl (by decide)).2

/-- C9. While `firstSent` is zero every `OnSentPacket` call appends another startup
interval: three packets stamped with the send time zero leave three intervals in the list,
one more than the two that `EstimateBandwidthRate` reads. -/
theorem C9_zero_time_three_intervals :
    (SendSideBandwidthEstimation.fresh.run (Env.sample 0) zeroTimeTriple).map
        (fun t => t.monitorIntervals.length) = some 3 := by
  decide

/-- Every sequence of `OnSentPacket`, `OnReceivedFeedback`, `UpdateRTT` and `SetListener`
calls on a fresh estimator whose first `OnSentPacket` call does not carry the send time
zero returns, and leaves a list of at most two monitor intervals. -/
theorem nonzero_start_at_most_two_intervals (E : Env) (evs : List Event)
    (h : (sentTimes evs).head? ≠ some 0) :
    ∃ t, SendSideBandwidthEstimation.fresh.run E evs = some t
      ∧ t.monitorIntervals.length ≤ 2 := by
  obtain ⟨t, ht, hcases⟩ := run_from_idle E evs _ fresh_idle h
  refine ⟨t, ht, ?_⟩
  rcases hcases with hidle | ⟨firstSent, hst⟩
  · rw [hidle.2.1]
    simp
  · rcases hst.2.2 with hshape | ⟨hlen, _⟩
    · have := congrArg List.length hshape
      simp only [List.length_map, List.length_singleton] at this
      omega
    · omega

theorem nonzero_start_at_most_two_intervals_witness :
    ∃ t, SendSideBandwidthEstimation.fresh.run (Env.sample 0) stalledStartup = some t
      ∧ t.monitorIntervals.length ≤ 2 :=
  nonzero_start_at_most_two_intervals (Env.sample 0) stalledStartup (by decide)

/-! ## The estimation step with two intervals -/

theorem utilityGradient_equal_rates (utility0 utility1 bitrate : ℚ) :
    utilityGradient utility0 utility1 bitrate bitrate = none := by
  simp [utilityGradient, fdiv]

theorem estimate_pair_clamped (E : Env) (s : SendSideBandwidthEstimation)
    (m0 m1 : MonitorInterval) (rest : List MonitorInterval)
    (h : s.monitorIntervals = m0 :: m1 :: rest) :
    kMinRate ≤ (s.EstimateBandwidthRate E).bandwidthEstimation
    ∧ (s.EstimateBandwidthRate E).bandwidthEstimation ≤ kMaxRate := by
  unfold SendSideBandwidthEstimation.EstimateBandwidthRate
  rw [h]
  simp only
  unfold SendSideBandwidthEstimation.notify
  cases hlis : s.listener <;> simp only [Bool.false_eq_true, if_false, if_true] <;>
    exact clamp_bounds _

theorem estimate_equal_rates (E : Env) (s : SendSideBandwidthEstimation)
    (m0 m1 : MonitorInterval) (rest : List MonitorInterval)
    (h : s.monitorIntervals = m0 :: m1 :: rest)
    (hrate : m0.GetSentBitrate = m1.GetSentBitrate)
    (hover : targetSent m0.GetSentBitrate m1.GetSentBitrate
      ≤ max m0.GetTargetBitrate m1.GetReceivedBitrate) :
    (s.EstimateBandwidthRate E).state = ChangeState.Increase
    ∧ (s.EstimateBandwidthRate E).bandwidthEstimation
        = min (max (wrap (targetSent m0.GetSentBitrate m1.GetSentBitrate
            + wrap (E.castUB none))) kMinRate) kMaxRate := by
  have hnot : ¬ (targetSent m0.GetSentBitrate m1.GetSentBitrate
      > max m0.GetTargetBitrate m1.GetReceivedBitrate) := Nat.not_lt.mpr hover
  unfold SendSideBandwidthEstimation.EstimateBandwidthRate
  rw [h]
  simp only
  rw [if_neg hnot, hrate, utilityGradient_equal_rates]
  unfold SendSideBandwidthEstimation.notify
  cases hlis : s.listener <;> simp [ftruthy, fmul, toUInt64]

theorem estimate_pair_state (E : Env) (s : SendSideBandwidthEstimation)
    (m0 m1 : MonitorInterval) (rest : List MonitorInterval)
    (h : s.monitorIntervals = m0 :: m1 :: rest) :
    (s.EstimateBandwidthRate E).state
      = if targetSent m0.GetSentBitrate m1.GetSentBitrate
            > max m0.GetTargetBitrate m1.GetReceivedBitrate then ChangeState.OverShoot
        else if ftruthy (utilityGradient (m0.ComputeVivaceUtilityFunction E.toFloatEnv)
            (m1.ComputeVivaceUtilityFunction E.toFloatEnv)
            (m0.GetSentBitrate : ℚ) (m1.GetSentBitrate : ℚ)) then ChangeState.Increase
        else ChangeState.Decrease := by
  unfold SendSideBandwidthEstimation.EstimateBandwidthRate
  rw [h]
  simp only
  unfold SendSideBandwidthEstimation.notify
  cases hlis : s.listener <;> simp [hlis]

theorem estimate_overshoot (E : Env) (s : SendSideBandwidthEstimation)
    (m0 m1 : MonitorInterval) (rest : List MonitorInterval)
    (h : s.monitorIntervals = m0 :: m1 :: rest)
    (hover : targetSent m0.GetSentBitrate m1.GetSentBitrate
      > max m0.GetTargetBitrate m1.GetReceivedBitrate) :
    (s.EstimateBandwidthRate E).state = ChangeState.OverShoot
    ∧ (s.EstimateBandwidthRate E).bandwidthEstimation
        = min (max (min m0.GetReceivedBitrate m1.GetReceivedBitrate) kMinRate) kMaxRate := by
  constructor
  · rw [estimate_pair_state E s m0 m1 rest h, if_pos hover]
  · unfold SendSideBandwidthEstimation.EstimateBandwidthRate
    rw [h]
    simp only
    rw [if_pos hover]
    unfold SendSideBandwidthEstimation.notify
    cases hlis : s.listener <;> simp [hlis]

theorem lossRate_of_counts (m : MonitorInterval) (lost total : Nat)
    (hlost : m.lostPackets = lost) (htotal : m.totalFeedbackedPackets = total)
    (hne : total ≠ 0) : m.GetLossRate = (lost : ℚ) / (total : ℚ) := by
  unfold MonitorInterval.GetLossRate
  rw [hlost, htotal, if_pos hne]

/-! ## The available rate (C2) -/

theorem fresh_availableBounded : AvailableBounded SendSideBandwidthEstimation.fresh := by
  constructor
  · exact le_refl _
  · intro m hm
    simp [SendSideBandwidthEstimation.fresh] at hm

theorem run_availableBounded (E : Env) (evs : List Event) (t : SendSideBandwidthEstimation)
    (h : SendSideBandwidthEstimation.fresh.run E evs = some t) : AvailableBounded t :=
  run_invariant E AvailableBounded
    (fun s stats t hs hsp => sentPacket_availableBounded E s t stats hs hsp)
    (fun s seq recv hs => feedbackPacket_availableBounded E s seq recv hs)
    (fun _ _ hs => hs) (fun _ _ hs => hs) evs _ t fresh_availableBounded h

/-- The truncated double product is within one of the truncated exact product. -/
theorem available_near_exact (c : Nat) (l0 l1 : ℚ) (hc : c ≤ kMaxRate)
    (h00 : 0 ≤ l0) (h01 : l0 ≤ 1) (h10 : 0 ≤ l1) (h11 : l1 ≤ 1) :
    Int.toNat ⌊(c : ℚ) * (1 - max l0 l1)⌋ ≤ Int.toNat ⌊availableDouble c l0 l1⌋ + 1
    ∧ Int.toNat ⌊availableDouble c l0 l1⌋ ≤ Int.toNat ⌊(c : ℚ) * (1 - max l0 l1)⌋ + 1 := by
  have herr := availableDouble_error c l0 l1 hc h00 h01 h10 h11
  have hlt : |availableDouble c l0 l1 - (c : ℚ) * (1 - max l0 l1)| < 1 :=
    lt_of_le_of_lt herr (by norm_num)
  have hnear := floor_near _ _ hlt
  omega

/-- C2, as stated, fails: the product is formed in double precision. With four packets in
five lost in both intervals the estimate is clamped to 128000, the doubles nearest to 0.8
and to 1 - 0.8 lie just off the real values, the double product lies just below 25600, and
the available rate passed to the listener is 25599, not the truncated exact product 25600. -/
theorem C2_rounded_product_counterexample :
    heavyLossPair.monitorIntervals.map
        (fun m => (m.totalSentPackets, m.lostPackets, m.totalFeedbackedPackets))
      = [(5, 4, 5), (5, 4, 5)]
    ∧ heavyLossPair.monitorIntervals.map MonitorInterval.GetLossRate = [4 / 5, 4 / 5]
    ∧ (heavyLossPair.EstimateBandwidthRate (Env.sample 0)).bandwidthEstimation = 128000
    ∧ (heavyLossPair.EstimateBandwidthRate (Env.sample 0)).availableRate = 25599
    ∧ (heavyLossPair.EstimateBandwidthRate (Env.sample 0)).requested = [25599]
    ∧ Int.toNat ⌊((128000 : Nat) : ℚ) * (1 - max (4 / 5) (4 / 5))⌋ = 25600 := by
  have hl0 : (fivePackets 1100000 0 1500
      [20000, uint64Max, uint64Max, uint64Max, uint64Max]).GetLossRate = 4 / 5 := by
    rw [lossRate_of_counts _ 4 5 (by decide) (by decide) (by decide)]
    norm_num
  have hl1 : (fivePackets 900000 250000 1300
      [270000, uint64Max, uint64Max, uint64Max, uint64Max]).GetLossRate = 4 / 5 := by
    rw [lossRate_of_counts _ 4 5 (by decide) (by decide) (by decide)]
    norm_num
  have hover := estimate_overshoot (Env.sample 0) heavyLossPair _ _ [] rfl (by decide)
  have hest : (heavyLossPair.EstimateBandwidthRate (Env.sample 0)).bandwidthEstimation
      = 128000 := by
    rw [hover.2]
    decide
  have hav := estimate_pair_available (Env.sample 0) heavyLossPair _ _ [] rfl
    (by unfold LossCounted; decide) (by unfold LossCounted; decide)
  have havail : (heavyLossPair.EstimateBandwidthRate (Env.sample 0)).availableRate
      = 25599 := by
    rw [hav.1, hest, hl0, hl1, availableDouble_four_fifths]
    have hfl : ⌊(3518437208883199 / 137438953472 : ℚ)⌋ = 25599 := by
      rw [Int.floor_eq_iff]
      constructor <;> norm_num
    rw [hfl]
    rfl
  refine ⟨by decide, ?_, hest, havail, ?_, ?_⟩
  · simp only [heavyLossPair, List.map_cons, List.map_nil, hl0, hl1]
  · rw [hav.2.2.1, havail]
    rfl
  · have hfl : ⌊((128000 : Nat) : ℚ) * (1 - max (4 / 5) (4 / 5))⌋ = 25600 := by
      rw [Int.floor_eq_iff]
      constructor <;> norm_num
    rw [hfl]
    rfl

/-- C2, amended. Every call sequence on a fresh estimator returns, in a state where the
available rate is at most the bandwidth estimate (both are only written by the estimation
step) and every interval has at most as many lost as feedbacked packets. An estimation step
with one interval sets both rates to the received bitrate and passes it to the listener. An
estimation step with two intervals (in which lost packets are among the feedbacked ones)
sets the available rate to the double product of the estimate and one minus the larger loss
rate, every operation rounded to binary64, truncated; it is at most the estimate, differs
by at most one from the truncated exact product, is the value passed to the listener, and
with 20 % loss in both intervals it is exactly 0.8 times the estimate, truncated. -/
theorem C2_available_rate (E : Env) :
    (∀ evs : List Event, ∃ t : SendSideBandwidthEstimation,
        SendSideBandwidthEstimation.fresh.run E evs = some t
          ∧ t.availableRate ≤ t.bandwidthEstimation
          ∧ ∀ m ∈ t.monitorIntervals, m.lostPackets ≤ m.totalFeedbackedPackets)
    ∧ (∀ (s : SendSideBandwidthEstimation) (m : MonitorInterval),
        s.monitorIntervals = [m] →
          (s.EstimateBandwidthRate E).availableRate = (s.EstimateBandwidthRate E).bandwidthEstimation
          ∧ (s.EstimateBandwidthRate E).requested
              = if s.listener then s.requested ++ [(s.EstimateBandwidthRate E).availableRate]
                else s.requested)
    ∧ (∀ (s : SendSideBandwidthEstimation) (m0 m1 : MonitorInterval)
        (rest : List MonitorInterval),
        s.monitorIntervals = m0 :: m1 :: rest →
        m0.lostPackets ≤ m0.totalFeedbackedPackets →
        m1.lostPackets ≤ m1.totalFeedbackedPackets →
          (s.EstimateBandwidthRate E).availableRate
              = Int.toNat ⌊availableDouble (s.EstimateBandwidthRate E).bandwidthEstimation
                  m0.GetLossRate m1.GetLossRate⌋
          ∧ (s.EstimateBandwidthRate E).availableRate
              ≤ (s.EstimateBandwidthRate E).bandwidthEstimation
          ∧ (s.EstimateBandwidthRate E).requested
              = (if s.listener then s.requested ++ [(s.EstimateBandwidthRate E).availableRate]
                else s.requested)
          ∧ Int.toNat ⌊((s.EstimateBandwidthRate E).bandwidthEstimation : ℚ)
                * (1 - max m0.GetLossRate m1.GetLossRate)⌋
              ≤ (s.EstimateBandwidthRate E).availableRate + 1
          ∧ (s.EstimateBandwidthRate E).availableRate
              ≤ Int.toNat ⌊((s.EstimateBandwidthRate E).bandwidthEstimation : ℚ)
                  * (1 - max m0.GetLossRate m1.GetLossRate)⌋ + 1
          ∧ (m0.GetLossRate = 1 / 5 → m1.GetLossRate = 1 / 5 →
              (s.EstimateBandwidthRate E).availableRate
                = Int.toNat ⌊((s.EstimateBandwidthRate E).bandwidthEstimation : ℚ) * (4 / 5)⌋)) := by
  refine ⟨?_, ?_, ?_⟩
  · intro evs
    obtain ⟨t, ht, _⟩ := run_returns E evs
    exact ⟨t, ht, run_availableBounded E evs t ht⟩
  · intro s m hm
    have hs := estimate_single_available E s m hm
    refine ⟨by rw [hs.1, hs.2.1], ?_⟩
    rw [hs.2.2, hs.1]
  · intro s m0 m1 rest hm h0 h1
    have hp := estimate_pair_available E s m0 m1 rest hm h0 h1
    have hl0 := lossRate_bounds m0 h0
    have hl1 := lossRate_bounds m1 h1
    have hnear := available_near_exact _ _ _ hp.2.2.2 hl0.1 hl0.2 hl1.1 hl1.2
    rw [← hp.1] at hnear
    refine ⟨hp.1, hp.2.1, hp.2.2.1, hnear.1, hnear.2, ?_⟩
    intro hf0 hf1
    have hp1 := hp.1
    rw [hf0, hf1, availableDouble_fifth _ hp.2.2.2] at hp1
    exact hp1

theorem C2_available_rate_witness :
    fifthLossPair.monitorIntervals.map
        (fun m => (m.totalSentPackets, m.lostPackets, m.totalFeedbackedPackets))
      = [(5, 1, 5), (5, 1, 5)]
    ∧ (fifthLossPair.EstimateBandwidthRate (Env.sample 0)).bandwidthEstimation = 1000000
    ∧ (fifthLossPair.EstimateBandwidthRate (Env.sample 0)).availableRate = 800000
    ∧ (fifthLossPair.EstimateBandwidthRate (Env.sample 0)).availableRate
        ≤ (fifthLossPair.EstimateBandwidthRate (Env.sample 0)).bandwidthEstimation
    ∧ (fifthLossPair.EstimateBandwidthRate (Env.sample 0)).requested
        = [(fifthLossPair.EstimateBandwidthRate (Env.sample 0)).availableRate] := by
  have h := (C2_available_rate (Env.sample 0)).2.2 fifthLossPair
    (fivePackets 1100000 0 1500 [20000, 36000, 52000, 68000, uint64Max])
    (fivePackets 900000 250000 1300 [270000, 283867, 297734, 311600, uint64Max]) [] rfl
    (by decide) (by decide)
  have hl0 : (fivePackets 1100000 0 1500
      [20000, 36000, 52000, 68000, uint64Max]).GetLossRate = 1 / 5 := by
    rw [lossRate_of_counts _ 1 5 (by decide) (by decide) (by decide)]
    norm_num
  have hl1 : (fivePackets 900000 250000 1300
      [270000, 283867, 297734, 311600, uint64Max]).GetLossRate = 1 / 5 := by
    rw [lossRate_of_counts _ 1 5 (by decide) (by decide) (by decide)]
    norm_num
  have hover := estimate_overshoot (Env.sample 0) fifthLossPair _ _ [] rfl (by decide)
  have hest : (fifthLossPair.EstimateBandwidthRate (Env.sample 0)).bandwidthEstimation
      = 1000000 := by
    rw [hover.2]
    decide
  refine ⟨by decide, hest, ?_, h.2.1, h.2.2.1⟩
  rw [h.2.2.2.2.2 hl0 hl1, hest]
  have hfl : ⌊((1000000 : Nat) : ℚ) * (4 / 5)⌋ = 800000 := by
    rw [Int.floor_eq_iff]
    constructor <;> norm_num
  rw [hfl]
  rfl

/-! ## The last recorded send time lies in the window -/

theorem sentWindow_invariant : IntervalInvariant SentInWindow := by
  refine ⟨?_, ?_, ?_⟩
  · intro target start duration h
    simp [MonitorInterval.create] at h
  · intro m sent size h
    unfold MonitorInterval.SentPacket
    split
    · exact h
    · rename_i hin
      intro _
      simp only [MonitorInterval.GetEndTime] at hin ⊢
      omega
  · intro m sent recv size delta h
    unfold MonitorInterval.Feedback
    split_ifs <;> exact h

theorem run_sentWindow (E : Env) (evs : List Event) (t : SendSideBandwidthEstimation)
    (h : SendSideBandwidthEstimation.fresh.run E evs = some t) :
    ∀ m ∈ t.monitorIntervals, SentInWindow m :=
  run_invariant E (fun s => ∀ m ∈ s.monitorIntervals, SentInWindow m)
    (fun s stats t hs hsp => sentPacket_forall sentWindow_invariant E s t stats hs hsp)
    (fun s seq recv hs => feedbackPacket_forall sentWindow_invariant E s seq recv hs)
    (fun _ _ hs => hs) (fun _ _ hs => hs) evs _ t
    (by intro m hm; simp [SendSideBandwidthEstimation.fresh] at hm) h

/-! ## Inputs on which the code departs from the specification (C1, C3, C4, C5, C7, C10) -/

/-- C1. The estimation step with one interval is not clamped: after the stalled startup
(no feedback at all) the estimate is 0, below `kMinRate`, and 0 is the value passed to the
listener. -/
theorem C1_startup_estimate_not_clamped :
    (SendSideBandwidthEstimation.fresh.run (Env.sample 0)
        (Event.listener true :: stalledStartup)).map
      (fun t => (t.bandwidthEstimation, t.requested, decide (t.bandwidthEstimation < kMinRate)))
      = some (0, [0], true) := by
  decide

/-- C3. When the two intervals of an estimation step have equal sent bitrates (and the step
is not an overshoot) the utility gradient is the result of a division by zero, not zero:
the state becomes `Increase` (a zero gradient gives `Decrease`), and the estimate before
clamping is the target plus the result of converting that non-number to `uint64_t`. -/
theorem C3_equal_rates_gradient_not_guarded (E : Env) (s : SendSideBandwidthEstimation)
    (m0 m1 : MonitorInterval) (rest : List MonitorInterval)
    (h : s.monitorIntervals = m0 :: m1 :: rest)
    (hrate : m0.GetSentBitrate = m1.GetSentBitrate)
    (hover : targetSent m0.GetSentBitrate m1.GetSentBitrate
      ≤ max m0.GetTargetBitrate m1.GetReceivedBitrate) :
    utilityGradient (m0.ComputeVivaceUtilityFunction E.toFloatEnv)
        (m1.ComputeVivaceUtilityFunction E.toFloatEnv)
        (m0.GetSentBitrate : ℚ) (m1.GetSentBitrate : ℚ) = none
    ∧ (s.EstimateBandwidthRate E).state = ChangeState.Increase
    ∧ (s.EstimateBandwidthRate E).bandwidthEstimation
        = min (max (wrap (targetSent m0.GetSentBitrate m1.GetSentBitrate
            + wrap (E.castUB none))) kMinRate) kMaxRate := by
  refine ⟨?_, estimate_equal_rates E s m0 m1 rest h hrate hover⟩
  rw [hrate]
  exact utilityGradient_equal_rates _ _ _

theorem C3_equal_rates_gradient_not_guarded_witness :
    stalledPair.monitorIntervals.map (fun m => (m.totalSentPackets, m.GetSentBitrate))
        = [(0, 0), (0, 0)]
    ∧ (stalledPair.EstimateBandwidthRate (Env.sample 0)).state = ChangeState.Increase
    ∧ (stalledPair.EstimateBandwidthRate (Env.sample 0)).bandwidthEstimation
        = min (max (wrap (targetSent 0 0 + wrap ((Env.sample 0).castUB none))) kMinRate) kMaxRate
    ∧ min (max (wrap (targetSent 0 0 + wrap ((Env.sample 0).castUB none))) kMinRate) kMaxRate
        = 100000000 :=
  ⟨by decide,
    (C3_equal_rates_gradient_not_guarded (Env.sample 0) stalledPair
      (MonitorInterval.create 100000000 2250001 250000)
      (MonitorInterval.create 128000 2500001 250000) []
      (by decide) (by decide) (by decide)).2.1,
    (C3_equal_rates_gradient_not_guarded (Env.sample 0) stalledPair
      (MonitorInterval.create 100000000 2250001 250000)
      (MonitorInterval.create 128000 2500001 250000) []
      (by decide) (by decide) (by decide)).2.2,
    by decide⟩

/-- C4. `CreateIntervals` bounds the first target only from above and the second only from
below: with the coin at -1 (`std::rand()` even) an estimate of 128000 gives the targets
115200 and 140800, the first below `kMinRate`, and an estimate of 100000000 gives 90000000
and 110000000, the second above `kMaxRate`. With the coin at +1 the stalled startup (estimate
0) gives the targets 4000 and 2 ^ 64 - 4000. -/
theorem C4_probe_targets_not_clamped :
    coinSign ((Env.sample 0).rand 0) = -1
    ∧ (atMinRate.CreateIntervals (Env.sample 0) 0).monitorIntervals.map
        MonitorInterval.GetTargetBitrate = [115200, 140800]
    ∧ (atMaxRate.CreateIntervals (Env.sample 0) 0).monitorIntervals.map
        MonitorInterval.GetTargetBitrate = [90000000, 110000000]
    ∧ coinSign ((Env.sample 1).rand 0) = 1
    ∧ (SendSideBandwidthEstimation.fresh.run (Env.sample 1) stalledStartup).map
        (fun t => (t.bandwidthEstimation,
          t.monitorIntervals.map MonitorInterval.GetTargetBitrate))
      = some (0, [4000, 18446744073709547616]) := by
  decide

/-- C5. The packet whose `OnSentPacket` call replaces the intervals is never offered to the
new pair, yet its feedback is counted there: after the stalled startup and the feedback of
its second packet the first interval has one feedbacked packet and no sent packet. -/
theorem C5_feedbacked_exceeds_sent :
    nondecreasing (sentTimes stalledStartupFeedback) = true
    ∧ (SendSideBandwidthEstimation.fresh.run (Env.sample 0) stalledStartupFeedback).map
        (fun t => t.monitorIntervals.map
          (fun m => (m.shape, m.totalSentPackets, m.totalFeedbackedPackets)))
      = some [((100000000, 2250001, 250000), 0, 1), ((128000, 2500001, 250000), 0, 0)] := by
  decide

/-- C7. The erase loop of `SentPacket` tests the packet just sent, not the entry under the
iterator: after the stalled startup the first interval starts at 2250001, and the history
still holds packet 1, sent at the relative time 0. -/
theorem C7_old_entry_not_collected :
    (SendSideBandwidthEstimation.fresh.run (Env.sample 0) stalledStartup).map
        (fun t => (t.monitorIntervals.head?.map MonitorInterval.GetStartTime,
          t.transportWideSentPacketsStats.map (fun e => (e.1, usub e.2.time t.firstSent))))
      = some (some 2250001, [(1, 0), (2, 2250001)]) := by
  decide

/-- C10. `CreateIntervals` replays the in-flight packets in key order, not in send order:
when the sequence number wraps, the new first interval records the packet sent at 1600010
before the packet sent at 1600000, and ends with `firstSent` above `lastSent`. -/
theorem C10_replay_out_of_send_order :
    nondecreasing (sentTimes wrappedSeqNumRun) = true
    ∧ (SendSideBandwidthEstimation.fresh.run (Env.sample 0) wrappedSeqNumRun).map
        (fun t => t.monitorIntervals.map
          (fun m => (m.shape, m.totalSentPackets, m.firstSent, m.lastSent)))
      = some [((100000000, 1600000, 250000), 2, 1600010, 1600000),
              ((128000, 1850000, 250000), 0, uint64Max, uint64Max)] := by
  decide

/-! ## The contract of `MonitorInterval::SentPacket` and `MonitorInterval::Feedback`
(C16, C17, C18, C19) -/

theorem getEndTime_of_no_overflow (m : MonitorInterval)
    (h : m.start + m.duration < twoPow64) : m.GetEndTime = m.start + m.duration := by
  unfold MonitorInterval.GetEndTime wrap
  exact Nat.mod_eq_of_lt h

theorem sentPacket_accepts_iff (m : MonitorInterval) (sent size : Nat) :
    (m.SentPacket sent size).1 = true ↔ m.start ≤ sent ∧ sent ≤ m.GetEndTime := by
  unfold MonitorInterval.SentPacket
  split
  · rename_i h
    simp only [Bool.false_eq_true, false_iff]
    omega
  · rename_i h
    simp only [true_iff]
    omega

/-- C16. `SentPacket(sent, size)` returns true exactly when `start <= sent <= end`, the end
being `start + duration` (in `uint64_t`). A rejected call leaves the interval unchanged, so
repeating it is rejected again with no change. An accepted call sets `firstSent` only if it
was unset, sets `lastSent`, adds `size` to the sent size and one to the sent packets, and
changes no other field; repeating it counts the packet a second time. -/
theorem C16_sentPacket_contract (m : MonitorInterval) (sent size : Nat) :
    ((m.SentPacket sent size).1 = true ↔ m.start ≤ sent ∧ sent ≤ m.GetEndTime)
    ∧ (m.start + m.duration < twoPow64 → m.GetEndTime = m.start + m.duration)
    ∧ ((m.SentPacket sent size).1 = false →
        (m.SentPacket sent size).2 = m
        ∧ (m.SentPacket sent size).2.SentPacket sent size = (false, m))
    ∧ ((m.SentPacket sent size).1 = true →
        (m.SentPacket sent size).2
          = { m with
              firstSent := if m.firstSent = uint64Max then sent else m.firstSent
              lastSent := sent
              accumulatedSentSize := m.accumulatedSentSize + size
              totalSentPackets := m.totalSentPackets + 1 }
        ∧ ((m.SentPacket sent size).2.SentPacket sent size).1 = true
        ∧ ((m.SentPacket sent size).2.SentPacket sent size).2.totalSentPackets
            = m.totalSentPackets + 2
        ∧ ((m.SentPacket sent size).2.SentPacket sent size).2.accumulatedSentSize
            = m.accumulatedSentSize + size + size) := by
  refine ⟨sentPacket_accepts_iff m sent size, getEndTime_of_no_overflow m, ?_, ?_⟩
  · intro h
    have hrej : ¬ (m.start ≤ sent ∧ sent ≤ m.GetEndTime) := by
      rw [← sentPacket_accepts_iff m sent size, h]
      simp
    have hcond : sent < m.start ∨ sent > m.GetEndTime := by omega
    have hsame : m.SentPacket sent size = (false, m) := by
      unfold MonitorInterval.SentPacket
      rw [if_pos hcond]
    rw [hsame]
    exact ⟨rfl, hsame⟩
  · intro h
    have hin := (sentPacket_accepts_iff m sent size).mp h
    have hcond : ¬ (sent < m.start ∨ sent > m.GetEndTime) := by omega
    have hacc : m.SentPacket sent size
        = (true, { m with
              firstSent := if m.firstSent = uint64Max then sent else m.firstSent
              lastSent := sent
              accumulatedSentSize := m.accumulatedSentSize + size
              totalSentPackets := m.totalSentPackets + 1 }) := by
      unfold MonitorInterval.SentPacket
      rw [if_neg hcond]
    rw [hacc]
    refine ⟨rfl, ?_, ?_, ?_⟩ <;>
      · unfold MonitorInterval.SentPacket
        simp only [MonitorInterval.GetEndTime] at hcond ⊢
        rw [if_neg hcond]

theorem C16_sentPacket_contract_witness :
    (probeInterval.SentPacket 500 1200).2 = probeInterval
    ∧ (probeInterval.SentPacket 500 1200).2.SentPacket 500 1200 = (false, probeInterval)
    ∧ (probeInterval.SentPacket 2000 1200).2
        = { probeInterval with
            firstSent := if probeInterval.firstSent = uint64Max then 2000
              else probeInterval.firstSent
            lastSent := 2000
            accumulatedSentSize := probeInterval.accumulatedSentSize + 1200
            totalSentPackets := probeInterval.totalSentPackets + 1 }
    ∧ ((probeInterval.SentPacket 2000 1200).2.SentPacket 2000 1200).2.totalSentPackets
        = probeInterval.totalSentPackets + 2 :=
  ⟨((C16_sentPacket_contract probeInterval 500 1200).2.2.1 (by decide)).1,
    ((C16_sentPacket_contract probeInterval 500 1200).2.2.1 (by decide)).2,
    ((C16_sentPacket_contract probeInterval 2000 1200).2.2.2 (by decide)).1,
    ((C16_sentPacket_contract probeInterval 2000 1200).2.2.2 (by decide)).2.2.1⟩

/-- C17. `Feedback` for a packet sent before the start of the interval returns false and
leaves the interval unchanged; for a packet sent after its end it returns false, sets
`feedbackCollectionDone` and changes no other field. -/
theorem C17_feedback_rejects (m : MonitorInterval) (sent recv size : Nat) (delta : Int) :
    (sent < m.start → m.Feedback sent recv size delta = (false, m))
    ∧ (m.start ≤ sent → sent > m.GetEndTime →
        m.Feedback sent recv size delta = (false, { m with feedbackCollectionDone := true })) := by
  constructor
  · intro h
    unfold MonitorInterval.Feedback
    rw [if_pos h]
  · intro h1 h2
    unfold MonitorInterval.Feedback
    rw [if_neg (Nat.not_lt.mpr h1), if_pos h2]

theorem C17_feedback_rejects_witness :
    probeInterval.Feedback 500 30000 1200 0 = (false, probeInterval)
    ∧ probeInterval.Feedback 300000 30000 1200 0
        = (false, { probeInterval with feedbackCollectionDone := true }) :=
  ⟨(C17_feedback_rejects probeInterval 500 30000 1200 0).1 (by decide),
    (C17_feedback_rejects probeInterval 300000 30000 1200 0).2 (by decide) (by decide)⟩

/-- C18. `Feedback` for a packet sent inside the window returns true. With a receive time
(any value but the sentinel) it adds one to the feedbacked packets, sets `firstRecv` if it
was unset, sets `lastRecv`, adds `size` to the received size and appends `(sent, delta)` to
`deltas`; without one it adds one to the feedbacked and to the lost packets. No other field
changes, in particular no sent-side field. -/
theorem C18_feedback_accepts (m : MonitorInterval) (sent recv size : Nat) (delta : Int)
    (h1 : m.start ≤ sent) (h2 : sent ≤ m.GetEndTime) :
    (recv ≠ uint64Max →
      m.Feedback sent recv size delta
        = (true, { m with
            totalFeedbackedPackets := m.totalFeedbackedPackets + 1
            firstRecv := if m.firstRecv = uint64Max then recv else m.firstRecv
            lastRecv := recv
            accumulatedReceivedSize := m.accumulatedReceivedSize + size
            deltas := m.deltas ++ [(sent, delta)] }))
    ∧ (recv = uint64Max →
      m.Feedback sent recv size delta
        = (true, { m with
            totalFeedbackedPackets := m.totalFeedbackedPackets + 1
            lostPackets := m.lostPackets + 1 })) := by
  constructor
  · intro h
    unfold MonitorInterval.Feedback
    rw [if_neg (Nat.not_lt.mpr h1), if_neg (Nat.not_lt.mpr h2), if_pos h]
  · intro h
    unfold MonitorInterval.Feedback
    rw [if_neg (Nat.not_lt.mpr h1), if_neg (Nat.not_lt.mpr h2), if_neg (not_not.mpr h)]

theorem C18_feedback_accepts_witness :
    probeInterval.Feedback 2000 30000 1200 7
        = (true, { probeInterval with
            totalFeedbackedPackets := probeInterval.totalFeedbackedPackets + 1
            firstRecv := if probeInterval.firstRecv = uint64Max then 30000
              else probeInterval.firstRecv
            lastRecv := 30000
            accumulatedReceivedSize := probeInterval.accumulatedReceivedSize + 1200
            deltas := probeInterval.deltas ++ [(2000, 7)] })
    ∧ probeInterval.Feedback 2000 uint64Max 1200 0
        = (true, { probeInterval with
            totalFeedbackedPackets := probeInterval.totalFeedbackedPackets + 1
            lostPackets := probeInterval.lostPackets + 1 }) :=
  ⟨(C18_feedback_accepts probeInterval 2000 30000 1200 7 (by decide) (by decide)).1
      (by decide),
    (C18_feedback_accepts probeInterval 2000 uint64Max 1200 0 (by decide) (by decide)).2 rfl⟩

theorem call_keeps_done (m : MonitorInterval) (c : IntervalCall)
    (h : m.feedbackCollectionDone = true) : (m.call c).feedbackCollectionDone = true := by
  cases c with
  | sentPacket sent size =>
    simp only [MonitorInterval.call, MonitorInterval.SentPacket]
    split <;> exact h
  | feedback sent recv size delta =>
    simp only [MonitorInterval.call, MonitorInterval.Feedback]
    split_ifs <;> first | exact h | rfl

/-- C19. Once `feedbackCollectionDone` is true it stays true under every sequence of
`SentPacket` and `Feedback` calls. -/
theorem C19_done_is_monotonic (m : MonitorInterval) (cs : List IntervalCall)
    (h : m.feedbackCollectionDone = true) : (m.calls cs).feedbackCollectionDone = true := by
  induction cs generalizing m with
  | nil => exact h
  | cons c cs ih => exact ih (m.call c) (call_keeps_done m c h)

theorem C19_done_is_monotonic_witness :
    ((probeInterval.Feedback 300000 30000 1200 0).2.calls
        [IntervalCall.sentPacket 2000 1200, IntervalCall.feedback 2000 30000 1200 0,
          IntervalCall.feedback 500 uint64Max 1200 0]).feedbackCollectionDone = true :=
  C19_done_is_monotonic (probeInterval.Feedback 300000 30000 1200 0).2 _ (by decide)

/-! ## The estimation step with one interval (C13) -/

theorem usub_of_le (a b : Nat) (h : b ≤ a) (ha : a < twoPow64) : usub a b = a - b := by
  unfold usub
  unfold twoPow64 at ha ⊢
  omega

/-- C13. An estimation step with exactly one interval sets the bandwidth estimate and the
available rate to the received bitrate of that interval, passes that value once to the
listener when one is installed, and changes nothing else (in particular neither the state
nor the consecutive changes). The received bitrate is 0 when `lastRecv = firstRecv`, and
otherwise the received bytes times 8000000 divided by `lastRecv - firstRecv`, truncated. -/
theorem C13_startup_step (E : Env) (s : SendSideBandwidthEstimation) (m : MonitorInterval)
    (h : s.monitorIntervals = [m]) :
    s.EstimateBandwidthRate E
        = { s with
            availableRate := m.GetReceivedBitrate
            bandwidthEstimation := m.GetReceivedBitrate
            requested :=
              if s.listener then s.requested ++ [m.GetReceivedBitrate] else s.requested }
    ∧ (m.lastRecv = m.firstRecv → m.GetReceivedBitrate = 0)
    ∧ (m.lastRecv ≠ m.firstRecv →
        m.GetReceivedBitrate
          = m.accumulatedReceivedSize * 8 * 1000000 / usub m.lastRecv m.firstRecv)
    ∧ (m.firstRecv < m.lastRecv → m.lastRecv < twoPow64 →
        m.GetReceivedBitrate
          = m.accumulatedReceivedSize * 8 * 1000000 / (m.lastRecv - m.firstRecv)) := by
  refine ⟨?_, ?_, ?_, ?_⟩
  · unfold SendSideBandwidthEstimation.EstimateBandwidthRate
    rw [h]
    simp only
    unfold SendSideBandwidthEstimation.notify
    cases hlis : s.listener <;> simp [hlis]
  · intro heq
    unfold MonitorInterval.GetReceivedBitrate
    rw [if_neg (not_not.mpr heq)]
  · intro hne
    unfold MonitorInterval.GetReceivedBitrate
    rw [if_pos hne, Nat.mul_assoc]
  · intro hlt hbound
    unfold MonitorInterval.GetReceivedBitrate
    rw [if_pos (Nat.ne_of_gt hlt), usub_of_le _ _ (Nat.le_of_lt hlt) hbound, Nat.mul_assoc]

theorem C13_startup_step_witness :
    (startupEnd.EstimateBandwidthRate (Env.sample 0)).bandwidthEstimation = 960000
    ∧ (startupEnd.EstimateBandwidthRate (Env.sample 0)).availableRate = 960000
    ∧ (startupEnd.EstimateBandwidthRate (Env.sample 0)).requested = [960000]
    ∧ (startupEnd.EstimateBandwidthRate (Env.sample 0)).state = startupEnd.state
    ∧ (startupEnd.EstimateBandwidthRate (Env.sample 0)).consecutiveChanges
        = startupEnd.consecutiveChanges
    ∧ startupInterval.GetReceivedBitrate
        = startupInterval.accumulatedReceivedSize * 8 * 1000000
            / (startupInterval.lastRecv - startupInterval.firstRecv) := by
  have h := C13_startup_step (Env.sample 0) startupEnd startupInterval rfl
  refine ⟨?_, ?_, ?_, ?_, ?_, h.2.2.2 (by decide) (by decide)⟩ <;> rw [h.1] <;> decide

/-! ## The expiry check of `SentPacket` (C15) -/

theorem window_of_shape (m : MonitorInterval) :
    m.window = (m.shape.2.1, wrap (m.shape.2.1 + m.shape.2.2)) := rfl

theorem window_congr (ms ns : List MonitorInterval)
    (h : ms.map MonitorInterval.shape = ns.map MonitorInterval.shape) :
    ms.map MonitorInterval.window = ns.map MonitorInterval.window := by
  have hw : MonitorInterval.window
      = (fun x : Nat × Nat × Nat => (x.2.1, wrap (x.2.1 + x.2.2))) ∘ MonitorInterval.shape := by
    funext m
    exact window_of_shape m
  rw [hw, ← List.map_map, ← List.map_map, h]

theorem createIntervals_window (E : Env) (s : SendSideBandwidthEstimation) (time : Nat) :
    (s.CreateIntervals E time).monitorIntervals.map MonitorInterval.window
      = [(time, wrap (time + kMonitorDuration)),
          (wrap (time + kMonitorDuration),
            wrap (wrap (time + kMonitorDuration) + kMonitorDuration))] := by
  have hw : MonitorInterval.window
      = (fun x : Nat × Nat × Nat => (x.2.1, wrap (x.2.1 + x.2.2))) ∘ MonitorInterval.shape := by
    funext m
    exact window_of_shape m
  rw [hw, ← List.map_map, createIntervals_shape]
  rfl

theorem sentOffer_started (s : SendSideBandwidthEstimation) (stats : PacketStats)
    (h0 : s.firstSent ≠ 0) :
    s.sentOffer stats
      = { s with monitorIntervals :=
            sentAll s.monitorIntervals (usub stats.time s.firstSent) stats.size } := by
  unfold SendSideBandwidthEstimation.sentOffer
  rw [if_neg h0]

/-- C15. For an estimator whose `firstSent` is fixed, `SentPacket` with the relative send
time `rel` compares `rel` with the end of the last interval plus the RTT plus 750000 (in
`uint64_t`). Above that threshold it returns the state obtained by offering the packet to
the intervals, running one estimation step, creating the intervals at `rel` and recording
the packet; the intervals are then the pair with the windows `[rel, rel + 250000]` and
`[rel + 250000, rel + 500000]` (sums in `uint64_t`, plain sums when `rel + 500000 < 2^64`).
At or below the threshold no estimation step runs: the estimate, the available rate, the
state, the consecutive changes and the listener log are unchanged, and so are the targets,
starts and durations of the intervals. -/
theorem C15_expiry_check (E : Env) (s : SendSideBandwidthEstimation) (stats : PacketStats)
    (back : MonitorInterval) (h0 : s.firstSent ≠ 0)
    (hback : s.monitorIntervals.getLast? = some back) :
    (usub stats.time s.firstSent > wrap (back.GetEndTime + s.rtt + kMonitorTimeout) →
      ∃ t front,
        s.SentPacket E stats = some t
        ∧ t = (((s.sentOffer stats).EstimateBandwidthRate E).CreateIntervals E
                (usub stats.time s.firstSent)).sentRecord stats front
        ∧ t.monitorIntervals.map MonitorInterval.window
            = [(usub stats.time s.firstSent, wrap (usub stats.time s.firstSent + 250000)),
                (wrap (usub stats.time s.firstSent + 250000),
                  wrap (wrap (usub stats.time s.firstSent + 250000) + 250000))]
        ∧ (usub stats.time s.firstSent + 500000 < twoPow64 →
            t.monitorIntervals.map MonitorInterval.window
              = [(usub stats.time s.firstSent, usub stats.time s.firstSent + 250000),
                  (usub stats.time s.firstSent + 250000,
                    usub stats.time s.firstSent + 500000)]))
    ∧ (usub stats.time s.firstSent ≤ wrap (back.GetEndTime + s.rtt + kMonitorTimeout) →
      ∃ t,
        s.SentPacket E stats = some t
        ∧ t.monitorIntervals.map MonitorInterval.shape
            = s.monitorIntervals.map MonitorInterval.shape
        ∧ t.monitorIntervals.map MonitorInterval.window
            = s.monitorIntervals.map MonitorInterval.window
        ∧ t.bandwidthEstimation = s.bandwidthEstimation
        ∧ t.availableRate = s.availableRate
        ∧ t.state = s.state
        ∧ t.consecutiveChanges = s.consecutiveChanges
        ∧ t.requested = s.requested
        ∧ t.randCalls = s.randCalls) := by
  have hoff := sentOffer_started s stats h0
  have hlast : (s.sentOffer stats).monitorIntervals.getLast?
      = some (back.SentPacket (usub stats.time s.firstSent) stats.size).2 := by
    rw [hoff]
    simp only [sentAll, List.getLast?_map, hback, Option.map_some']
  have hend : (back.SentPacket (usub stats.time s.firstSent) stats.size).2.GetEndTime
      = back.GetEndTime := by
    have := sentPacket_shape back (usub stats.time s.firstSent) stats.size
    simp only [MonitorInterval.shape, Prod.mk.injEq] at this
    unfold MonitorInterval.GetEndTime
    rw [this.2.1, this.2.2]
  have hfs : (s.sentOffer stats).firstSent = s.firstSent := by rw [hoff]
  have hrtt : (s.sentOffer stats).rtt = s.rtt := by rw [hoff]
  have hsp : s.SentPacket E stats
      = match ((s.sentOffer stats).sentExpire E
            (back.SentPacket (usub stats.time s.firstSent) stats.size).2
            (usub stats.time s.firstSent)).monitorIntervals.head? with
        | none => none
        | some front =>
          some (((s.sentOffer stats).sentExpire E
            (back.SentPacket (usub stats.time s.firstSent) stats.size).2
            (usub stats.time s.firstSent)).sentRecord stats front) := by
    unfold SendSideBandwidthEstimation.SentPacket
    simp only [hlast, hfs]
  constructor
  · intro hexp
    have hex : (s.sentOffer stats).sentExpire E
        (back.SentPacket (usub stats.time s.firstSent) stats.size).2
        (usub stats.time s.firstSent)
        = ((s.sentOffer stats).EstimateBandwidthRate E).CreateIntervals E
            (usub stats.time s.firstSent) := by
      unfold SendSideBandwidthEstimation.sentExpire
      rw [hend, hrtt, if_pos hexp]
    rw [hex] at hsp
    have hlen := createIntervals_length E ((s.sentOffer stats).EstimateBandwidthRate E)
      (usub stats.time s.firstSent)
    have hwin := createIntervals_window E ((s.sentOffer stats).EstimateBandwidthRate E)
      (usub stats.time s.firstSent)
    cases hhead : (((s.sentOffer stats).EstimateBandwidthRate E).CreateIntervals E
        (usub stats.time s.firstSent)).monitorIntervals.head? with
    | none =>
      rw [List.head?_eq_none_iff] at hhead
      rw [hhead] at hlen
      exact absurd hlen (by simp)
    | some front =>
      rw [hhead] at hsp
      refine ⟨_, front, hsp, rfl, ?_, ?_⟩
      · simp only [SendSideBandwidthEstimation.sentRecord]
        exact hwin
      · intro hno
        simp only [SendSideBandwidthEstimation.sentRecord]
        rw [hwin]
        unfold twoPow64 at hno
        have e1 : wrap (usub stats.time s.firstSent + kMonitorDuration)
            = usub stats.time s.firstSent + 250000 := by
          unfold wrap twoPow64 kMonitorDuration
          omega
        have e2 : wrap (usub stats.time s.firstSent + 250000 + kMonitorDuration)
            = usub stats.time s.firstSent + 500000 := by
          unfold wrap twoPow64 kMonitorDuration
          omega
        rw [e1, e2]
  · intro hno
    have hex : (s.sentOffer stats).sentExpire E
        (back.SentPacket (usub stats.time s.firstSent) stats.size).2
        (usub stats.time s.firstSent) = s.sentOffer stats := by
      unfold SendSideBandwidthEstimation.sentExpire
      rw [hend, hrtt, if_neg (Nat.not_lt.mpr hno)]
    rw [hex] at hsp
    have hshape : (s.sentOffer stats).monitorIntervals.map MonitorInterval.shape
        = s.monitorIntervals.map MonitorInterval.shape := by
      rw [hoff]
      exact sentAll_shape _ _ _
    cases hhead : (s.sentOffer stats).monitorIntervals.head? with
    | none =>
      rw [List.head?_eq_none_iff] at hhead
      rw [hhead] at hlast
      exact absurd hlast (by simp)
    | some front =>
      rw [hhead] at hsp
      refine ⟨_, hsp, ?_, ?_, ?_, ?_, ?_, ?_, ?_, ?_⟩
      · exact hshape
      · exact window_congr _ _ hshape
      all_goals
        simp only [SendSideBandwidthEstimation.sentRecord]
        rw [hoff]

theorem C15_expiry_check_witness :
    ∃ t front,
      startedOnce.SentPacket (Env.sample 0)
          { transportWideSeqNum := 2, time := 3250001, size := 1200 } = some t
      ∧ t = (((startedOnce.sentOffer
                { transportWideSeqNum := 2, time := 3250001, size := 1200 }).EstimateBandwidthRate
                (Env.sample 0)).CreateIntervals (Env.sample 0)
                (usub 3250001 startedOnce.firstSent)).sentRecord
              { transportWideSeqNum := 2, time := 3250001, size := 1200 } front
      ∧ t.monitorIntervals.map MonitorInterval.window
          = [(usub 3250001 startedOnce.firstSent, usub 3250001 startedOnce.firstSent + 250000),
              (usub 3250001 startedOnce.firstSent + 250000,
                usub 3250001 startedOnce.firstSent + 500000)] :=
  have h := (C15_expiry_check (Env.sample 0) startedOnce
    { transportWideSeqNum := 2, time := 3250001, size := 1200 }
    ((MonitorInterval.createStartup 0 kStartupDuration).SentPacket 0 1200).2
    (by decide) (by decide)).1 (by decide)
  h.elim fun t ht => ht.elim fun front hf => ⟨t, front, hf.1, hf.2.1, hf.2.2.2 (by decide)⟩

/-! ## The first delay delta (C12) -/

/-- C12. The first received feedback stores the absolute send and receive times in
`prevSent` and `prevRecv` and then subtracts them from relative times: for a packet sent at
1000000 and received at 1020000 the delay delta offered to the startup interval is -20000
(`firstSent - receivedTime`), not 0. -/
theorem C12_first_delta_not_zero :
    (SendSideBandwidthEstimation.fresh.run (Env.sample 0) firstFeedbackRun).map
        (fun t => (t.monitorIntervals.map (fun m => m.deltas), t.firstRecv, t.prevSent,
          t.prevRecv))
      = some ([[(0, -20000)]], 1020000, 0, 0) := by
  decide

/-! ## The delay gradient is the least-squares slope (C20) -/

theorem delaySums_foldl (l : List (Nat × Int)) :
    ∀ a b : ℚ,
      l.foldl (fun acc d => (acc.1 + (d.1 : ℚ), acc.2 + (d.2 : ℚ))) (a, b)
        = (a + (l.map (fun x => (x.1 : ℚ))).sum, b + (l.map (fun x => (x.2 : ℚ))).sum) := by
  induction l with
  | nil => intro a b; simp
  | cons x xs ih =>
    intro a b
    simp only [List.foldl_cons, List.map_cons, List.sum_cons]
    rw [ih]
    simp only [Prod.mk.injEq]
    constructor <;> ring

theorem delaySums_eq (l : List (Nat × Int)) :
    delaySums l = ((l.map (fun x => (x.1 : ℚ))).sum, (l.map (fun x => (x.2 : ℚ))).sum) := by
  unfold delaySums
  rw [delaySums_foldl]
  simp

theorem delayScaled_foldl (c : ℚ) (l : List (Nat × Int)) :
    ∀ a b : ℚ,
      l.foldl
          (fun acc d =>
            (acc.1 + ((d.1 : ℚ) - c) * ((d.1 : ℚ) - c), acc.2 + ((d.1 : ℚ) - c) * (d.2 : ℚ)))
          (a, b)
        = (a + (l.map (fun x => ((x.1 : ℚ) - c) ^ 2)).sum,
            b + (l.map (fun x => ((x.1 : ℚ) - c) * (x.2 : ℚ))).sum) := by
  induction l with
  | nil => intro a b; simp
  | cons x xs ih =>
    intro a b
    simp only [List.foldl_cons, List.map_cons, List.sum_cons]
    rw [ih]
    simp only [Prod.mk.injEq]
    constructor <;> ring

theorem delayScaled_eq (l : List (Nat × Int)) :
    delayScaled (delaySums l).1 l
      = ((l.map (fun x => ((x.1 : ℚ) - meanTime l) ^ 2)).sum,
          (l.map (fun x => ((x.1 : ℚ) - meanTime l) * (x.2 : ℚ))).sum) := by
  unfold delayScaled
  simp only
  rw [delayScaled_foldl, delaySums_eq]
  simp [meanTime, meanOf]

theorem sum_centred (c : ℚ) (l : List (Nat × Int)) :
    (l.map (fun x => (x.1 : ℚ) - c)).sum
      = (l.map (fun x => (x.1 : ℚ))).sum - (l.length : ℚ) * c := by
  induction l with
  | nil => simp
  | cons x xs ih =>
    simp only [List.map_cons, List.sum_cons, List.length_cons, Nat.cast_add, Nat.cast_one]
    rw [ih]
    ring

theorem sum_centred_mean (l : List (Nat × Int)) :
    (l.map (fun x => (x.1 : ℚ) - meanTime l)).sum = 0 := by
  rw [sum_centred]
  unfold meanTime meanOf
  cases l with
  | nil => simp
  | cons x xs =>
    have hn : ((x :: xs).map (fun y : Nat × Int => (y.1 : ℚ))).length = (x :: xs).length := by
      simp
    rw [hn]
    have hpos : ((x :: xs).length : ℚ) ≠ 0 := by
      simp only [List.length_cons, Nat.cast_add, Nat.cast_one]
      positivity
    field_simp

theorem sum_centred_product (c e : ℚ) (l : List (Nat × Int)) :
    (l.map (fun x => ((x.1 : ℚ) - c) * ((x.2 : ℚ) - e))).sum
      = (l.map (fun x => ((x.1 : ℚ) - c) * (x.2 : ℚ))).sum
        - e * (l.map (fun x => (x.1 : ℚ) - c)).sum := by
  induction l with
  | nil => simp
  | cons x xs ih =>
    simp only [List.map_cons, List.sum_cons]
    rw [ih]
    ring

theorem uncentred_numerator_eq (l : List (Nat × Int)) :
    (delayScaled (delaySums l).1 l).2 = centredNumerator l := by
  rw [delayScaled_eq]
  unfold centredNumerator
  rw [sum_centred_product, sum_centred_mean]
  simp

theorem code_denominator_eq (l : List (Nat × Int)) :
    (delayScaled (delaySums l).1 l).1 = centredDenominator l := by
  rw [delayScaled_eq]
  rfl

theorem centredDenominator_same_time (l : List (Nat × Int)) (t : Nat)
    (h : ∀ x ∈ l, x.1 = t) : centredDenominator l = 0 := by
  cases l with
  | nil => simp [centredDenominator]
  | cons y ys =>
    have hmean : meanTime (y :: ys) = (t : ℚ) := by
      have hsum : ∀ zs : List (Nat × Int), (∀ x ∈ zs, x.1 = t) →
          (zs.map (fun x => (x.1 : ℚ))).sum = (zs.length : ℚ) * (t : ℚ) := by
        intro zs
        induction zs with
        | nil => intro _; simp
        | cons z zs ih =>
          intro hz
          simp only [List.map_cons, List.sum_cons, List.length_cons, Nat.cast_add,
            Nat.cast_one]
          rw [ih (fun x hx => hz x (List.mem_cons_of_mem _ hx)), hz z (List.mem_cons_self _ _)]
          ring
      unfold meanTime meanOf
      rw [hsum _ h]
      have hpos : ((y :: ys).length : ℚ) ≠ 0 := by
        simp only [List.length_cons, Nat.cast_add, Nat.cast_one]
        positivity
      simp only [List.length_map]
      field_simp
    unfold centredDenominator
    rw [hmean]
    apply List.sum_eq_zero
    intro q hq
    simp only [List.mem_map] at hq
    obtain ⟨x, hx, rfl⟩ := hq
    rw [h x hx]
    simp

/-- C20. Over exact arithmetic `ComputeDelayGradient` is the ordinary least-squares slope of
the delay against the send time: its numerator, which multiplies the centred times by the
delays as they are, equals the sum of `(t_i - mean t) * (d_i - mean d)`, its denominator is
the sum of `(t_i - mean t) ^ 2`, it returns their quotient when the denominator is not zero
and 0 when it is; the denominator is zero for no sample, for a single sample and for samples
with one common send time. -/
theorem C20_delay_gradient_is_least_squares (m : MonitorInterval) :
    (delayScaled (delaySums m.deltas).1 m.deltas).2 = centredNumerator m.deltas
    ∧ (delayScaled (delaySums m.deltas).1 m.deltas).1 = centredDenominator m.deltas
    ∧ (centredDenominator m.deltas ≠ 0 →
        m.ComputeDelayGradient = leastSquaresSlope m.deltas)
    ∧ (centredDenominator m.deltas = 0 → m.ComputeDelayGradient = 0)
    ∧ (m.deltas = [] → m.ComputeDelayGradient = 0)
    ∧ (∀ x, m.deltas = [x] → m.ComputeDelayGradient = 0)
    ∧ (∀ t : Nat, (∀ x ∈ m.deltas, x.1 = t) → m.ComputeDelayGradient = 0) := by
  have hnum := uncentred_numerator_eq m.deltas
  have hden := code_denominator_eq m.deltas
  have hzero : centredDenominator m.deltas = 0 → m.ComputeDelayGradient = 0 := by
    intro h0
    unfold MonitorInterval.ComputeDelayGradient
    simp only
    rw [hden, if_neg (not_not.mpr h0)]
  refine ⟨hnum, hden, ?_, hzero, ?_, ?_, ?_⟩
  · intro hne
    unfold MonitorInterval.ComputeDelayGradient leastSquaresSlope
    simp only
    rw [hden, hnum, if_pos hne]
  · intro hnil
    apply hzero
    apply centredDenominator_same_time _ 0
    rw [hnil]
    intro x hx
    simp at hx
  · intro x hx
    apply hzero
    apply centredDenominator_same_time _ x.1
    rw [hx]
    intro y hy
    simp only [List.mem_singleton] at hy
    rw [hy]
  · intro t ht
    exact hzero (centredDenominator_same_time _ t ht)

theorem C20_delay_gradient_is_least_squares_witness :
    risingInterval.ComputeDelayGradient = leastSquaresSlope risingInterval.deltas
    ∧ probeInterval.ComputeDelayGradient = 0 :=
  ⟨(C20_delay_gradient_is_least_squares risingInterval).2.2.1
      (by
        have hd : risingInterval.deltas = [(0, 0), (10000, 100), (20000, 200)] := by decide
        rw [hd]
        norm_num [centredDenominator, meanTime, meanOf]),
    (C20_delay_gradient_is_least_squares probeInterval).2.2.2.2.1 (by decide)⟩

/-! ## Interval properties kept by construction and by `SentPacket` alone -/

theorem sentAll_forall_send {P : MonitorInterval → Prop}
    (hs : ∀ m sent size, P m → P (m.SentPacket sent size).2)
    (ms : List MonitorInterval) (sent size : Nat) (h : ∀ m ∈ ms, P m) :
    ∀ m ∈ sentAll ms sent size, P m := by
  intro m hm
  simp only [sentAll, List.mem_map] at hm
  obtain ⟨m0, hm0, rfl⟩ := hm
  exact hs m0 sent size (h m0 hm0)

theorem replayInFlight_forall_send {P : MonitorInterval → Prop}
    (hs : ∀ m sent size, P m → P (m.SentPacket sent size).2)
    (firstSent : Nat) (entries : List (Nat × PacketStats)) :
    ∀ ms : List MonitorInterval, (∀ m ∈ ms, P m) →
      ∀ m ∈ replayInFlight firstSent entries ms, P m := by
  induction entries with
  | nil => intro ms h; exact h
  | cons e es ih =>
    intro ms h
    simp only [replayInFlight, List.foldl_cons] at ih ⊢
    exact ih _ (sentAll_forall_send hs ms _ _ h)

theorem createIntervals_forall_send {P : MonitorInterval → Prop}
    (hc : ∀ target start duration, P (MonitorInterval.create target start duration))
    (hs : ∀ m sent size, P m → P (m.SentPacket sent size).2)
    (E : Env) (s : SendSideBandwidthEstimation) (time : Nat) :
    ∀ m ∈ (s.CreateIntervals E time).monitorIntervals, P m := by
  simp only [SendSideBandwidthEstimation.CreateIntervals]
  apply replayInFlight_forall_send hs
  intro m hm
  simp only [List.mem_cons, List.mem_singleton, List.not_mem_nil, or_false] at hm
  rcases hm with rfl | rfl
  · exact hc _ _ _
  · exact hc _ _ _

theorem sentOffer_forall_send {P : MonitorInterval → Prop}
    (hc : ∀ target start duration, P (MonitorInterval.create target start duration))
    (hs : ∀ m sent size, P m → P (m.SentPacket sent size).2)
    (s : SendSideBandwidthEstimation) (stats : PacketStats)
    (h : ∀ m ∈ s.monitorIntervals, P m) :
    ∀ m ∈ (s.sentOffer stats).monitorIntervals, P m := by
  unfold SendSideBandwidthEstimation.sentOffer
  split
  · apply sentAll_forall_send hs
    intro m hm
    simp only [List.mem_append, List.mem_singleton] at hm
    rcases hm with hm | rfl
    · exact h m hm
    · exact hc _ _ _
  · exact sentAll_forall_send hs _ _ _ h

theorem sentPacket_forall_send {P : MonitorInterval → Prop}
    (hc : ∀ target start duration, P (MonitorInterval.create target start duration))
    (hs : ∀ m sent size, P m → P (m.SentPacket sent size).2)
    (E : Env) (s t : SendSideBandwidthEstimation) (stats : PacketStats)
    (h : ∀ m ∈ s.monitorIntervals, P m) (hsp : s.SentPacket E stats = some t) :
    ∀ m ∈ t.monitorIntervals, P m := by
  unfold SendSideBandwidthEstimation.SentPacket at hsp
  simp only at hsp
  split at hsp
  · exact absurd hsp (by simp)
  · split at hsp
    · exact absurd hsp (by simp)
    · simp only [Option.some.injEq] at hsp
      subst hsp
      simp only [SendSideBandwidthEstimation.sentRecord]
      unfold SendSideBandwidthEstimation.sentExpire
      split
      · exact createIntervals_forall_send hc hs E _ _
      · exact sentOffer_forall_send hc hs s stats h

theorem notify_recv_frame (s : SendSideBandwidthEstimation) (rate : Nat) :
    (s.notify rate).firstRecv = s.firstRecv
    ∧ (s.notify rate).prevSent = s.prevSent
    ∧ (s.notify rate).prevRecv = s.prevRecv
    ∧ (s.notify rate).lastRecv = s.lastRecv := by
  unfold SendSideBandwidthEstimation.notify
  split <;> simp

theorem estimate_recv_frame (E : Env) (s : SendSideBandwidthEstimation) :
    (s.EstimateBandwidthRate E).firstRecv = s.firstRecv
    ∧ (s.EstimateBandwidthRate E).prevSent = s.prevSent
    ∧ (s.EstimateBandwidthRate E).prevRecv = s.prevRecv
    ∧ (s.EstimateBandwidthRate E).lastRecv = s.lastRecv := by
  unfold SendSideBandwidthEstimation.EstimateBandwidthRate
  split
  · simp
  · simp [notify_recv_frame]
  · simp [notify_recv_frame]

theorem sentPacket_firstRecv (E : Env) (s t : SendSideBandwidthEstimation)
    (stats : PacketStats) (hsp : s.SentPacket E stats = some t) :
    t.firstRecv = s.firstRecv := by
  have hoff : (s.sentOffer stats).firstRecv = s.firstRecv := by
    unfold SendSideBandwidthEstimation.sentOffer
    split <;> rfl
  have hest : ∀ u : SendSideBandwidthEstimation,
      (u.EstimateBandwidthRate E).firstRecv = u.firstRecv :=
    fun u => (estimate_recv_frame E u).1
  unfold SendSideBandwidthEstimation.SentPacket at hsp
  simp only at hsp
  split at hsp
  · exact absurd hsp (by simp)
  · split at hsp
    · exact absurd hsp (by simp)
    · simp only [Option.some.injEq] at hsp
      subst hsp
      simp only [SendSideBandwidthEstimation.sentRecord]
      unfold SendSideBandwidthEstimation.sentExpire
      split
      · simp only [SendSideBandwidthEstimation.CreateIntervals]
        rw [hest, hoff]
      · exact hoff

/-! ## What the feedback of one packet does to the receive zero point and to the intervals -/

theorem feedbackPacket_found (E : Env) (s : SendSideBandwidthEstimation)
    (transportSeqNum receivedTime : Nat) (stat : PacketStats)
    (hfind : mapFind transportSeqNum s.transportWideSentPacketsStats = some stat) :
    (s.feedbackPacket E transportSeqNum receivedTime).firstRecv
        = (if s.firstRecv = 0 then receivedTime else s.firstRecv)
    ∧ ((∃ delta : Int,
          (s.feedbackPacket E transportSeqNum receivedTime).monitorIntervals
            = (feedbackAll s.monitorIntervals (usub stat.time s.firstSent)
                (if receivedTime ≠ 0 then
                    usub receivedTime (if s.firstRecv = 0 then receivedTime else s.firstRecv)
                  else uint64Max)
                stat.size delta).1)
        ∨ ∃ (u : SendSideBandwidthEstimation) (time : Nat),
            (s.feedbackPacket E transportSeqNum receivedTime).monitorIntervals
              = (u.CreateIntervals E time).monitorIntervals) := by
  have hest : ∀ u : SendSideBandwidthEstimation,
      (u.EstimateBandwidthRate E).firstRecv = u.firstRecv :=
    fun u => (estimate_recv_frame E u).1
  unfold SendSideBandwidthEstimation.feedbackPacket
  rw [hfind]
  simp only
  split_ifs <;>
    first
      | exact ⟨by simp [SendSideBandwidthEstimation.CreateIntervals, hest],
          Or.inr ⟨_, _, rfl⟩⟩
      | exact ⟨rfl, Or.inl ⟨_, rfl⟩⟩

/-! ## Receive times in arrival order (C11) -/

theorem recvWithin_create (firstRecv bound target start duration : Nat) :
    RecvWithin firstRecv bound (MonitorInterval.create target start duration) := by
  constructor
  · intro _; rfl
  · intro h; exact absurd rfl h

theorem recvWithin_sentPacket (firstRecv bound : Nat) (m : MonitorInterval) (sent size : Nat)
    (h : RecvWithin firstRecv bound m) :
    RecvWithin firstRecv bound (m.SentPacket sent size).2 := by
  unfold MonitorInterval.SentPacket
  split <;> exact h

theorem recvWithin_mono (firstRecv bound bound2 : Nat) (m : MonitorInterval)
    (h : RecvWithin firstRecv bound m) (hb : bound ≤ bound2) :
    RecvWithin firstRecv bound2 m := by
  refine ⟨h.1, fun hd => ?_⟩
  obtain ⟨h1, h2, h3⟩ := h.2 hd
  exact ⟨h1, h2, Nat.le_trans h3 hb⟩

theorem recvWithin_rezero (bound firstRecv2 bound2 : Nat) (m : MonitorInterval)
    (h : RecvWithin 0 bound m) : RecvWithin firstRecv2 bound2 m := by
  refine ⟨h.1, fun hd => ?_⟩
  exact absurd rfl (h.2 hd).1

theorem recvWithin_feedback_lost (firstRecv bound : Nat) (m : MonitorInterval)
    (sent size : Nat) (delta : Int) (h : RecvWithin firstRecv bound m) :
    RecvWithin firstRecv bound (m.Feedback sent uint64Max size delta).2 := by
  unfold MonitorInterval.Feedback
  by_cases h1 : sent < m.start
  · rw [if_pos h1]
    exact h
  · by_cases h2 : sent > m.GetEndTime
    · rw [if_neg h1, if_pos h2]
      exact h
    · rw [if_neg h1, if_neg h2, if_neg (not_not.mpr rfl)]
      exact h

theorem recvWithin_feedback (firstRecv bound r : Nat) (m : MonitorInterval)
    (sent recv size : Nat) (delta : Int) (h : RecvWithin firstRecv bound m)
    (hz : firstRecv ≠ 0) (hrecv : recv + firstRecv = r) (hb : bound ≤ r) :
    RecvWithin firstRecv r (m.Feedback sent recv size delta).2 := by
  have hmono := recvWithin_mono firstRecv bound r m h hb
  unfold MonitorInterval.Feedback
  by_cases h1 : sent < m.start
  · rw [if_pos h1]
    exact hmono
  · by_cases h2 : sent > m.GetEndTime
    · rw [if_neg h1, if_pos h2]
      exact hmono
    · by_cases h3 : recv ≠ uint64Max
      · rw [if_neg h1, if_neg h2, if_pos h3]
        constructor
        · intro hd
          simp at hd
        · intro _
          refine ⟨hz, ?_, ?_⟩
          · show (if m.firstRecv = uint64Max then recv else m.firstRecv) ≤ recv
            by_cases hf : m.firstRecv = uint64Max
            · rw [if_pos hf]
            · rw [if_neg hf]
              have hne : m.deltas ≠ [] := fun hnil => hf (h.1 hnil)
              obtain ⟨_, h4, h5⟩ := h.2 hne
              omega
          · show recv + firstRecv ≤ r
            omega
      · rw [if_neg h1, if_neg h2, if_neg h3]
        exact hmono

theorem feedbackAll_recvWithin (firstRecv bound r : Nat) (ms : List MonitorInterval)
    (sent recv size : Nat) (delta : Int) (h : ∀ m ∈ ms, RecvWithin firstRecv bound m)
    (hz : firstRecv ≠ 0) (hrecv : recv + firstRecv = r) (hb : bound ≤ r) :
    ∀ m ∈ (feedbackAll ms sent recv size delta).1, RecvWithin firstRecv r m := by
  intro m hm
  simp only [feedbackAll, List.mem_map] at hm
  obtain ⟨m0, hm0, rfl⟩ := hm
  exact recvWithin_feedback firstRecv bound r m0 sent recv size delta (h m0 hm0) hz hrecv hb

theorem feedbackAll_recvWithin_lost (firstRecv bound : Nat) (ms : List MonitorInterval)
    (sent size : Nat) (delta : Int) (h : ∀ m ∈ ms, RecvWithin firstRecv bound m) :
    ∀ m ∈ (feedbackAll ms sent uint64Max size delta).1, RecvWithin firstRecv bound m := by
  intro m hm
  simp only [feedbackAll, List.mem_map] at hm
  obtain ⟨m0, hm0, rfl⟩ := hm
  exact recvWithin_feedback_lost firstRecv bound m0 sent size delta (h m0 hm0)

theorem createIntervals_recvWithin (E : Env) (firstRecv bound : Nat)
    (u : SendSideBandwidthEstimation) (time : Nat) :
    ∀ m ∈ (u.CreateIntervals E time).monitorIntervals, RecvWithin firstRecv bound m :=
  createIntervals_forall_send (recvWithin_create firstRecv bound)
    (recvWithin_sentPacket firstRecv bound) E u time

theorem sentPacket_recvOrdered (E : Env) (bound : Nat) (s t : SendSideBandwidthEstimation)
    (stats : PacketStats) (h : RecvOrdered bound s) (hsp : s.SentPacket E stats = some t) :
    RecvOrdered bound t := by
  have hf := sentPacket_firstRecv E s t stats hsp
  refine ⟨h.1, by rw [hf]; exact h.2.1, ?_⟩
  rw [hf]
  exact sentPacket_forall_send (recvWithin_create s.firstRecv bound)
    (recvWithin_sentPacket s.firstRecv bound) E s t stats h.2.2 hsp

theorem feedbackPacket_recvOrdered_lost (E : Env) (bound : Nat)
    (s : SendSideBandwidthEstimation) (transportSeqNum : Nat) (h : RecvOrdered bound s) :
    RecvOrdered bound (s.feedbackPacket E transportSeqNum 0) := by
  cases hfind : mapFind transportSeqNum s.transportWideSentPacketsStats with
  | none =>
    have : s.feedbackPacket E transportSeqNum 0 = s := by
      unfold SendSideBandwidthEstimation.feedbackPacket
      rw [hfind]
    rw [this]
    exact h
  | some stat =>
    obtain ⟨hf, hcases⟩ := feedbackPacket_found E s transportSeqNum 0 stat hfind
    have hf2 : (s.feedbackPacket E transportSeqNum 0).firstRecv = s.firstRecv := by
      rw [hf]
      split_ifs with h0
      · exact h0.symm
      · rfl
    refine ⟨h.1, by rw [hf2]; exact h.2.1, ?_⟩
    rw [hf2]
    rcases hcases with ⟨delta, hfb⟩ | ⟨u, time, hc⟩
    · rw [hfb]
      simp only [ne_eq, not_true_eq_false, if_false]
      exact feedbackAll_recvWithin_lost s.firstRecv bound _ _ _ _ h.2.2
    · rw [hc]
      exact createIntervals_recvWithin E s.firstRecv bound u time

theorem feedbackPacket_recvOrdered (E : Env) (bound r : Nat)
    (s : SendSideBandwidthEstimation) (transportSeqNum : Nat) (h : RecvOrdered bound s)
    (hr0 : r ≠ 0) (hb : bound ≤ r) (hr : r < twoPow64) :
    RecvOrdered r (s.feedbackPacket E transportSeqNum r) := by
  cases hfind : mapFind transportSeqNum s.transportWideSentPacketsStats with
  | none =>
    have : s.feedbackPacket E transportSeqNum r = s := by
      unfold SendSideBandwidthEstimation.feedbackPacket
      rw [hfind]
    rw [this]
    exact ⟨hr, Nat.le_trans h.2.1 hb,
      fun m hm => recvWithin_mono s.firstRecv bound r m (h.2.2 m hm) hb⟩
  | some stat =>
    obtain ⟨hf, hcases⟩ := feedbackPacket_found E s transportSeqNum r stat hfind
    by_cases h0 : s.firstRecv = 0
    · rw [if_pos h0] at hf
      refine ⟨hr, by rw [hf], ?_⟩
      rw [hf]
      rcases hcases with ⟨delta, hfb⟩ | ⟨u, time, hc⟩
      · rw [hfb, if_pos h0, if_pos hr0, usub_self]
        apply feedbackAll_recvWithin r r r _ _ _ _ _ _ hr0 (by omega) (Nat.le_refl _)
        intro m hm
        have hm0 := h.2.2 m hm
        rw [h0] at hm0
        exact recvWithin_rezero bound r r m hm0
      · rw [hc]
        exact createIntervals_recvWithin E r r u time
    · rw [if_neg h0] at hf
      have hle : s.firstRecv ≤ r := Nat.le_trans h.2.1 hb
      refine ⟨hr, by rw [hf]; exact hle, ?_⟩
      rw [hf]
      rcases hcases with ⟨delta, hfb⟩ | ⟨u, time, hc⟩
      · rw [hfb, if_neg h0, if_pos hr0, usub_of_le r s.firstRecv hle hr]
        exact feedbackAll_recvWithin s.firstRecv bound r _ _ _ _ _ h.2.2 h0 (by omega) hb
      · rw [hc]
        exact createIntervals_recvWithin E s.firstRecv r u time

theorem recvTimesOf_cons_zero (p : Nat × Nat) (ps : List (Nat × Nat)) (h : p.2 = 0) :
    recvTimesOf (p :: ps) = recvTimesOf ps := by
  simp [recvTimesOf, h]

theorem recvTimesOf_cons_pos (p : Nat × Nat) (ps : List (Nat × Nat)) (h : p.2 ≠ 0) :
    recvTimesOf (p :: ps) = p.2 :: recvTimesOf ps := by
  simp [recvTimesOf, h]

theorem feedback_foldl_recvOrdered (E : Env) (tail : List Nat) (packets : List (Nat × Nat)) :
    ∀ (s : SendSideBandwidthEstimation) (bound : Nat),
      RecvOrdered bound s →
      ascendingFrom bound (recvTimesOf packets ++ tail) →
      (∀ r ∈ recvTimesOf packets, r < twoPow64) →
      ∃ bound2,
        RecvOrdered bound2
          (packets.foldl (fun st feedback => st.feedbackPacket E feedback.1 feedback.2) s)
        ∧ ascendingFrom bound2 tail := by
  induction packets with
  | nil =>
    intro s bound h hasc _
    exact ⟨bound, h, by simpa [recvTimesOf] using hasc⟩
  | cons p ps ih =>
    intro s bound h hasc hlt
    simp only [List.foldl_cons]
    by_cases hp : p.2 = 0
    · rw [recvTimesOf_cons_zero p ps hp] at hasc hlt
      have h1 : RecvOrdered bound (s.feedbackPacket E p.1 p.2) := by
        rw [hp]
        exact feedbackPacket_recvOrdered_lost E bound s p.1 h
      exact ih _ bound h1 hasc hlt
    · rw [recvTimesOf_cons_pos p ps hp] at hasc hlt
      simp only [List.cons_append, ascendingFrom] at hasc
      have hr : p.2 < twoPow64 := hlt p.2 (List.mem_cons_self _ _)
      have h1 : RecvOrdered p.2 (s.feedbackPacket E p.1 p.2) :=
        feedbackPacket_recvOrdered E bound p.2 s p.1 h hp hasc.1 hr
      exact ih _ p.2 h1 hasc.2 (fun r hr2 => hlt r (List.mem_cons_of_mem _ hr2))

theorem receivedFeedback_eq_foldl (E : Env) (s : SendSideBandwidthEstimation)
    (feedbackNum : Nat) (packets : List (Nat × Nat)) (when : Nat) :
    s.ReceivedFeedback E feedbackNum packets when
      = packets.foldl (fun st feedback => st.feedbackPacket E feedback.1 feedback.2) s := by
  unfold SendSideBandwidthEstimation.ReceivedFeedback
  split
  · rename_i hempty
    rw [List.isEmpty_iff] at hempty
    rw [hempty]
    rfl
  · rfl

theorem run_recvOrdered (E : Env) (evs : List Event) :
    ∀ (s t : SendSideBandwidthEstimation) (bound : Nat),
      RecvOrdered bound s →
      ascendingFrom bound (recvTimes evs) →
      (∀ r ∈ recvTimes evs, r < twoPow64) →
      s.run E evs = some t →
      ∃ bound2, RecvOrdered bound2 t := by
  induction evs with
  | nil =>
    intro s t bound h _ _ hrun
    simp only [SendSideBandwidthEstimation.run, Option.some.injEq] at hrun
    exact ⟨bound, hrun ▸ h⟩
  | cons e es ih =>
    intro s t bound h hasc hlt hrun
    simp only [SendSideBandwidthEstimation.run] at hrun
    cases e with
    | sent stats =>
      simp only [SendSideBandwidthEstimation.step] at hrun
      cases hsp : s.SentPacket E stats with
      | none => rw [hsp] at hrun; exact absurd hrun (by simp)
      | some s1 =>
        rw [hsp] at hrun
        exact ih s1 t bound (sentPacket_recvOrdered E bound s s1 stats h hsp) hasc hlt hrun
    | feedback feedbackNum packets when =>
      simp only [SendSideBandwidthEstimation.step, receivedFeedback_eq_foldl] at hrun
      simp only [recvTimes] at hasc hlt
      obtain ⟨bound2, h2, hasc2⟩ := feedback_foldl_recvOrdered E (recvTimes es) packets s bound h
        hasc (fun r hr => hlt r (List.mem_append_left _ hr))
      exact ih _ t bound2 h2 hasc2 (fun r hr => hlt r (List.mem_append_right _ hr)) hrun
    | rtt rtt =>
      simp only [SendSideBandwidthEstimation.step] at hrun
      exact ih (s.UpdateRTT rtt) t bound h hasc hlt hrun
    | listener enabled =>
      simp only [SendSideBandwidthEstimation.step] at hrun
      exact ih (s.SetListener enabled) t bound h hasc hlt hrun

theorem ascendingFrom_of_nondecreasing (l : List Nat) :
    ∀ bound, nondecreasing (bound :: l) = true → ascendingFrom bound l := by
  induction l with
  | nil => intro _ _; trivial
  | cons x xs ih =>
    intro bound h
    simp only [nondecreasing, Bool.and_eq_true, decide_eq_true_eq] at h
    exact ⟨h.1, ih x h.2⟩

theorem ascendingFrom_zero (l : List Nat) (h : nondecreasing l = true) :
    ascendingFrom 0 l := by
  apply ascendingFrom_of_nondecreasing
  cases l with
  | nil => rfl
  | cons x xs =>
    simp only [nondecreasing, Bool.and_eq_true, decide_eq_true_eq]
    exact ⟨Nat.zero_le _, h⟩

theorem fresh_recvOrdered : RecvOrdered 0 SendSideBandwidthEstimation.fresh := by
  refine ⟨by decide, Nat.le_refl _, ?_⟩
  intro m hm
  simp [SendSideBandwidthEstimation.fresh] at hm

/-- C11, as stated, fails. The receive times of an interval are relative to the first
received feedback, its start is relative to the first sent packet: after the stalled
startup and the feedback of its second packet the first interval starts at 2250001 and its
first receive time is 0. And `lastRecv` is the receive time of the latest feedback: when two
packets arrive in the opposite order, the first interval ends with the first receive time
2270001 above the last one, 2265001. -/
theorem C11_receive_times_counterexample :
    (SendSideBandwidthEstimation.fresh.run (Env.sample 0) stalledStartupFeedback).map
        (fun t => t.monitorIntervals.map
          (fun m => (m.start, m.deltas.length, m.firstRecv, m.lastRecv)))
      = some [(2250001, 1, 0, 0), (2500001, 0, uint64Max, uint64Max)]
    ∧ (SendSideBandwidthEstimation.fresh.run (Env.sample 0) reorderedArrival).map
        (fun t => t.monitorIntervals.map
          (fun m => (m.start, m.deltas.length, m.firstRecv, m.lastRecv)))
      = some [(2250001, 2, 2270001, 2265001), (2500001, 0, uint64Max, uint64Max)] := by
  decide

/-- C11, amended. Every sequence of calls on a fresh estimator in which the receive times
of the packets reported as received are nondecreasing in the order of processing returns,
and in the state reached every interval that has had a packet acknowledged as received
(a sample in `deltas`) has its first receive time at most its last receive time. -/
theorem C11_first_recv_le_last_recv (E : Env) (evs : List Event)
    (hasc : nondecreasing (recvTimes evs) = true)
    (hlt : ∀ r ∈ recvTimes evs, r < twoPow64) :
    ∃ t, SendSideBandwidthEstimation.fresh.run E evs = some t
      ∧ ∀ m ∈ t.monitorIntervals, m.deltas ≠ [] → m.firstRecv ≤ m.lastRecv := by
  obtain ⟨t, ht, _⟩ := run_returns E evs
  obtain ⟨bound, hb⟩ := run_recvOrdered E evs _ t 0 fresh_recvOrdered
    (ascendingFrom_zero _ hasc) hlt ht
  exact ⟨t, ht, fun m hm hd => ((hb.2.2 m hm).2 hd).2.1⟩

theorem C11_first_recv_le_last_recv_witness :
    ∃ t, SendSideBandwidthEstimation.fresh.run (Env.sample 0) stalledStartupFeedback = some t
      ∧ ∀ m ∈ t.monitorIntervals, m.deltas ≠ [] → m.firstRecv ≤ m.lastRecv :=
  C11_first_recv_le_last_recv (Env.sample 0) stalledStartupFeedback (by decide) (by decide)

/-! ## The sent bitrate and the utility (C21, C22) -/

/-- C21, as stated, fails: `GetSentBitrate` divides the accumulated sent size, not the
received one. An interval with 2400 bytes sent over 10 ms and nothing received has the sent
bitrate 1920000, while its received size gives 0. -/
theorem C21_sent_size_counterexample :
    sentOnlyInterval.GetSentBitrate = 1920000
    ∧ sentOnlyInterval.lastSent - sentOnlyInterval.firstSent = 10000
    ∧ sentOnlyInterval.accumulatedSentSize * 8 * 1000000
        / (sentOnlyInterval.lastSent - sentOnlyInterval.firstSent) = 1920000
    ∧ sentOnlyInterval.accumulatedReceivedSize * 8 * 1000000
        / (sentOnlyInterval.lastSent - sentOnlyInterval.firstSent) = 0 := by
  decide

/-- C21, amended. `GetSentBitrate` is 0 when `lastSent = firstSent`, in particular after at
most one packet on a freshly constructed interval, and otherwise the accumulated sent size
in bits times 1000000 divided by `lastSent - firstSent`, truncated. -/
theorem C21_sent_bitrate (m : MonitorInterval) :
    (m.lastSent = m.firstSent → m.GetSentBitrate = 0)
    ∧ (m.lastSent ≠ m.firstSent →
        m.GetSentBitrate = m.accumulatedSentSize * 8 * 1000000 / usub m.lastSent m.firstSent)
    ∧ (m.firstSent < m.lastSent → m.lastSent < twoPow64 →
        m.GetSentBitrate
          = m.accumulatedSentSize * 8 * 1000000 / (m.lastSent - m.firstSent))
    ∧ (∀ target start duration sent size : Nat,
        ((MonitorInterval.create target start duration).SentPacket sent size).2.GetSentBitrate
          = 0) := by
  refine ⟨?_, ?_, ?_, ?_⟩
  · intro heq
    unfold MonitorInterval.GetSentBitrate
    rw [if_neg (not_not.mpr heq)]
  · intro hne
    unfold MonitorInterval.GetSentBitrate
    have h8 : m.accumulatedSentSize * 8 * 1000000 = m.accumulatedSentSize * 8000000 := by
      omega
    rw [if_pos hne, h8]
  · intro hlt hbound
    unfold MonitorInterval.GetSentBitrate
    have h8 : m.accumulatedSentSize * 8 * 1000000 = m.accumulatedSentSize * 8000000 := by
      omega
    rw [if_pos (Nat.ne_of_gt hlt), usub_of_le _ _ (Nat.le_of_lt hlt) hbound, h8]
  · intro target start duration sent size
    unfold MonitorInterval.SentPacket
    split
    · unfold MonitorInterval.GetSentBitrate
      simp [MonitorInterval.create]
    · unfold MonitorInterval.GetSentBitrate
      simp [MonitorInterval.create]

theorem C21_sent_bitrate_witness :
    sentOnlyInterval.GetSentBitrate
        = sentOnlyInterval.accumulatedSentSize * 8 * 1000000
            / (sentOnlyInterval.lastSent - sentOnlyInterval.firstSent)
    ∧ probeInterval.GetSentBitrate = 0 :=
  ⟨(C21_sent_bitrate sentOnlyInterval).2.2.1 (by decide) (by decide),
    (C21_sent_bitrate probeInterval).1 (by decide)⟩

/-- C22. The utility of an interval is `pow(bitrate, 0.9) - 0.005 * gradient * bitrate
- 10 * loss * bitrate` with `bitrate = GetSentBitrate()`, `gradient = ComputeDelayGradient()`
and `loss = GetLossRate()`, the lost packets divided by the feedbacked packets and 0 without
feedback. When the sent bitrate is 0 the utility is `pow(0, 0.9)`, which is 0 for a power
function that maps 0 to 0. -/
theorem C22_vivace_utility (E : FloatEnv) (m : MonitorInterval) :
    m.ComputeVivaceUtilityFunction E
        = E.pow (m.GetSentBitrate : ℚ) (9 / 10)
          - (5 / 1000) * m.ComputeDelayGradient * (m.GetSentBitrate : ℚ)
          - 10 * m.GetLossRate * (m.GetSentBitrate : ℚ)
    ∧ (m.totalFeedbackedPackets = 0 → m.GetLossRate = 0)
    ∧ (m.totalFeedbackedPackets ≠ 0 →
        m.GetLossRate = (m.lostPackets : ℚ) / (m.totalFeedbackedPackets : ℚ))
    ∧ (m.GetSentBitrate = 0 → m.ComputeVivaceUtilityFunction E = E.pow 0 (9 / 10))
    ∧ (m.GetSentBitrate = 0 → E.pow 0 (9 / 10) = 0 → m.ComputeVivaceUtilityFunction E = 0) := by
  have hdef : m.ComputeVivaceUtilityFunction E
      = E.pow (m.GetSentBitrate : ℚ) (9 / 10)
        - (5 / 1000) * m.ComputeDelayGradient * (m.GetSentBitrate : ℚ)
        - 10 * m.GetLossRate * (m.GetSentBitrate : ℚ) := rfl
  have hzero : m.GetSentBitrate = 0 → m.ComputeVivaceUtilityFunction E = E.pow 0 (9 / 10) := by
    intro h0
    rw [hdef, h0]
    simp
  refine ⟨hdef, ?_, ?_, hzero, ?_⟩
  · intro h0
    unfold MonitorInterval.GetLossRate
    rw [if_neg (not_not.mpr h0)]
  · intro hne
    unfold MonitorInterval.GetLossRate
    rw [if_pos hne]
  · intro h0 hpow
    rw [hzero h0, hpow]

theorem C22_vivace_utility_witness :
    (lossyInterval 1100000 0).GetLossRate
        = ((lossyInterval 1100000 0).lostPackets : ℚ)
            / ((lossyInterval 1100000 0).totalFeedbackedPackets : ℚ)
    ∧ probeInterval.GetLossRate = 0
    ∧ probeInterval.ComputeVivaceUtilityFunction (Env.sample 0).toFloatEnv = 0 :=
  ⟨(C22_vivace_utility (Env.sample 0).toFloatEnv (lossyInterval 1100000 0)).2.2.1 (by decide),
    (C22_vivace_utility (Env.sample 0).toFloatEnv probeInterval).2.1 (by decide),
    (C22_vivace_utility (Env.sample 0).toFloatEnv probeInterval).2.2.2.2 (by decide) rfl⟩

/-! ## Feedback that matches no packet in flight (C24) -/

theorem feedbackPacket_absent (E : Env) (s : SendSideBandwidthEstimation)
    (transportSeqNum receivedTime : Nat)
    (h : mapFind transportSeqNum s.transportWideSentPacketsStats = none) :
    s.feedbackPacket E transportSeqNum receivedTime = s := by
  unfold SendSideBandwidthEstimation.feedbackPacket
  rw [h]

/-- C24. `ReceivedFeedback` with an empty batch, or with a batch none of whose sequence
numbers is in the history of sent packets, returns the estimator exactly as it was: every
data member, the log of listener calls and the count of `std::rand()` calls are unchanged. -/
theorem C24_unmatched_feedback_is_ignored (E : Env) (s : SendSideBandwidthEstimation)
    (feedbackNum : Nat) (packets : List (Nat × Nat)) (when : Nat)
    (h : ∀ p ∈ packets, mapFind p.1 s.transportWideSentPacketsStats = none) :
    s.ReceivedFeedback E feedbackNum packets when = s
    ∧ s.ReceivedFeedback E feedbackNum [] when = s := by
  constructor
  · rw [receivedFeedback_eq_foldl]
    induction packets with
    | nil => rfl
    | cons p ps ih =>
      simp only [List.foldl_cons]
      rw [feedbackPacket_absent E s p.1 p.2 (h p (List.mem_cons_self _ _))]
      exact ih (fun q hq => h q (List.mem_cons_of_mem _ hq))
  · rfl

theorem C24_unmatched_feedback_is_ignored_witness :
    startedOnce.ReceivedFeedback (Env.sample 0) 0 [(7, 1020000), (9, 0)] 1030000 = startedOnce
    ∧ startedOnce.ReceivedFeedback (Env.sample 0) 0 [] 1030000 = startedOnce :=
  C24_unmatched_feedback_is_ignored (Env.sample 0) startedOnce 0 [(7, 1020000), (9, 0)]
    1030000 (by decide)

/-! ## `back()` and `front()` in `SentPacket` (C28) -/

/-- C28. Every sequence of calls on a fresh estimator returns, in a state where a fixed
`firstSent` implies a non-empty list of intervals; from such a state every `SentPacket`
call finds a last interval for the expiry check and a first interval for the erase loop,
and returns. `CreateIntervals` always leaves exactly two intervals. -/
theorem C28_back_and_front_exist (E : Env) (evs : List Event) :
    (∃ t, SendSideBandwidthEstimation.fresh.run E evs = some t
      ∧ (t.firstSent ≠ 0 → t.monitorIntervals ≠ [])
      ∧ ∀ stats : PacketStats,
          ∃ back front u,
            (t.sentOffer stats).monitorIntervals.getLast? = some back
            ∧ ((t.sentOffer stats).sentExpire E back
                (usub stats.time (t.sentOffer stats).firstSent)).monitorIntervals.head?
                = some front
            ∧ t.SentPacket E stats = some u)
    ∧ ∀ (s : SendSideBandwidthEstimation) (time : Nat),
        (s.CreateIntervals E time).monitorIntervals.length = 2 := by
  refine ⟨?_, fun s time => createIntervals_length E s time⟩
  obtain ⟨t, ht, hI⟩ := run_returns E evs
  refine ⟨t, ht, hI, ?_⟩
  intro stats
  obtain ⟨u, hu, _⟩ := sentPacket_returns E t stats hI
  unfold SendSideBandwidthEstimation.SentPacket at hu
  simp only at hu
  cases hlast : (t.sentOffer stats).monitorIntervals.getLast? with
  | none =>
    rw [hlast] at hu
    exact absurd hu (by simp)
  | some back =>
    rw [hlast] at hu
    simp only at hu
    cases hhead : ((t.sentOffer stats).sentExpire E back
        (usub stats.time (t.sentOffer stats).firstSent)).monitorIntervals.head? with
    | none =>
      rw [hhead] at hu
      exact absurd hu (by simp)
    | some front =>
      rw [hhead] at hu
      exact ⟨back, front, u, rfl, hhead, by
        unfold SendSideBandwidthEstimation.SentPacket
        simp only [hlast, hhead]
        exact hu⟩

theorem C28_back_and_front_exist_witness :
    ∃ t, SendSideBandwidthEstimation.fresh.run (Env.sample 0) zeroTimeTriple = some t
      ∧ (t.firstSent ≠ 0 → t.monitorIntervals ≠ [])
      ∧ ∃ back front u,
          (t.sentOffer stalledPairPacket).monitorIntervals.getLast? = some back
          ∧ ((t.sentOffer stalledPairPacket).sentExpire (Env.sample 0) back
              (usub stalledPairPacket.time
                (t.sentOffer stalledPairPacket).firstSent)).monitorIntervals.head?
              = some front
          ∧ t.SentPacket (Env.sample 0) stalledPairPacket = some u :=
  (C28_back_and_front_exist (Env.sample 0) zeroTimeTriple).1.elim
    fun t ht => ⟨t, ht.1, ht.2.1, ht.2.2 stalledPairPacket⟩

/-! ## The target bitrate in force (C25) -/

theorem firstOpenTarget_skips_done (pre : List MonitorInterval) (m : MonitorInterval)
    (post : List MonitorInterval) (hpre : ∀ x ∈ pre, x.feedbackCollectionDone = true)
    (hm : m.feedbackCollectionDone = false) :
    firstOpenTarget (pre ++ m :: post) = some m.target := by
  induction pre with
  | nil =>
    simp [firstOpenTarget, MonitorInterval.IsFeedbackCollectionDone, hm,
      MonitorInterval.GetTargetBitrate]
  | cons x xs ih =>
    have hx : x.feedbackCollectionDone = true := hpre x (List.mem_cons_self _ _)
    simp only [List.cons_append, firstOpenTarget, MonitorInterval.IsFeedbackCollectionDone, hx,
      Bool.not_true, Bool.false_eq_true, if_false]
    exact ih (fun y hy => hpre y (List.mem_cons_of_mem _ hy))

theorem firstOpenTarget_all_done (ms : List MonitorInterval)
    (h : ∀ x ∈ ms, x.feedbackCollectionDone = true) : firstOpenTarget ms = none := by
  induction ms with
  | nil => rfl
  | cons x xs ih =>
    have hx : x.feedbackCollectionDone = true := h x (List.mem_cons_self _ _)
    simp only [firstOpenTarget, MonitorInterval.IsFeedbackCollectionDone, hx, Bool.not_true,
      Bool.false_eq_true, if_false]
    exact ih (fun y hy => h y (List.mem_cons_of_mem _ hy))

/-- C25, as stated, fails: `GetTargetBitrate` returns `uint32_t`. After the stalled startup
with the coin at +1 the second probing interval has the target `2 ^ 64 - 4000`; once the
first interval is done, `GetTargetBitrate` returns 4294963296, not that target. -/
theorem C25_truncated_target_counterexample :
    (SendSideBandwidthEstimation.fresh.run (Env.sample 1) secondIntervalOpen).map
        (fun t => (t.monitorIntervals.map (fun m => (m.feedbackCollectionDone, m.target)),
          t.GetTargetBitrate))
      = some ([(true, 4000), (false, 18446744073709547616)], 4294963296) := by
  decide

/-- C25, amended. `GetTargetBitrate` returns, reduced to 32 bits, the target bitrate of the
first interval in list order whose feedback collection is not done, and the bandwidth
estimate when there is no interval or every interval is done; a value below `2 ^ 32` is
returned as it is. It is a function of the state and changes nothing. -/
theorem C25_target_bitrate (s : SendSideBandwidthEstimation) :
    (∀ (pre : List MonitorInterval) (m : MonitorInterval) (post : List MonitorInterval),
        s.monitorIntervals = pre ++ m :: post →
        (∀ x ∈ pre, x.feedbackCollectionDone = true) →
        m.feedbackCollectionDone = false →
          s.GetTargetBitrate = m.target % twoPow32
          ∧ (m.target < twoPow32 → s.GetTargetBitrate = m.target))
    ∧ ((∀ x ∈ s.monitorIntervals, x.feedbackCollectionDone = true) →
          s.GetTargetBitrate = s.bandwidthEstimation % twoPow32
          ∧ (s.bandwidthEstimation < twoPow32 → s.GetTargetBitrate = s.bandwidthEstimation))
    ∧ (s.monitorIntervals = [] → s.GetTargetBitrate = s.bandwidthEstimation % twoPow32) := by
  have hdone : (∀ x ∈ s.monitorIntervals, x.feedbackCollectionDone = true) →
      s.GetTargetBitrate = s.bandwidthEstimation % twoPow32 := by
    intro h
    unfold SendSideBandwidthEstimation.GetTargetBitrate
    rw [firstOpenTarget_all_done _ h]
  refine ⟨?_, ?_, ?_⟩
  · intro pre m post hs hpre hm
    have hval : s.GetTargetBitrate = m.target % twoPow32 := by
      unfold SendSideBandwidthEstimation.GetTargetBitrate
      rw [hs, firstOpenTarget_skips_done pre m post hpre hm]
    exact ⟨hval, fun hlt => by rw [hval, Nat.mod_eq_of_lt hlt]⟩
  · intro h
    exact ⟨hdone h, fun hlt => by rw [hdone h, Nat.mod_eq_of_lt hlt]⟩
  · intro hnil
    apply hdone
    rw [hnil]
    intro x hx
    simp at hx

theorem C25_target_bitrate_witness :
    lossyPair.GetTargetBitrate = 1100000
    ∧ SendSideBandwidthEstimation.fresh.GetTargetBitrate
        = SendSideBandwidthEstimation.fresh.bandwidthEstimation % twoPow32 :=
  ⟨((C25_target_bitrate lossyPair).1 [] (lossyInterval 1100000 0)
      [lossyInterval 900000 250000] rfl (by decide) (by decide)).2 (by decide),
    (C25_target_bitrate SendSideBandwidthEstimation.fresh).2.2 rfl⟩

/-! ## Affine delays (C26) -/

theorem sum_centred_affine (c a b : ℚ) (l : List (Nat × Int)) :
    (l.map (fun x => ((x.1 : ℚ) - c) * (a + b * (x.1 : ℚ)))).sum
      = a * (l.map (fun x => (x.1 : ℚ) - c)).sum
        + b * (l.map (fun x => ((x.1 : ℚ) - c) * (x.1 : ℚ))).sum := by
  induction l with
  | nil => simp
  | cons x xs ih =>
    simp only [List.map_cons, List.sum_cons]
    rw [ih]
    ring

theorem sum_centred_square (c : ℚ) (l : List (Nat × Int)) :
    (l.map (fun x => ((x.1 : ℚ) - c) ^ 2)).sum
      = (l.map (fun x => ((x.1 : ℚ) - c) * (x.1 : ℚ))).sum
        - c * (l.map (fun x => (x.1 : ℚ) - c)).sum := by
  induction l with
  | nil => simp
  | cons x xs ih =>
    simp only [List.map_cons, List.sum_cons]
    rw [ih]
    ring

theorem centredNumerator_affine (l : List (Nat × Int)) (a b : ℚ)
    (haff : ∀ x ∈ l, (x.2 : ℚ) = a + b * (x.1 : ℚ)) :
    centredNumerator l = b * centredDenominator l := by
  rw [← uncentred_numerator_eq, delayScaled_eq]
  have hmap : l.map (fun x => ((x.1 : ℚ) - meanTime l) * (x.2 : ℚ))
      = l.map (fun x => ((x.1 : ℚ) - meanTime l) * (a + b * (x.1 : ℚ))) := by
    apply List.map_congr_left
    intro x hx
    rw [haff x hx]
  simp only
  rw [hmap, sum_centred_affine, sum_centred_mean]
  unfold centredDenominator
  rw [sum_centred_square, sum_centred_mean]
  ring

theorem centredDenominator_pos (l : List (Nat × Int))
    (hdist : ∃ x ∈ l, ∃ y ∈ l, x.1 ≠ y.1) : centredDenominator l ≠ 0 := by
  obtain ⟨x, hx, y, hy, hxy⟩ := hdist
  have hsome : ∃ z ∈ l, (z.1 : ℚ) ≠ meanTime l := by
    by_cases hxm : (x.1 : ℚ) = meanTime l
    · refine ⟨y, hy, ?_⟩
      intro hym
      apply hxy
      have : (x.1 : ℚ) = (y.1 : ℚ) := by rw [hxm, hym]
      exact_mod_cast this
    · exact ⟨x, hx, hxm⟩
  obtain ⟨z, hz, hzm⟩ := hsome
  have hnonneg : ∀ q ∈ l.map (fun x => ((x.1 : ℚ) - meanTime l) ^ 2), 0 ≤ q := by
    intro q hq
    simp only [List.mem_map] at hq
    obtain ⟨w, _, rfl⟩ := hq
    positivity
  have hmem : ((z.1 : ℚ) - meanTime l) ^ 2 ∈ l.map (fun x => ((x.1 : ℚ) - meanTime l) ^ 2) :=
    List.mem_map_of_mem (fun x : Nat × Int => ((x.1 : ℚ) - meanTime l) ^ 2) hz
  have hle := List.single_le_sum hnonneg _ hmem
  have hpos : 0 < ((z.1 : ℚ) - meanTime l) ^ 2 := by
    have : (z.1 : ℚ) - meanTime l ≠ 0 := sub_ne_zero.mpr hzm
    positivity
  unfold centredDenominator
  linarith

/-- C26. Over exact arithmetic, when the delay samples of an interval are an affine function
`d = a + b * t` of the send time and two samples have different send times,
`ComputeDelayGradient` returns `b`; in particular flat delays give 0. -/
theorem C26_affine_delays (m : MonitorInterval) (a b : ℚ)
    (haff : ∀ x ∈ m.deltas, (x.2 : ℚ) = a + b * (x.1 : ℚ))
    (hdist : ∃ x ∈ m.deltas, ∃ y ∈ m.deltas, x.1 ≠ y.1) :
    m.ComputeDelayGradient = b ∧ (b = 0 → m.ComputeDelayGradient = 0) := by
  have hden := centredDenominator_pos m.deltas hdist
  have hval : m.ComputeDelayGradient = b := by
    unfold MonitorInterval.ComputeDelayGradient
    simp only
    rw [code_denominator_eq, uncentred_numerator_eq, if_pos hden,
      centredNumerator_affine m.deltas a b haff]
    field_simp
  exact ⟨hval, fun hb => by rw [hval, hb]⟩

theorem C26_affine_delays_witness :
    risingInterval.ComputeDelayGradient = 1 / 100 :=
  (C26_affine_delays risingInterval 0 (1 / 100)
    (by
      have hd : risingInterval.deltas = [(0, 0), (10000, 100), (20000, 200)] := by decide
      rw [hd]
      intro x hx
      simp only [List.mem_cons, List.mem_singleton, List.not_mem_nil, or_false] at hx
      rcases hx with rfl | rfl | rfl <;> norm_num)
    ⟨(0, 0), by decide, (10000, 100), by decide, by decide⟩).1

/-! ## The history of sent packets under feedback (C23) -/

theorem mapInsert_mem (k : Nat) (v : PacketStats) (entries : List (Nat × PacketStats)) :
    ∀ e ∈ mapInsert k v entries, e = (k, v) ∨ e ∈ entries := by
  induction entries with
  | nil =>
    intro e he
    simp only [mapInsert, List.mem_singleton] at he
    exact Or.inl he
  | cons x xs ih =>
    intro e he
    unfold mapInsert at he
    split_ifs at he with h1 h2
    · simp only [List.mem_cons] at he ⊢
      rcases he with h | h | h
      · exact Or.inl h
      · exact Or.inr (Or.inl h)
      · exact Or.inr (Or.inr h)
    · simp only [List.mem_cons] at he ⊢
      rcases he with h | h
      · exact Or.inl h
      · exact Or.inr (Or.inr h)
    · simp only [List.mem_cons] at he ⊢
      rcases he with h | h
      · exact Or.inr (Or.inl h)
      · rcases ih e h with h3 | h3
        · exact Or.inl h3
        · exact Or.inr (Or.inr h3)

theorem mapInsert_keysAscending (k : Nat) (v : PacketStats)
    (entries : List (Nat × PacketStats)) (h : KeysAscending entries) :
    KeysAscending (mapInsert k v entries) := by
  unfold KeysAscending at h ⊢
  induction entries with
  | nil => simp [mapInsert]
  | cons x xs ih =>
    rw [List.pairwise_cons] at h
    unfold mapInsert
    split_ifs with h1 h2
    · rw [List.pairwise_cons]
      refine ⟨?_, List.pairwise_cons.mpr h⟩
      intro e he
      simp only [List.mem_cons] at he
      rcases he with rfl | he
      · exact h1
      · exact Nat.lt_trans h1 (h.1 e he)
    · rw [List.pairwise_cons]
      refine ⟨?_, h.2⟩
      intro e he
      show k < e.1
      rw [h2]
      exact h.1 e he
    · rw [List.pairwise_cons]
      refine ⟨?_, ih h.2⟩
      intro e he
      rcases mapInsert_mem k v xs e he with rfl | he2
      · show x.1 < k
        omega
      · exact h.1 e he2

theorem mapErase_sublist (k : Nat) (entries : List (Nat × PacketStats)) :
    List.Sublist (mapErase k entries) entries := by
  induction entries with
  | nil => exact List.Sublist.refl _
  | cons x xs ih =>
    unfold mapErase
    split_ifs
    · exact List.sublist_cons_self x xs
    · exact List.Sublist.cons₂ x ih

theorem eraseWhile_sublist (cond : Bool) (entries : List (Nat × PacketStats)) :
    List.Sublist (eraseWhile cond entries) entries := by
  induction entries with
  | nil => exact List.Sublist.refl _
  | cons x xs ih =>
    unfold eraseWhile
    split_ifs
    · exact List.Sublist.cons x ih
    · exact List.Sublist.refl _

theorem mapErase_eq_filter (k : Nat) (entries : List (Nat × PacketStats))
    (h : KeysAscending entries) :
    mapErase k entries = entries.filter (fun e => decide (e.1 ≠ k)) := by
  unfold KeysAscending at h
  induction entries with
  | nil => rfl
  | cons x xs ih =>
    rw [List.pairwise_cons] at h
    unfold mapErase
    split_ifs with h1
    · rw [List.filter_cons_of_neg (by simp [h1])]
      symm
      rw [List.filter_eq_self]
      intro e he
      have := h.1 e he
      simp only [ne_eq, decide_not, Bool.not_eq_true', decide_eq_false_iff_not]
      omega
    · rw [List.filter_cons_of_pos (by simp [h1]), ih h.2]

theorem feedbackPacket_map (E : Env) (s : SendSideBandwidthEstimation)
    (transportSeqNum receivedTime : Nat) (h : KeysAscending s.transportWideSentPacketsStats) :
    (s.feedbackPacket E transportSeqNum receivedTime).transportWideSentPacketsStats
      = s.transportWideSentPacketsStats.filter (fun e => decide (e.1 ≠ transportSeqNum)) := by
  rw [← mapErase_eq_filter _ _ h]
  cases hfind : mapFind transportSeqNum s.transportWideSentPacketsStats with
  | none =>
    rw [feedbackPacket_absent E s _ _ hfind]
    have habsent : ∀ entries : List (Nat × PacketStats),
        mapFind transportSeqNum entries = none → mapErase transportSeqNum entries = entries := by
      intro entries
      induction entries with
      | nil => intro _; rfl
      | cons x xs ih =>
        intro hf
        unfold mapFind at hf
        unfold mapErase
        split_ifs at hf ⊢ with h1
        rw [ih hf]
    exact (habsent _ hfind).symm
  | some stat =>
    unfold SendSideBandwidthEstimation.feedbackPacket
    rw [hfind]
    simp only
    split_ifs <;> simp [createIntervals_frame, estimate_frame]

theorem feedback_foldl_map (E : Env) (packets : List (Nat × Nat)) :
    ∀ s : SendSideBandwidthEstimation, KeysAscending s.transportWideSentPacketsStats →
      (packets.foldl (fun st feedback => st.feedbackPacket E feedback.1 feedback.2)
          s).transportWideSentPacketsStats
        = s.transportWideSentPacketsStats.filter
            (fun e => decide (e.1 ∉ packets.map Prod.fst)) := by
  induction packets with
  | nil =>
    intro s _
    simp
  | cons p ps ih =>
    intro s h
    simp only [List.foldl_cons]
    have hmap := feedbackPacket_map E s p.1 p.2 h
    have hasc : KeysAscending (s.feedbackPacket E p.1 p.2).transportWideSentPacketsStats := by
      rw [hmap]
      exact List.Pairwise.sublist (List.filter_sublist _) h
    rw [ih _ hasc, hmap, List.filter_filter]
    apply List.filter_congr
    intro e _
    simp only [List.map_cons, List.mem_cons, not_or, ne_eq, decide_not, Bool.decide_and,
      Bool.and_comm]

theorem sentPacket_keysAscending (E : Env) (s t : SendSideBandwidthEstimation)
    (stats : PacketStats) (h : KeysAscending s.transportWideSentPacketsStats)
    (hsp : s.SentPacket E stats = some t) :
    KeysAscending t.transportWideSentPacketsStats := by
  have hoff : (s.sentOffer stats).transportWideSentPacketsStats
      = s.transportWideSentPacketsStats := by
    unfold SendSideBandwidthEstimation.sentOffer
    split <;> rfl
  unfold SendSideBandwidthEstimation.SentPacket at hsp
  simp only at hsp
  split at hsp
  · exact absurd hsp (by simp)
  · split at hsp
    · exact absurd hsp (by simp)
    · simp only [Option.some.injEq] at hsp
      subst hsp
      simp only [SendSideBandwidthEstimation.sentRecord]
      apply List.Pairwise.sublist (eraseWhile_sublist _ _)
      apply mapInsert_keysAscending
      unfold SendSideBandwidthEstimation.sentExpire
      split
      · rw [(createIntervals_frame E _ _).2.1, (estimate_frame E _).2.2.1, hoff]
        exact h
      · rw [hoff]
        exact h

theorem run_keysAscending (E : Env) (evs : List Event) (t : SendSideBandwidthEstimation)
    (h : SendSideBandwidthEstimation.fresh.run E evs = some t) :
    KeysAscending t.transportWideSentPacketsStats :=
  run_invariant E (fun s => KeysAscending s.transportWideSentPacketsStats)
    (fun s stats t hs hsp => sentPacket_keysAscending E s t stats hs hsp)
    (fun s seq recv hs => by
      show KeysAscending (s.feedbackPacket E seq recv).transportWideSentPacketsStats
      rw [feedbackPacket_map E s seq recv hs]
      exact List.Pairwise.sublist (List.filter_sublist _) hs)
    (fun _ _ hs => hs) (fun _ _ hs => hs) evs SendSideBandwidthEstimation.fresh t
    (show KeysAscending [] from List.Pairwise.nil) h

/-- C23. The history of sent packets of every state reached from a fresh estimator has
strictly ascending keys, and `ReceivedFeedback` on such a state returns with exactly the
entries of the previous history whose key does not occur in the batch, unchanged and in the
same order: every matched key is erased, whatever its receive time and whether or not an
estimation step ran, and nothing else is added or removed. -/
theorem C23_feedback_erases_batch (E : Env) :
    (∀ evs : List Event, ∃ t, SendSideBandwidthEstimation.fresh.run E evs = some t
        ∧ KeysAscending t.transportWideSentPacketsStats)
    ∧ ∀ (s : SendSideBandwidthEstimation) (feedbackNum : Nat) (packets : List (Nat × Nat))
        (when : Nat),
        KeysAscending s.transportWideSentPacketsStats →
          (s.ReceivedFeedback E feedbackNum packets when).transportWideSentPacketsStats
            = s.transportWideSentPacketsStats.filter
                (fun e => decide (e.1 ∉ packets.map Prod.fst)) := by
  constructor
  · intro evs
    obtain ⟨t, ht, _⟩ := run_returns E evs
    exact ⟨t, ht, run_keysAscending E evs t ht⟩
  · intro s feedbackNum packets when h
    rw [receivedFeedback_eq_foldl]
    exact feedback_foldl_map E packets s h

theorem C23_feedback_erases_batch_witness :
    stalledOnce.transportWideSentPacketsStats.map Prod.fst = [1, 2]
    ∧ (stalledOnce.ReceivedFeedback (Env.sample 0) 0 [(2, 3270001), (5, 0)]
          3300000).transportWideSentPacketsStats
        = stalledOnce.transportWideSentPacketsStats.filter
            (fun e => decide (e.1 ∉ [(2, 3270001), (5, 0)].map Prod.fst)) :=
  ⟨by decide,
    (C23_feedback_erases_batch (Env.sample 0)).2 stalledOnce 0 [(2, 3270001), (5, 0)] 3300000
      (by
        have hm : stalledOnce.transportWideSentPacketsStats
            = [(1, { transportWideSeqNum := 1, time := 1000000, size := 1200 }),
                (2, { transportWideSeqNum := 2, time := 3250001, size := 1200 })] := by decide
        rw [hm]
        simp [KeysAscending])⟩

/-! ## The delay delta after the first received feedback (C27) -/

theorem utilityGradient_of_ne (utility0 utility1 bitrate0 bitrate1 : ℚ)
    (h : bitrate0 ≠ bitrate1) :
    utilityGradient utility0 utility1 bitrate0 bitrate1
      = some ((utility0 - utility1) / (bitrate0 - bitrate1)) := by
  unfold utilityGradient fdiv
  rw [if_neg (sub_ne_zero.mpr h)]

theorem delayGradient_flat (m : MonitorInterval) (h : ∀ x ∈ m.deltas, x.2 = 0) :
    m.ComputeDelayGradient = 0 := by
  have hsum : (m.deltas.map
      (fun x => ((x.1 : ℚ) - meanTime m.deltas) * (x.2 : ℚ))).sum = 0 := by
    apply List.sum_eq_zero
    intro y hy
    obtain ⟨x, hx, hxy⟩ := List.mem_map.mp hy
    rw [← hxy, h x hx]
    simp
  unfold MonitorInterval.ComputeDelayGradient
  simp only
  rw [delayScaled_eq, hsum]
  split <;> simp

/-- The utility of an interval with flat delays, for the stand-in power function of the
sample environment. -/
theorem utility_flat_sample (r : Nat) (m : MonitorInterval) (lost total : Nat)
    (hflat : ∀ x ∈ m.deltas, x.2 = 0) (hlost : m.lostPackets = lost)
    (htotal : m.totalFeedbackedPackets = total) (hne : total ≠ 0) :
    m.ComputeVivaceUtilityFunction (Env.sample r).toFloatEnv
      = (m.GetSentBitrate : ℚ) - 10 * ((lost : ℚ) / (total : ℚ)) * (m.GetSentBitrate : ℚ) := by
  unfold MonitorInterval.ComputeVivaceUtilityFunction
  simp only
  rw [delayGradient_flat m hflat, lossRate_of_counts m lost total hlost htotal hne]
  simp [Env.sample, kLossCoefficient]

/-- C14. In an estimation step with two intervals the target is the mean of the two sent
bitrates when both are non-zero and their sum otherwise. The state becomes `OverShoot`
exactly when the target exceeds the larger of the first interval's target bitrate and the
second interval's received bitrate, and the estimate is then the smaller received bitrate
clamped to `[kMinRate, kMaxRate]`. When the step is not an overshoot and the sent bitrates
differ, the state is `Increase` exactly when `(U0 - U1) / (rate0 - rate1)` is not zero and
`Decrease` exactly when it is zero, as the specification asks. When the sent bitrates are
equal, the gradient of the specification is zero and asks for `Decrease`, but the state is
`Increase`: the quotient is formed with the divisor zero and its result counts as true. -/
theorem C14_equal_rates_select_increase (E : Env) (s : SendSideBandwidthEstimation)
    (m0 m1 : MonitorInterval) (rest : List MonitorInterval)
    (h : s.monitorIntervals = m0 :: m1 :: rest) :
    (m0.GetSentBitrate ≠ 0 ∧ m1.GetSentBitrate ≠ 0 →
        targetSent m0.GetSentBitrate m1.GetSentBitrate
          = (m0.GetSentBitrate + m1.GetSentBitrate) / 2)
    ∧ (¬ (m0.GetSentBitrate ≠ 0 ∧ m1.GetSentBitrate ≠ 0) →
        targetSent m0.GetSentBitrate m1.GetSentBitrate
          = m0.GetSentBitrate + m1.GetSentBitrate)
    ∧ ((s.EstimateBandwidthRate E).state = ChangeState.OverShoot
        ↔ targetSent m0.GetSentBitrate m1.GetSentBitrate
            > max m0.GetTargetBitrate m1.GetReceivedBitrate)
    ∧ (targetSent m0.GetSentBitrate m1.GetSentBitrate
          > max m0.GetTargetBitrate m1.GetReceivedBitrate →
        (s.EstimateBandwidthRate E).bandwidthEstimation
          = min (max (min m0.GetReceivedBitrate m1.GetReceivedBitrate) kMinRate) kMaxRate)
    ∧ (targetSent m0.GetSentBitrate m1.GetSentBitrate
          ≤ max m0.GetTargetBitrate m1.GetReceivedBitrate →
        m0.GetSentBitrate ≠ m1.GetSentBitrate →
        specGradient (m0.ComputeVivaceUtilityFunction E.toFloatEnv)
            (m1.ComputeVivaceUtilityFunction E.toFloatEnv)
            (m0.GetSentBitrate : ℚ) (m1.GetSentBitrate : ℚ)
          = (m0.ComputeVivaceUtilityFunction E.toFloatEnv
              - m1.ComputeVivaceUtilityFunction E.toFloatEnv)
            / ((m0.GetSentBitrate : ℚ) - (m1.GetSentBitrate : ℚ))
        ∧ ((s.EstimateBandwidthRate E).state = ChangeState.Increase
            ↔ (m0.ComputeVivaceUtilityFunction E.toFloatEnv
                - m1.ComputeVivaceUtilityFunction E.toFloatEnv)
              / ((m0.GetSentBitrate : ℚ) - (m1.GetSentBitrate : ℚ)) ≠ 0)
        ∧ ((s.EstimateBandwidthRate E).state = ChangeState.Decrease
            ↔ (m0.ComputeVivaceUtilityFunction E.toFloatEnv
                - m1.ComputeVivaceUtilityFunction E.toFloatEnv)
              / ((m0.GetSentBitrate : ℚ) - (m1.GetSentBitrate : ℚ)) = 0))
    ∧ (targetSent m0.GetSentBitrate m1.GetSentBitrate
          ≤ max m0.GetTargetBitrate m1.GetReceivedBitrate →
        m0.GetSentBitrate = m1.GetSentBitrate →
        specGradient (m0.ComputeVivaceUtilityFunction E.toFloatEnv)
            (m1.ComputeVivaceUtilityFunction E.toFloatEnv)
            (m0.GetSentBitrate : ℚ) (m1.GetSentBitrate : ℚ) = 0
        ∧ (s.EstimateBandwidthRate E).state = ChangeState.Increase
        ∧ (s.EstimateBandwidthRate E).state ≠ ChangeState.Decrease) := by
  have hstate := estimate_pair_state E s m0 m1 rest h
  refine ⟨?_, ?_, ?_, ?_, ?_, ?_⟩
  · intro hb
    unfold targetSent
    rw [if_pos hb]
  · intro hb
    unfold targetSent
    rw [if_neg hb]
  · rw [hstate]
    constructor
    · intro hs
      by_contra hno
      rw [if_neg hno] at hs
      split at hs <;> exact absurd hs (by decide)
    · intro hover
      rw [if_pos hover]
  · intro hover
    exact (estimate_overshoot E s m0 m1 rest h hover).2
  · intro hno hne
    have hneq : (m0.GetSentBitrate : ℚ) ≠ (m1.GetSentBitrate : ℚ) := by
      exact_mod_cast hne
    rw [hstate, if_neg (Nat.not_lt.mpr hno), utilityGradient_of_ne _ _ _ _ hneq]
    refine ⟨?_, ?_, ?_⟩
    · unfold specGradient
      rw [if_neg hneq]
    · by_cases hz : (m0.ComputeVivaceUtilityFunction E.toFloatEnv
          - m1.ComputeVivaceUtilityFunction E.toFloatEnv)
          / ((m0.GetSentBitrate : ℚ) - (m1.GetSentBitrate : ℚ)) = 0
      · simp [ftruthy, hz]
      · simp [ftruthy, hz]
    · by_cases hz : (m0.ComputeVivaceUtilityFunction E.toFloatEnv
          - m1.ComputeVivaceUtilityFunction E.toFloatEnv)
          / ((m0.GetSentBitrate : ℚ) - (m1.GetSentBitrate : ℚ)) = 0
      · simp [ftruthy, hz]
      · simp [ftruthy, hz]
  · intro hno heq
    have hinc := (estimate_equal_rates E s m0 m1 rest h heq hno).1
    refine ⟨?_, hinc, ?_⟩
    · unfold specGradient
      rw [heq, if_pos rfl]
    · rw [hinc]
      decide

theorem C14_equal_rates_select_increase_witness :
    balancedPair.monitorIntervals.map
        (fun m => (m.GetTargetBitrate, m.GetSentBitrate, m.GetReceivedBitrate,
          m.lostPackets, m.deltas.map Prod.snd))
      = [(1100000, 1000000, 1000000, 0, [0, 0]), (900000, 1000000, 1000000, 0, [0, 0])]
    ∧ specGradient
        ((steadyInterval 1100000 0 625).ComputeVivaceUtilityFunction (Env.sample 0).toFloatEnv)
        ((steadyInterval 900000 250000 625).ComputeVivaceUtilityFunction
          (Env.sample 0).toFloatEnv)
        ((steadyInterval 1100000 0 625).GetSentBitrate : ℚ)
        ((steadyInterval 900000 250000 625).GetSentBitrate : ℚ) = 0
    ∧ (balancedPair.EstimateBandwidthRate (Env.sample 0)).state = ChangeState.Increase
    ∧ (followingPair.EstimateBandwidthRate (Env.sample 0)).state = ChangeState.Increase
    ∧ (tenthLossPair.EstimateBandwidthRate (Env.sample 0)).state = ChangeState.Decrease
    ∧ (fifthLossPair.EstimateBandwidthRate (Env.sample 0)).state = ChangeState.OverShoot := by
  have hb := (C14_equal_rates_select_increase (Env.sample 0) balancedPair
    (steadyInterval 1100000 0 625) (steadyInterval 900000 250000 625) [] rfl).2.2.2.2.2
    (by decide) (by decide)
  have hf := ((C14_equal_rates_select_increase (Env.sample 0) followingPair
    (steadyInterval 1100000 0 700) (steadyInterval 900000 250000 550) [] rfl).2.2.2.2.1
    (by decide) (by decide)).2.1
  have ht := ((C14_equal_rates_select_increase (Env.sample 0) tenthLossPair
    (tenthLossInterval 1100000 0 700) (tenthLossInterval 900000 250000 550) [] rfl).2.2.2.2.1
    (by decide) (by decide)).2.2
  have ho := (C14_equal_rates_select_increase (Env.sample 0) fifthLossPair
    (fivePackets 1100000 0 1500 [20000, 36000, 52000, 68000, uint64Max])
    (fivePackets 900000 250000 1300 [270000, 283867, 297734, 311600, uint64Max]) []
    rfl).2.2.1
  refine ⟨by decide, hb.1, hb.2.1, hf.mpr ?_, ht.mpr ?_, ho.mpr (by decide)⟩
  · rw [utility_flat_sample 0 _ 0 2 (by decide) (by decide) (by decide) (by decide),
      utility_flat_sample 0 _ 0 2 (by decide) (by decide) (by decide) (by decide)]
    have h0 : (steadyInterval 1100000 0 700).GetSentBitrate = 1120000 := by decide
    have h1 : (steadyInterval 900000 250000 550).GetSentBitrate = 880000 := by decide
    rw [h0, h1]
    norm_num
  · rw [utility_flat_sample 0 _ 1 10 (by decide) (by decide) (by decide) (by decide),
      utility_flat_sample 0 _ 1 10 (by decide) (by decide) (by decide) (by decide)]
    have h0 : (tenthLossInterval 1100000 0 700).GetSentBitrate = 1120000 := by decide
    have h1 : (tenthLossInterval 900000 250000 550).GetSentBitrate = 880000 := by decide
    rw [h0, h1]
    norm_num

